import Mathlib

/-!
TiXI internals (`src/tixiInternal.c`): a shallow embedding.

The C translation unit is embedded as pure Lean functions.

* C strings are lists of `char`s (the bytes before the terminating NUL).
* An `xmlNodePtr` is a value of `XmlNodePtr`: either `NULL` or a node together
  with the chain reachable through its `children` and `next` links, exactly the
  two links the traversals of the source follow.
* The process-wide document list and the static `handleCounter` form the
  explicit state `DocumentList`.
* Services that live outside the translation unit (XPath evaluation, file
  access, the XML parser and serializer, the helpers of `tixiUtils.c` and
  `tixiImpl.c`) are parameters of the functions that call them.
-/

namespace Tixi

/-- One C string: the `char`s before the terminating NUL. -/
abbrev CString := List Char

/-- Result codes of `tixi.h` that the translation unit returns. -/
inductive ReturnCode
  | SUCCESS
  | FAILED
  | INVALID_XML_NAME
  | INVALID_HANDLE
  | INVALID_XPATH
  | ELEMENT_NOT_FOUND
  | INDEX_OUT_OF_RANGE
  | NO_POINT_FOUND
  | NOT_AN_ELEMENT
  | OPEN_FAILED
  | ELEMENT_PATH_NOT_UNIQUE
  | EROROR_CREATE_ROOT_NODE
  | NO_ATTRIBUTE_NAME
  | COORDINATE_NOT_FOUND
  | INVALID_NAMESPACE_PREFIX
  deriving DecidableEq, Repr

/-- Result codes of `tixiInternal.h`; `SUCESS` is numerically equal to
`SUCCESS`, which is what `addDocumentToList` literally returns. -/
inductive InternalReturnCode
  | SUCESS
  | MEMORY_ALLOCATION_FAILED
  deriving DecidableEq, Repr

/-- Node kinds of libxml2 (`xmlElementType`). -/
inductive XmlElementType
  | XML_ELEMENT_NODE
  | XML_ATTRIBUTE_NODE
  | XML_TEXT_NODE
  | XML_CDATA_SECTION_NODE
  | XML_ENTITY_REF_NODE
  | XML_PI_NODE
  | XML_COMMENT_NODE
  | XML_DOCUMENT_NODE
  deriving DecidableEq, Repr

/-- An `xmlNodePtr`: `NULL`, or a node with its kind, tag name, attribute list
(`properties`), text `content`, first child (`children`) and following sibling
(`next`). -/
inductive XmlNodePtr
  | NULL
  | node (type : XmlElementType) (name : CString) (properties : List (CString × CString))
      (content : CString) (children : XmlNodePtr) (next : XmlNodePtr)
  deriving DecidableEq, Repr

/-- Lifecycle status of a document (`tixiData.h`). -/
inductive DocumentStatus
  | OPENED
  | SAVED
  deriving DecidableEq, Repr

/-- The record `TixiDocument` of `tixiData.h`, with the fields the translation
unit reads or writes. `docPtr` is the chain of top-level nodes of the libxml2
document; the XPath context and cache are determined by `docPtr` and carry no
state of their own here. `memoryListHead`/`memoryListTail` and `uidListHead`
hold the chain reachable from the respective pointer (`[]` for `NULL`). -/
structure TixiDocument where
  handle : Int
  xmlFilename : Option CString
  dirname : Option CString
  filename : Option CString
  validationFilename : Option CString
  docPtr : XmlNodePtr
  isValid : Int
  status : DocumentStatus
  memoryListHead : List CString
  memoryListTail : List CString
  uidListHead : List CString
  hasIncludedExternalFiles : Int
  usePrettyPrint : Int
  deriving DecidableEq, Repr

/-! ## The handle registry -/

/-- The global `documentListHead` chain (each entry dereferenced to its
document) together with the function-static `handleCounter`. -/
structure DocumentList where
  documentListHead : List TixiDocument
  handleCounter : Int
  deriving DecidableEq, Repr

/-- The state at process start: no entry, counter 0. -/
def DocumentList.initial : DocumentList := ⟨[], 0⟩

/-- Value of a C `int` after an arithmetic result `x`: two's complement wrap to
32 bits. -/
def wrapInt32 (x : Int) : Int := (x + 2 ^ 31) % 2 ^ 32 - 2 ^ 31

/-- The routine `addDocumentToList(document, &document->handle)` on a document
object that is not yet in the chain: walk to the end of the chain, link a fresh
entry there (or make it the head), increment the counter and store it through
`handle`. `mallocOk` is the outcome of the one
`malloc`; on failure nothing is written. The third component is the value
stored through `handle`, if any. -/
def addDocumentToList (reg : DocumentList) (document : TixiDocument) (mallocOk : Bool) :
    InternalReturnCode × DocumentList × Option Int :=
  if mallocOk then
    let handleCounter := wrapInt32 (reg.handleCounter + 1)
    (InternalReturnCode.SUCESS,
      ⟨reg.documentListHead ++ [{ document with handle := handleCounter }], handleCounter⟩,
      some handleCounter)
  else
    (InternalReturnCode.MEMORY_ALLOCATION_FAILED, reg, none)

/-- The loop of `removeDocumentFromList`: skip entries whose document has another
handle, splice out the first entry that matches and stop. -/
def removeEntry (handle : Int) : List TixiDocument → List TixiDocument
  | [] => []
  | d :: rest => if d.handle ≠ handle then d :: removeEntry handle rest else rest

/-- The routine `removeDocumentFromList`: `returnValue` starts as `SUCCESS` and
is set to `FAILED` only when the chain is empty. -/
def removeDocumentFromList (reg : DocumentList) (handle : Int) : ReturnCode × DocumentList :=
  match reg.documentListHead with
  | [] => (ReturnCode.FAILED, reg)
  | d :: rest => (ReturnCode.SUCCESS, { reg with documentListHead := removeEntry handle (d :: rest) })

/-- The loop of `getDocument` over the chain: first entry whose document carries
the handle. -/
def getDocumentFrom (handle : Int) : List TixiDocument → Option TixiDocument
  | [] => none
  | d :: rest => if d.handle ≠ handle then getDocumentFrom handle rest else some d

/-- The routine `getDocument`; `none` is the `NULL` result. -/
def getDocument (reg : DocumentList) (handle : Int) : Option TixiDocument :=
  getDocumentFrom handle reg.documentListHead

/-- One call on the registry: a registration (with the outcome of its `malloc`)
or an unregistration. -/
inductive RegistryCall
  | register (document : TixiDocument) (mallocOk : Bool)
  | unregister (handle : Int)
  deriving DecidableEq, Repr

/-- State after one call. -/
def RegistryCall.apply (reg : DocumentList) : RegistryCall → DocumentList
  | .register document mallocOk => (addDocumentToList reg document mallocOk).2.1
  | .unregister handle => (removeDocumentFromList reg handle).2

/-- State after a sequence of calls. -/
def runCalls (reg : DocumentList) : List RegistryCall → DocumentList
  | [] => reg
  | c :: cs => runCalls (c.apply reg) cs

/-- Handles stored by the successful registrations of a sequence, in call
order. -/
def returnedHandles (reg : DocumentList) : List RegistryCall → List Int
  | [] => []
  | .register document mallocOk :: cs =>
    match (addDocumentToList reg document mallocOk).2.2 with
    | some h => h :: returnedHandles (addDocumentToList reg document mallocOk).2.1 cs
    | none => returnedHandles (addDocumentToList reg document mallocOk).2.1 cs
  | .unregister handle :: cs => returnedHandles (removeDocumentFromList reg handle).2 cs

/-- Number of registrations of a sequence whose allocation succeeds. -/
def successfulRegistrations : List RegistryCall → Nat
  | [] => 0
  | .register _ mallocOk :: cs => (if mallocOk then 1 else 0) + successfulRegistrations cs
  | .unregister _ :: cs => successfulRegistrations cs

/-- The registry as the specification describes it: a table from handle to
document. A successful registration binds the returned handle to the document
(whose handle field now holds it); an unregistration clears the binding. -/
def tableAfter (reg : DocumentList) (table : Int → Option TixiDocument) :
    List RegistryCall → Int → Option TixiDocument
  | [] => table
  | .register document mallocOk :: cs =>
    match (addDocumentToList reg document mallocOk).2.2 with
    | some h =>
      tableAfter (addDocumentToList reg document mallocOk).2.1
        (Function.update table h (some { document with handle := h })) cs
    | none => tableAfter (addDocumentToList reg document mallocOk).2.1 table cs
  | .unregister handle :: cs =>
    tableAfter (removeDocumentFromList reg handle).2 (Function.update table handle none) cs

/-- Invariant of the registry: the counter is non-negative, every chained
document carries a positive handle not above the counter, and no handle occurs
twice in the chain. -/
structure RegInv (reg : DocumentList) : Prop where
  counter_nonneg : 0 ≤ reg.handleCounter
  handle_range : ∀ d ∈ reg.documentListHead, 0 < d.handle ∧ d.handle ≤ reg.handleCounter
  nodup : (reg.documentListHead.map (fun d => d.handle)).Nodup

/-- A document record used for concrete evaluations: a freshly created document
whose tree is `<root/>`. -/
def demoDocument : TixiDocument :=
  { handle := 0, xmlFilename := none, dirname := none, filename := none,
    validationFilename := none,
    docPtr := XmlNodePtr.node XmlElementType.XML_ELEMENT_NODE "root".toList [] []
      XmlNodePtr.NULL XmlNodePtr.NULL,
    isValid := 0, status := DocumentStatus.OPENED, memoryListHead := [], memoryListTail := [],
    uidListHead := [], hasIncludedExternalFiles := 0, usePrettyPrint := 1 }

/-- A concrete call sequence: two registrations, the first handle unregistered,
a failed registration, a third registration. -/
def demoCalls : List RegistryCall :=
  [RegistryCall.register demoDocument true, RegistryCall.register demoDocument true,
    RegistryCall.unregister 1, RegistryCall.register demoDocument false,
    RegistryCall.register demoDocument true]

/-! ## Path resolution -/

/-- The result object of the XPath evaluator: `nodesetval` is `NULL` (`none`, for
a result that is not a node set) or the table of matched nodes. -/
structure XmlXPathObject (ν : Type) where
  nodesetval : Option (List ν)
  deriving DecidableEq

/-- The macro `xmlXPathNodeSetIsEmpty` of libxml2: a `NULL` set or a set without
nodes. -/
def xmlXPathNodeSetIsEmpty {ν : Type} : Option (List ν) → Bool
  | none => true
  | some nodes => nodes.isEmpty

/-- Size of the local buffer `elementPath` of `checkElement`. -/
def elementPathSize : Nat := 1024

/-- The canonicalisation at the start of `checkElement`, on a buffer that holds a
terminated string: a last character `/` is cut off when the string is longer
than one character. -/
def removeTrailingSlash (elementPath : CString) : CString :=
  if elementPath.length > 1 ∧ elementPath.getLast? = some '/' then elementPath.dropLast
  else elementPath

/-- The routine `checkElement`. The XPath context is given by the evaluator
`xmlXPathEvalExpression` bound to it (`none` for a `NULL` result object) and by
`nodeType`, the kind of a matched node. The outer `none` stands for undefined
behaviour: `strncpy` leaves the 1024-byte buffer unterminated when the argument
has 1024 characters or more, and `strlen` then reads past it. Otherwise the
result is the return code and the node stored through `element`, if any. -/
def checkElement {ν : Type} (nodeType : ν → XmlElementType)
    (xmlXPathEvalExpression : CString → Option (XmlXPathObject ν))
    (elementPathDirty : CString) : Option (ReturnCode × Option ν) :=
  if elementPathDirty.length < elementPathSize then
    let elementPath := removeTrailingSlash elementPathDirty
    match xmlXPathEvalExpression elementPath with
    | none => some (ReturnCode.INVALID_XPATH, none)
    | some xpathObject =>
      if xmlXPathNodeSetIsEmpty xpathObject.nodesetval then
        some (ReturnCode.ELEMENT_NOT_FOUND, none)
      else
        match xpathObject.nodesetval with
        | none => some (ReturnCode.ELEMENT_NOT_FOUND, none)
        | some [] => some (ReturnCode.ELEMENT_NOT_FOUND, none)
        | some (first :: more) =>
          if (first :: more).length > 1 then
            some (ReturnCode.ELEMENT_PATH_NOT_UNIQUE, none)
          else if nodeType first = XmlElementType.XML_ELEMENT_NODE ∨
              nodeType first = XmlElementType.XML_DOCUMENT_NODE ∨
              nodeType first = XmlElementType.XML_TEXT_NODE then
            some (ReturnCode.SUCCESS, some first)
          else
            some (ReturnCode.NOT_AN_ELEMENT, none)
  else
    none

/-- The nodes an expression matches under an evaluator result: the node table,
empty when `nodesetval` is `NULL`. -/
def matchedNodes {ν : Type} (xpathObject : XmlXPathObject ν) : List ν :=
  xpathObject.nodesetval.getD []

/-- An evaluator for concrete evaluations: every expression matches the nodes
`0, 1, ..` up to the length of the expression minus one; node `0` is an element,
node `1` a comment. The empty expression is rejected. -/
def demoEval (elementPath : CString) : Option (XmlXPathObject Nat) :=
  if elementPath.isEmpty then none else some ⟨some (List.range (elementPath.length - 1))⟩

/-- Node kinds for `demoEval`. -/
def demoNodeType (n : Nat) : XmlElementType :=
  if n = 0 then XmlElementType.XML_ELEMENT_NODE else XmlElementType.XML_COMMENT_NODE

/-! ## External data: attributes, reference nodes and the split direction -/

/-- Modelled from the spec: the macro `EXTERNAL_DATA_XML_ATTR_NODEPATH`
(`tixiData.h`, not part of this translation unit), the restoration attribute
holding the path of the former parent. -/
def EXTERNAL_DATA_XML_ATTR_NODEPATH : CString := "externalDataNodePath".toList

/-- Modelled from the spec: the macro `EXTERNAL_DATA_XML_ATTR_FILENAME`, the
restoration attribute holding the original file name. -/
def EXTERNAL_DATA_XML_ATTR_FILENAME : CString := "externalFileName".toList

/-- Modelled from the spec: the macro `EXTERNAL_DATA_XML_ATTR_DIRECTORY`, the
restoration attribute holding the source directory. -/
def EXTERNAL_DATA_XML_ATTR_DIRECTORY : CString := "externalDataDirectory".toList

/-- Modelled from the spec: the macro `EXTERNAL_DATA_NODE_NAME`, the reserved tag
of a reference node (the source queries it as `//externaldata`). -/
def EXTERNAL_DATA_NODE_NAME : CString := "externaldata".toList

/-- Modelled from the spec: the macro `EXTERNAL_DATA_NODE_NAME_PATH`, the tag of
the directory child of a reference node. -/
def EXTERNAL_DATA_NODE_NAME_PATH : CString := "path".toList

/-- Modelled from the spec: the macro `EXTERNAL_DATA_NODE_NAME_FILENAME`, the tag
of a file name child (the source addresses it as `filename[%d]`). -/
def EXTERNAL_DATA_NODE_NAME_FILENAME : CString := "filename".toList

/-- First value recorded for an attribute name in an attribute list. -/
def lookupProp (name : CString) : List (CString × CString) → Option CString
  | [] => none
  | (n, v) :: rest => if n = name then some v else lookupProp name rest

/-- Attribute list without the first attribute of the given name. -/
def eraseProp (name : CString) : List (CString × CString) → List (CString × CString)
  | [] => []
  | (n, v) :: rest => if n = name then rest else (n, v) :: eraseProp name rest

/-- Attribute list with the attribute set: its value is replaced when the name is
present, otherwise the attribute is appended. -/
def setProp (name value : CString) : List (CString × CString) → List (CString × CString)
  | [] => [(name, value)]
  | (n, v) :: rest => if n = name then (n, value) :: rest else (n, v) :: setProp name value rest

/-- The libxml2 call `xmlGetProp`: `NULL` for a `NULL` node, for a node that is
not an element, and for an absent attribute. -/
def xmlGetProp : XmlNodePtr → CString → Option CString
  | .NULL, _ => none
  | .node type _ properties _ _ _, name =>
    if type = XmlElementType.XML_ELEMENT_NODE then lookupProp name properties else none

/-- The libxml2 call `xmlUnsetProp` on a node. -/
def xmlUnsetProp : XmlNodePtr → CString → XmlNodePtr
  | .NULL, _ => .NULL
  | .node type n properties content children next, name =>
    if type = XmlElementType.XML_ELEMENT_NODE then
      .node type n (eraseProp name properties) content children next
    else .node type n properties content children next

/-- The libxml2 call `xmlSetProp` on a node. -/
def xmlSetProp : XmlNodePtr → CString → CString → XmlNodePtr
  | .NULL, _, _ => .NULL
  | .node type n properties content children next, name, value =>
    if type = XmlElementType.XML_ELEMENT_NODE then
      .node type n (setProp name value properties) content children next
    else .node type n properties content children next

/-- The routine `checkExternalNode`: `SUCCESS` when the three attributes are all
found, `FAILED` at the first one that is missing. -/
def checkExternalNode (element : XmlNodePtr) : ReturnCode :=
  match xmlGetProp element EXTERNAL_DATA_XML_ATTR_NODEPATH with
  | none => ReturnCode.FAILED
  | some _ =>
    match xmlGetProp element EXTERNAL_DATA_XML_ATTR_FILENAME with
    | none => ReturnCode.FAILED
    | some _ =>
      match xmlGetProp element EXTERNAL_DATA_XML_ATTR_DIRECTORY with
      | none => ReturnCode.FAILED
      | some _ => ReturnCode.SUCCESS

/-- The libxml2 call `xmlNewText`: a text node with the given content. -/
def xmlNewText (content : CString) : XmlNodePtr :=
  .node XmlElementType.XML_TEXT_NODE "text".toList [] content .NULL .NULL

/-- The libxml2 call `xmlNewNode(NULL, name)` with the children it is given
afterwards through `xmlAddChild`. -/
def xmlNewNode (name : CString) (children : XmlNodePtr) (next : XmlNodePtr) : XmlNodePtr :=
  .node XmlElementType.XML_ELEMENT_NODE name [] [] children next

/-- Text child added when the string is not `NULL`. -/
def optionalText : Option CString → XmlNodePtr
  | none => .NULL
  | some s => xmlNewText s

/-- The routine `createExternalNode`: an `externaldata` element with a `path`
child followed by a `filename` child; each gets a text child when the
corresponding argument is not `NULL`. -/
def createExternalNode (urlPath filename : Option CString) : XmlNodePtr :=
  xmlNewNode EXTERNAL_DATA_NODE_NAME
    (xmlNewNode EXTERNAL_DATA_NODE_NAME_PATH (optionalText urlPath)
      (xmlNewNode EXTERNAL_DATA_NODE_NAME_FILENAME (optionalText filename) .NULL))
    .NULL

/-- The node with its `next` link set (the link a node receives from
`xmlReplaceNode` or `xmlAddChild`). -/
def XmlNodePtr.withNext : XmlNodePtr → XmlNodePtr → XmlNodePtr
  | .NULL, _ => .NULL
  | .node type n properties content children _, next =>
    .node type n properties content children next

/-- The libxml2 call `xmlDocCopyNode(node, doc, 1)`: the node with its subtree,
without siblings. -/
def xmlDocCopyNode (node : XmlNodePtr) : XmlNodePtr := node.withNext .NULL

/-- Services outside the translation unit: helpers of `tixiUtils.c` and
`tixiImpl.c`, libxml2 parsing, path generation and serialisation, file and
network access. Each field is the function of the same name; results that are C
pointers are `Option`s with `none` for `NULL`.

* `tixiGetTextElement doc path` is the return code and the string that the
  caller's variable holds after the call on the document with tree `doc` (the
  document registered under `aTixiDocument->handle`, which is `aTixiDocument`
  itself); the translation unit ignores the return code for file names, so the
  string is given for a failed call as well;
* `tixiGetNamedChildrenCount doc path name` is the count the caller's variable
  holds after the call;
* `xmlGetNodePath doc position` is the path string for the node at the position;
* `xmlReadMemory` yields the chain of top-level nodes of the parsed document;
* `XPathEvaluateExpression doc expr` is the result object of the cached
  evaluator, its nodes given by their positions in `doc`;
* `xmlNewDoc` tells whether the allocation of a new document succeeds;
* `xmlSaveFormatFileEnc file doc format` is the return value of the serialiser
  (`-1` on failure). -/
structure Env where
  resolveDirectory : Option CString → Option CString → CString
  localPathToURI : CString → CString
  uriToLocalPath : CString → Option CString
  isURIPath : CString → Int
  loadFileToString : CString → Option CString
  curlGetURLInMemory : CString → Option CString
  xmlReadMemory : CString → Option XmlNodePtr
  xmlGetNodePath : XmlNodePtr → List Nat → CString
  tixiGetTextElement : XmlNodePtr → CString → ReturnCode × CString
  tixiGetNamedChildrenCount : XmlNodePtr → CString → CString → Int
  XPathEvaluateExpression : XmlNodePtr → CString → Option (XmlXPathObject (List Nat))
  xmlNewDoc : Bool
  xmlSaveFormatFileEnc : CString → XmlNodePtr → Int → Int
  strip_dirname : CString → Option CString × Option CString

/-- Modelled from the spec: `string_startsWith(s, prefix) == 0` (`tixiUtils.c`,
not part of this translation unit) holds when `s` starts with `prefix`; the
source uses it to tell `file://` locations from other schemes. -/
def string_startsWith (s pre : CString) : Int := if pre.isPrefixOf s then 0 else 1

/-- One call of the serialiser on an external file: target name and the tree of
the standalone document. -/
structure WrittenFile where
  fileName : CString
  root : XmlNodePtr
  deriving DecidableEq, Repr

/-- The routine `saveExternalFiles` on the chain starting at `aNodePtr`; `dirname`
is `aTixiDocument->dirname`. For every node of the chain: the children are
processed first (their return code is dropped); a node for which
`checkExternalNode` fails is skipped; an element that passes has its three
attributes read and removed, a copy written to
`uriToLocalPath(dirResolved) + externalFileName` when `dirResolved` starts with
`file://`, and is replaced by `createExternalNode(externalDataDirectory,
externalFileName)`, from which the loop goes on to the following sibling.

Modelled from the spec: the three calls
`tixiGetTextAttribute(handle, xmlGetNodePath(cur_node), NAME, &value)`
(`tixiImpl.c`) read the restoration attribute `NAME` of `cur_node`.

The result is `none` when the `assert` on `uriToLocalPath` fails; otherwise the
return code, the chain after the call and the files written, in order. -/
def saveExternalFiles (env : Env) (dirname : Option CString) :
    XmlNodePtr → Option (ReturnCode × XmlNodePtr × List WrittenFile)
  | .NULL => some (ReturnCode.SUCCESS, .NULL, [])
  | .node type name properties content children next =>
    match saveExternalFiles env dirname children with
    | none => none
    | some (_, children1, log1) =>
      let cur_node := XmlNodePtr.node type name properties content children1 next
      if checkExternalNode cur_node ≠ ReturnCode.SUCCESS then
        match saveExternalFiles env dirname next with
        | none => none
        | some (rc, next1, log2) =>
          some (rc, .node type name properties content children1 next1, log1 ++ log2)
      else if type = XmlElementType.XML_ELEMENT_NODE then
        let externalFileName := xmlGetProp cur_node EXTERNAL_DATA_XML_ATTR_FILENAME
        let externalDataDirectory := xmlGetProp cur_node EXTERNAL_DATA_XML_ATTR_DIRECTORY
        let stripped :=
          xmlUnsetProp
            (xmlUnsetProp (xmlUnsetProp cur_node EXTERNAL_DATA_XML_ATTR_FILENAME)
              EXTERNAL_DATA_XML_ATTR_DIRECTORY)
            EXTERNAL_DATA_XML_ATTR_NODEPATH
        if env.xmlNewDoc = false then
          some (ReturnCode.FAILED, stripped, log1)
        else
          let copiedNode := xmlDocCopyNode stripped
          let dirResolved := env.resolveDirectory dirname externalDataDirectory
          let written : Option (List WrittenFile) :=
            if string_startsWith dirResolved "file://".toList = 0 then
              match env.uriToLocalPath dirResolved with
              | none => none
              | some externalDataDirectoryNotUrl =>
                some [⟨externalDataDirectoryNotUrl ++ externalFileName.getD [], copiedNode⟩]
            else some []
          match written with
          | none => none
          | some log =>
            let externalNode := createExternalNode externalDataDirectory externalFileName
            match saveExternalFiles env dirname next with
            | none => none
            | some (rc, next1, log2) =>
              some (rc, externalNode.withNext next1, log1 ++ log ++ log2)
      else
        match saveExternalFiles env dirname next with
        | none => none
        | some (rc, next1, log2) =>
          some (rc, .node type name properties content children1 next1, log1 ++ log2)

/-- An element that carries all three restoration attributes (the detection
signature of an inlined subtree). -/
def carriesRestorationAttributes (type : XmlElementType)
    (properties : List (CString × CString)) : Bool :=
  decide (type = XmlElementType.XML_ELEMENT_NODE) &&
    (lookupProp EXTERNAL_DATA_XML_ATTR_NODEPATH properties).isSome &&
    (lookupProp EXTERNAL_DATA_XML_ATTR_FILENAME properties).isSome &&
    (lookupProp EXTERNAL_DATA_XML_ATTR_DIRECTORY properties).isSome

/-- A reference node as the specification describes it: an `externaldata` element
with exactly two children, a `path` element with the directory text and a
`filename` element with the file name text. -/
def referenceNode (directory fileName : CString) (next : XmlNodePtr) : XmlNodePtr :=
  .node XmlElementType.XML_ELEMENT_NODE EXTERNAL_DATA_NODE_NAME [] []
    (.node XmlElementType.XML_ELEMENT_NODE EXTERNAL_DATA_NODE_NAME_PATH [] []
      (.node XmlElementType.XML_TEXT_NODE "text".toList [] directory .NULL .NULL)
      (.node XmlElementType.XML_ELEMENT_NODE EXTERNAL_DATA_NODE_NAME_FILENAME [] []
        (.node XmlElementType.XML_TEXT_NODE "text".toList [] fileName .NULL .NULL)
        .NULL))
    next

/-- The split postcondition in the words of the specification: walking the tree
from the top, each outermost element that carries all three restoration
attributes is replaced in place by a reference node with its directory and file
name attribute values; every other node is kept as it is, in the same order. -/
def splitTree : XmlNodePtr → XmlNodePtr
  | .NULL => .NULL
  | .node type name properties content children next =>
    if carriesRestorationAttributes type properties then
      referenceNode ((lookupProp EXTERNAL_DATA_XML_ATTR_DIRECTORY properties).getD [])
        ((lookupProp EXTERNAL_DATA_XML_ATTR_FILENAME properties).getD []) (splitTree next)
    else .node type name properties content (splitTree children) (splitTree next)

/-- Whether some node of the chain or of a subtree below it is an element that
carries all three restoration attributes. -/
def containsInlined : XmlNodePtr → Bool
  | .NULL => false
  | .node type _ properties _ children next =>
    carriesRestorationAttributes type properties || containsInlined children ||
      containsInlined next

/-! ## Positions in a tree

A node of a document is addressed by its position: the list of sibling indices
on the way down from the chain of top-level nodes. The empty position is the
document node itself, whose parent is `NULL`. -/

/-- The `i`-th node of a sibling chain (with the siblings that follow it). -/
def XmlNodePtr.nth : XmlNodePtr → Nat → XmlNodePtr
  | .NULL, _ => .NULL
  | .node type name properties content children next, 0 =>
    .node type name properties content children next
  | .node _ _ _ _ _ next, i + 1 => next.nth i

/-- The field `children` of a node (`NULL` for `NULL`). -/
def XmlNodePtr.firstChild : XmlNodePtr → XmlNodePtr
  | .NULL => .NULL
  | .node _ _ _ _ children _ => children

/-- The field `next` of a node. -/
def XmlNodePtr.nextSibling : XmlNodePtr → XmlNodePtr
  | .NULL => .NULL
  | .node _ _ _ _ _ next => next

/-- The field `type` of a node, `none` for `NULL`. -/
def XmlNodePtr.type? : XmlNodePtr → Option XmlElementType
  | .NULL => none
  | .node type _ _ _ _ _ => some type

/-- The field `name` of a node. -/
def XmlNodePtr.nodeName : XmlNodePtr → CString
  | .NULL => []
  | .node _ name _ _ _ _ => name

/-- The node with its `children` link set. -/
def XmlNodePtr.withChildren : XmlNodePtr → XmlNodePtr → XmlNodePtr
  | .NULL, _ => .NULL
  | .node type name properties content _ next, children =>
    .node type name properties content children next

/-- The node at a non-empty position below a chain of top-level nodes (`NULL`
when there is none; the empty position, the document node, is not a node of the
chain). -/
def nodeAt (chain : XmlNodePtr) : List Nat → XmlNodePtr
  | [] => .NULL
  | [i] => chain.nth i
  | i :: j :: rest => nodeAt (chain.nth i).firstChild (j :: rest)

/-- The kind of the node at a position; the empty position is the document
node. -/
def typeAt (chain : XmlNodePtr) (position : List Nat) : Option XmlElementType :=
  match position with
  | [] => some XmlElementType.XML_DOCUMENT_NODE
  | _ => (nodeAt chain position).type?

/-- A chain with `f` applied to the link that holds its `i`-th node. -/
def modifyNth (f : XmlNodePtr → XmlNodePtr) : XmlNodePtr → Nat → XmlNodePtr
  | .NULL, _ => .NULL
  | .node type name properties content children next, 0 =>
    f (.node type name properties content children next)
  | .node type name properties content children next, i + 1 =>
    .node type name properties content children (modifyNth f next i)

/-- A tree with `f` applied to the link that holds the node at a position. -/
def modifyAt (f : XmlNodePtr → XmlNodePtr) (chain : XmlNodePtr) : List Nat → XmlNodePtr
  | [] => chain
  | [i] => modifyNth f chain i
  | i :: j :: rest =>
    modifyNth (fun n => n.withChildren (modifyAt f n.firstChild (j :: rest))) chain i

/-- The libxml2 call `xmlReplaceNode(old, cur)` seen from the link that holds
`old`: `cur` takes the place of `old` before the siblings that followed it; with
`cur == NULL` the old node is only unlinked. -/
def replaceLink (cur : XmlNodePtr) (old : XmlNodePtr) : XmlNodePtr :=
  match cur with
  | .NULL => old.nextSibling
  | .node type name properties content children _ =>
    .node type name properties content children old.nextSibling

/-- The libxml2 call `xmlDocGetRootElement`: the first element among the
top-level nodes. -/
def xmlDocGetRootElement : XmlNodePtr → XmlNodePtr
  | .NULL => .NULL
  | .node type name properties content children next =>
    if type = XmlElementType.XML_ELEMENT_NODE then
      .node type name properties content children next
    else xmlDocGetRootElement next

/-! ## External data: the inline direction -/

/-- The routine `loadExternalFileToString`: a plain local name is read from disk,
a `file://` location is translated to a local path first, anything else is
fetched over the network. -/
def loadExternalFileToString (env : Env) (filename : CString) : Option CString :=
  if env.isURIPath filename ≠ 0 then env.loadFileToString filename
  else if string_startsWith filename "file://".toList = 0 then
    match env.uriToLocalPath filename with
    | none => none
    | some localPath => env.loadFileToString localPath
  else env.curlGetURLInMemory filename

/-- The node that `loadExternalDataNode` inserts for a parsed file: a deep copy
of the root element of the parsed document, on which `xmlSetProp` sets the file
name attribute to the file name, the directory attribute to
`localPathToURI(externalDataDirectory)` and the node path attribute to
`xmlGetNodePath(parent)`, the parent being the node above `position`. -/
def stampedCopy (env : Env) (doc : XmlNodePtr) (position : List Nat)
    (externalDataDirectory externalFileName : CString) (xmlDocument : XmlNodePtr) : XmlNodePtr :=
  let rootToInsert := xmlDocGetRootElement xmlDocument
  let dataURI := env.localPathToURI externalDataDirectory
  let nodeToInsert := xmlDocCopyNode rootToInsert
  let nodeToInsert1 := xmlSetProp nodeToInsert EXTERNAL_DATA_XML_ATTR_FILENAME externalFileName
  let nodeToInsert2 := xmlSetProp nodeToInsert1 EXTERNAL_DATA_XML_ATTR_DIRECTORY dataURI
  let nodePathNew := env.xmlGetNodePath doc position.dropLast
  xmlSetProp nodeToInsert2 EXTERNAL_DATA_XML_ATTR_NODEPATH nodePathNew

/-- Outcome of the `for` loop of `loadExternalDataNode`. -/
structure LoadResult where
  code : ReturnCode
  doc : XmlNodePtr
  fileCounter : Int
  deriving DecidableEq, Repr

/-- The `for` loop of `loadExternalDataNode` from index `iNode` on, with
`remaining` iterations left. `doc` is the current tree of the document,
`attached` tells whether `externalDataNode->parent` is still set (the node sits
at `position`).

Each iteration builds `<node path>/filename[iNode]`, asks `tixiGetTextElement`
for the file name, fetches `resolvedDirectory + name` (failure: `OPEN_FAILED`,
returned at once) and parses it. On a parse success, if the node still has a
parent, a copy of the parsed root receives the three attributes and replaces the
node, and the counter is incremented; on a parse failure the node is unlinked.
After either step the node has no parent any more. -/
def loadExternalFiles (env : Env) (externalDataNodeXPath resolvedDirectory : CString)
    (externalDataDirectory : CString) (position : List Nat) :
    Nat → Nat → XmlNodePtr → Bool → Int → LoadResult
  | 0, _, doc, _, fileCounter => ⟨ReturnCode.SUCCESS, doc, fileCounter⟩
  | remaining + 1, iNode, doc, attached, fileCounter =>
    let fileNameXPath := externalDataNodeXPath ++ "/filename[".toList ++ (Nat.repr iNode).toList
      ++ "]".toList
    let externalFileName := (env.tixiGetTextElement doc fileNameXPath).2
    let externalFullFileName := resolvedDirectory ++ externalFileName
    match loadExternalFileToString env externalFullFileName with
    | none => ⟨ReturnCode.OPEN_FAILED, doc, fileCounter⟩
    | some newDocumentString =>
      match env.xmlReadMemory newDocumentString with
      | some xmlDocument =>
        if attached then
          let nodeToInsert := stampedCopy env doc position externalDataDirectory
            externalFileName xmlDocument
          loadExternalFiles env externalDataNodeXPath resolvedDirectory externalDataDirectory
            position remaining (iNode + 1) (modifyAt (replaceLink nodeToInsert) doc position)
            false (wrapInt32 (fileCounter + 1))
        else
          loadExternalFiles env externalDataNodeXPath resolvedDirectory externalDataDirectory
            position remaining (iNode + 1) doc false fileCounter
      | none =>
        loadExternalFiles env externalDataNodeXPath resolvedDirectory externalDataDirectory
          position remaining (iNode + 1)
          (if attached then modifyAt (replaceLink .NULL) doc position else doc) false fileCounter

/-- The routine `loadExternalDataNode` for the node at `position` of the
document tree `doc`; `dirname` is `aTixiDocument->dirname`. The directory text
is read through `tixiGetTextElement` on `<node path>/path` (any error:
`OPEN_FAILED`), the number of `filename` children through
`tixiGetNamedChildrenCount` (zero: `OPEN_FAILED`), then the loop runs over the
indices `1 .. externalFileCount`. -/
def loadExternalDataNode (env : Env) (dirname : Option CString) (doc : XmlNodePtr)
    (position : List Nat) (fileCounter : Int) : LoadResult :=
  let externalDataNodeXPath := env.xmlGetNodePath doc position
  let externalDataDirectoryXPath := externalDataNodeXPath ++ "/".toList ++
    EXTERNAL_DATA_NODE_NAME_PATH
  let (error, externalDataDirectory) := env.tixiGetTextElement doc externalDataDirectoryXPath
  if error ≠ ReturnCode.SUCCESS then ⟨ReturnCode.OPEN_FAILED, doc, fileCounter⟩
  else
    let resolvedDirectory := env.resolveDirectory dirname (some externalDataDirectory)
    let externalFileCount := env.tixiGetNamedChildrenCount doc externalDataNodeXPath
      EXTERNAL_DATA_NODE_NAME_FILENAME
    if externalFileCount = 0 then ⟨ReturnCode.OPEN_FAILED, doc, fileCounter⟩
    else
      loadExternalFiles env externalDataNodeXPath resolvedDirectory externalDataDirectory
        position externalFileCount.toNat 1 doc true fileCounter

/-- The scan of `openExternalFiles` over the node table: the first node of
element kind. -/
def firstElementNode (doc : XmlNodePtr) : List (List Nat) → Option (List Nat)
  | [] => none
  | cur :: rest =>
    if typeAt doc cur = some XmlElementType.XML_ELEMENT_NODE then some cur
    else firstElementNode doc rest

/-- The node that one round of the loop of `openExternalFiles` picks: the first
element node in the result of the query `//externaldata`; `none` when the round
leaves the loop (no result object, no node table, no node, or no node of element
kind). -/
def pickReference (env : Env) (doc : XmlNodePtr) : Option (List Nat) :=
  match env.XPathEvaluateExpression doc "//externaldata".toList with
  | none => none
  | some xpathObject =>
    match xpathObject.nodesetval with
    | none => none
    | some nodeTab => if nodeTab.length < 1 then none else firstElementNode doc nodeTab

/-- The `while (1)` loop of `openExternalFiles`, at most `fuel` rounds (`none`
when the rounds are used up): a round that picks no node ends the loop with
`SUCCESS`; otherwise the picked node is loaded, and a code other than `SUCCESS`
is returned at once. -/
def openExternalFilesLoop (env : Env) (dirname : Option CString) :
    Nat → XmlNodePtr → Int → Option LoadResult
  | 0, _, _ => none
  | fuel + 1, doc, number =>
    match pickReference env doc with
    | none => some ⟨ReturnCode.SUCCESS, doc, number⟩
    | some cur =>
      let result := loadExternalDataNode env dirname doc cur number
      if result.code ≠ ReturnCode.SUCCESS then some result
      else openExternalFilesLoop env dirname fuel result.doc result.fileCounter

/-- The routine `openExternalFiles`: the counter starts at 0. -/
def openExternalFiles (env : Env) (dirname : Option CString) (fuel : Nat) (doc : XmlNodePtr) :
    Option LoadResult :=
  openExternalFilesLoop env dirname fuel doc 0

/-! ## Scratch memory and path generation -/

/-- The routine `addToMemoryList`: a fresh entry is linked behind the tail entry
(or becomes head and tail when the tail pointer is `NULL`). `mallocOk` is the
outcome of the one `malloc`; on failure the document is left as it is. -/
def addToMemoryList (document : TixiDocument) (memory : CString) (mallocOk : Bool) :
    InternalReturnCode × TixiDocument :=
  match document.memoryListTail with
  | _ :: _ =>
    if mallocOk then
      (InternalReturnCode.SUCESS,
        { document with
          memoryListHead := document.memoryListHead ++ [memory], memoryListTail := [memory] })
    else (InternalReturnCode.MEMORY_ALLOCATION_FAILED, document)
  | [] =>
    if mallocOk then
      (InternalReturnCode.SUCESS,
        { document with memoryListHead := [memory], memoryListTail := [memory] })
    else (InternalReturnCode.MEMORY_ALLOCATION_FAILED, document)

/-- A write through the pointer that `getDocument(handle)` returns: `f` applied to
the first chained document with that handle. -/
def updateDocumentIn (handle : Int) (f : TixiDocument → TixiDocument) :
    List TixiDocument → List TixiDocument
  | [] => []
  | d :: rest => if d.handle ≠ handle then d :: updateDocumentIn handle f rest else f d :: rest

/-- Registry after a write through the pointer that `getDocument(handle)`
returns. -/
def updateDocument (reg : DocumentList) (handle : Int) (f : TixiDocument → TixiDocument) :
    DocumentList :=
  { reg with documentListHead := updateDocumentIn handle f reg.documentListHead }

/-- The character `"`. -/
def dquote : Char := Char.ofNat 34

/-- The text `[@uID="`. -/
def uidOpen : CString := "[@uID=".toList ++ [dquote]

/-- The text `"]`. -/
def uidClose : CString := [dquote, ']']

/-- The path segment `generateXPathFromNodePtr` builds for an element: the tag
name, followed by `[@uID="value"]` when `xmlGetProp(node, "uID")` is not
`NULL`. -/
def nodeSegment (node : XmlNodePtr) : CString :=
  match xmlGetProp node "uID".toList with
  | some textPtr => node.nodeName ++ uidOpen ++ textPtr ++ uidClose
  | none => node.nodeName

/-- The `while` loop of `generateXPathFromNodePtr`, at most `fuel` rounds: while
the node has a parent (its position is not empty), an element prepends
`/segment` to the accumulated path, and the walk moves to the parent. -/
def generateXPathLoop (doc : XmlNodePtr) : Nat → List Nat → CString → CString
  | 0, _, generatedXPath => generatedXPath
  | fuel + 1, nodePtr, generatedXPath =>
    match nodePtr with
    | [] => generatedXPath
    | _ :: _ =>
      let node := nodeAt doc nodePtr
      if node.type? = some XmlElementType.XML_ELEMENT_NODE then
        generateXPathLoop doc fuel nodePtr.dropLast ("/".toList ++ nodeSegment node ++ generatedXPath)
      else generateXPathLoop doc fuel nodePtr.dropLast generatedXPath

/-- The path string computed by `generateXPathFromNodePtr` for the node at a
position of a document tree; the number of rounds is the depth of the node,
after which the walk has reached the document node. -/
def generatedPath (doc : XmlNodePtr) (aNodePtr : List Nat) : CString :=
  generateXPathLoop doc aNodePtr.length aNodePtr []

/-- The routine `generateXPathFromNodePtr` for a node of the document registered
under `handle`: `NULL` (`none`) for an unknown handle; otherwise the generated
path, which is also handed to `addToMemoryList` of the document (the result of
that call is ignored). -/
def generateXPathFromNodePtr (reg : DocumentList) (handle : Int) (aNodePtr : List Nat)
    (mallocOk : Bool) : Option CString × DocumentList :=
  match getDocument reg handle with
  | none => (none, reg)
  | some document =>
    let generatedXPath := generatedPath document.docPtr aNodePtr
    (some generatedXPath,
      updateDocument reg handle (fun d => (addToMemoryList d generatedXPath mallocOk).2))

/-! ## A model of the XPath evaluator

The evaluator of libxml2 is modelled for the expressions that the translation
unit itself produces and that a concrete evaluation needs: absolute location
paths `/step/step/..` along the child axis, each step a tag name optionally
followed by one predicate `[@uID="value"]` or `[k]`. Any other expression is
outside the model and is rejected. -/

/-- The predicate of a location step. -/
inductive StepPredicate
  | all
  | uid (value : CString)
  | index (k : Nat)
  deriving DecidableEq, Repr

/-- One location step: name test and predicate. -/
structure Step where
  name : CString
  predicate : StepPredicate
  deriving DecidableEq, Repr

/-- Characters that cannot occur in a name test. -/
def isDelimiter (c : Char) : Bool :=
  c = '/' || c = '[' || c = ']' || c = dquote || c = Char.ofNat 39 || c = '@' || c = '=' ||
    c = '(' || c = ')' || c = '*' || c = '|' || c = ',' || c = ':' || c = '<' || c = '>' ||
    c = '!' || c = ' '

/-- Split the text after the leading `/` into its steps: at every `/` that is not
inside a string literal. `inQuote` tells whether a literal is open, `cur` is the
step read so far. -/
def splitSteps : Bool → CString → CString → List CString
  | _, cur, [] => [cur]
  | inQuote, cur, c :: rest =>
    if c = dquote then splitSteps (!inQuote) (cur ++ [c]) rest
    else if c = '/' ∧ inQuote = false then cur :: splitSteps false [] rest
    else splitSteps inQuote (cur ++ [c]) rest

/-- Rest of a string after a prefix, if it starts with the prefix. -/
def stripPrefix : CString → CString → Option CString
  | [], s => some s
  | _ :: _, [] => none
  | p :: ps, c :: cs => if p = c then stripPrefix ps cs else none

/-- Value of a decimal numeral. -/
def digitsToNat (digits : CString) : Nat :=
  digits.foldl (fun acc c => 10 * acc + (c.toNat - '0'.toNat)) 0

/-- Read one step: a non-empty name without delimiters, then nothing, or
`[@uID="value"]` with a value free of `"`, or `[k]` with a decimal `k`. -/
def parseStep (seg : CString) : Option Step :=
  let name := seg.takeWhile (fun c => c ≠ '[')
  let rest := seg.dropWhile (fun c => c ≠ '[')
  if name = [] ∨ name.any isDelimiter = true then none
  else
    match rest with
    | [] => some ⟨name, StepPredicate.all⟩
    | _ :: more =>
      match stripPrefix uidOpen rest with
      | some tail =>
        if tail.dropWhile (fun c => c ≠ dquote) = uidClose then
          some ⟨name, StepPredicate.uid (tail.takeWhile (fun c => c ≠ dquote))⟩
        else none
      | none =>
        let digits := more.takeWhile Char.isDigit
        if digits ≠ [] ∧ more.dropWhile Char.isDigit = [']'] then
          some ⟨name, StepPredicate.index (digitsToNat digits)⟩
        else none

/-- Read every step of a list, failing when one of them fails. -/
def parseSteps : List CString → Option (List Step)
  | [] => some []
  | seg :: rest =>
    match parseStep seg with
    | none => none
    | some step =>
      match parseSteps rest with
      | none => none
      | some steps => some (step :: steps)

/-- Read an absolute location path; `/` alone selects the document node. -/
def parsePath : CString → Option (List Step)
  | [] => none
  | c :: rest =>
    if c = '/' then
      match rest with
      | [] => some []
      | _ :: _ => parseSteps (splitSteps false [] rest)
    else none

/-- Indices (counted from `i`) of the elements of a sibling chain that carry a
tag name. -/
def nameMatches (name : CString) : XmlNodePtr → Nat → List Nat
  | .NULL, _ => []
  | .node type n _ _ _ next, i =>
    if type = XmlElementType.XML_ELEMENT_NODE ∧ n = name then i :: nameMatches name next (i + 1)
    else nameMatches name next (i + 1)

/-- Indices of the nodes of a sibling chain that a step selects, in document
order. -/
def selectChildren (step : Step) (chain : XmlNodePtr) : List Nat :=
  match step.predicate with
  | .all => nameMatches step.name chain 0
  | .uid value =>
    (nameMatches step.name chain 0).filter
      (fun i => decide (xmlGetProp (chain.nth i) "uID".toList = some value))
  | .index k => if k = 0 then [] else ((nameMatches step.name chain 0).get? (k - 1)).toList

/-- Positions that a list of steps selects below a chain of children, in
document order. -/
def selectSteps : XmlNodePtr → List Step → List (List Nat)
  | _, [] => [[]]
  | chain, step :: rest =>
    (selectChildren step chain).flatMap
      (fun i => (selectSteps (chain.nth i).firstChild rest).map (fun p => i :: p))

/-- Model of the libxml2 call `xmlXPathEvalExpression` on the context of a
document tree: a node set with the selected positions, or `NULL` (`none`) for an
expression that cannot be read. -/
def xmlXPathEvalExpression (doc : XmlNodePtr) (expression : CString) :
    Option (XmlXPathObject (List Nat)) :=
  match parsePath expression with
  | none => none
  | some steps => some ⟨some (selectSteps doc steps)⟩

/-- Kind of the node at a position, for `checkElement` (the default is never
used for the positions of a node set). -/
def nodeTypeAt (doc : XmlNodePtr) (position : List Nat) : XmlElementType :=
  (typeAt doc position).getD XmlElementType.XML_DOCUMENT_NODE

/-- Resolution of a path on a document tree: `checkElement` with the context of
the tree. -/
def checkElementOn (doc : XmlNodePtr) (elementPath : CString) :
    Option (ReturnCode × Option (List Nat)) :=
  checkElement (nodeTypeAt doc) (xmlXPathEvalExpression doc) elementPath

/-- The nodes on the way from the top-level chain down to a position, outermost
first. -/
def nodesAlong (chain : XmlNodePtr) : List Nat → List XmlNodePtr
  | [] => []
  | i :: rest => chain.nth i :: nodesAlong (chain.nth i).firstChild rest

/-- The text `/segment` contributed by each element of a list of nodes, other
nodes contributing nothing. -/
def renderNodes (nodes : List XmlNodePtr) : CString :=
  nodes.flatMap (fun n =>
    if n.type? = some XmlElementType.XML_ELEMENT_NODE then '/' :: nodeSegment n else [])

/-- The location step that the segment of an element denotes. -/
def stepOf (node : XmlNodePtr) : Step :=
  match xmlGetProp node "uID".toList with
  | some value => ⟨node.nodeName, StepPredicate.uid value⟩
  | none => ⟨node.nodeName, StepPredicate.all⟩

/-- A node whose segment can be read back: an element with a non-empty tag name
free of delimiters and, if it has a `uID`, a value free of `"`. -/
def readableNode (node : XmlNodePtr) : Bool :=
  decide (node.type? = some XmlElementType.XML_ELEMENT_NODE) &&
    !node.nodeName.isEmpty && !node.nodeName.any isDelimiter &&
    match xmlGetProp node "uID".toList with
    | some value => !value.contains dquote
    | none => true

/-- Every node on the way down to the position is readable and is the only child
of its parent that its own segment selects. -/
def uniquelyAddressed (chain : XmlNodePtr) : List Nat → Bool
  | [] => true
  | i :: rest =>
    readableNode (chain.nth i) &&
      decide (selectChildren (stepOf (chain.nth i)) chain = [i]) &&
      uniquelyAddressed (chain.nth i).firstChild rest

/-- The tree `<root><a uID="x/y">hi</a><a/><b/><c uID="x&quot;y"/></root>` (the
last `uID` value holds a double quote). -/
def demoTree : XmlNodePtr :=
  .node .XML_ELEMENT_NODE "root".toList [] []
    (.node .XML_ELEMENT_NODE "a".toList [("uID".toList, "x/y".toList)] []
      (xmlNewText "hi".toList)
      (.node .XML_ELEMENT_NODE "a".toList [] [] .NULL
        (.node .XML_ELEMENT_NODE "b".toList [] [] .NULL
          (.node .XML_ELEMENT_NODE "c".toList [("uID".toList, ['x', dquote, 'y'])] [] .NULL
            .NULL))))
    .NULL

/-- The registry after registering one document whose tree is `demoTree`; its
handle is 1. -/
def demoRegistry : DocumentList :=
  runCalls DocumentList.initial
    [RegistryCall.register { demoDocument with docPtr := demoTree } true]

/-! ## Copying and saving a document -/

/-- The routine `removeExternalNodes` on the chain starting at `aNodePtr`: the
children of every node are processed first; an element for which
`checkExternalNode` succeeds is unlinked and freed, and the loop goes on with the
sibling that followed it. -/
def removeExternalNodes : XmlNodePtr → XmlNodePtr
  | .NULL => .NULL
  | .node type name properties content children next =>
    if checkExternalNode (.node type name properties content (removeExternalNodes children) next)
          = ReturnCode.SUCCESS ∧ type = XmlElementType.XML_ELEMENT_NODE then
      removeExternalNodes next
    else
      .node type name properties content (removeExternalNodes children) (removeExternalNodes next)

/-- The routine `copyDocument`. `xmlCopyDocOk` and `mallocOk` are the outcomes of
`xmlCopyDoc` and of the `malloc` inside `addDocumentToList`. The copy takes the
tree, the four file name strings, the validity flag, the status and the two
option flags of the source, starts with an empty memory list and uid list, and
is registered with `addDocumentToList(dstDocument, &dstDocument->handle)`. The
third component is the value stored through `newTixiDocumentHandle`, if any. -/
def copyDocument (reg : DocumentList) (oldTixiDocumentHandle : Int)
    (xmlCopyDocOk mallocOk : Bool) : ReturnCode × DocumentList × Option Int :=
  match getDocument reg oldTixiDocumentHandle with
  | none => (ReturnCode.FAILED, reg, none)
  | some srcDocument =>
    if xmlCopyDocOk = false then (ReturnCode.FAILED, reg, none)
    else
      match xmlDocGetRootElement srcDocument.docPtr with
      | .NULL => (ReturnCode.EROROR_CREATE_ROOT_NODE, reg, none)
      | .node _ _ _ _ _ _ =>
        let dstDocument : TixiDocument :=
          { handle := 0
            xmlFilename := srcDocument.xmlFilename
            dirname := srcDocument.dirname
            filename := srcDocument.filename
            validationFilename := srcDocument.validationFilename
            docPtr := srcDocument.docPtr
            isValid := srcDocument.isValid
            status := srcDocument.status
            memoryListHead := []
            memoryListTail := []
            uidListHead := []
            hasIncludedExternalFiles := srcDocument.hasIncludedExternalFiles
            usePrettyPrint := srcDocument.usePrettyPrint }
        match addDocumentToList reg dstDocument mallocOk with
        | (InternalReturnCode.SUCESS, reg1, some handle) => (ReturnCode.SUCCESS, reg1, some handle)
        | (_, reg1, _) => (ReturnCode.FAILED, reg1, none)

/-- The save modes of `tixiInternal.h`. -/
inductive InternalSaveMode
  | COMPLETE
  | SPLITTED
  | REMOVED
  deriving DecidableEq, Repr

/-- A transformation of the sibling chain that starts at the root element
(`xmlDocGetRootElement`), the top-level nodes before it staying as they are;
without a root element the routine is called with `NULL` and changes nothing. -/
def fromRootElement (f : XmlNodePtr → Option (XmlNodePtr × List WrittenFile)) :
    XmlNodePtr → Option (XmlNodePtr × List WrittenFile)
  | .NULL => some (.NULL, [])
  | .node type name properties content children next =>
    if type = XmlElementType.XML_ELEMENT_NODE then
      f (.node type name properties content children next)
    else
      match fromRootElement f next with
      | none => none
      | some (next1, log) => some (.node type name properties content children next1, log)

/-- Outcome of `saveDocument`: return code, registry afterwards, external files
written by `saveExternalFiles`, and the final call of the serialiser if it was
reached: the tree and format flag it was given and the value it returned. -/
structure SaveResult where
  code : ReturnCode
  reg : DocumentList
  written : List WrittenFile
  serialized : Option (XmlNodePtr × Int × Int)

/-- The common end of `saveDocument`: the recorded file name is replaced and the
status becomes `SAVED`. -/
def recordSaved (reg : DocumentList) (handle : Int) (xmlFilename : CString) : DocumentList :=
  updateDocument reg handle
    (fun d => { d with xmlFilename := some xmlFilename, status := DocumentStatus.SAVED })

/-- The routine `saveDocument`. `xmlFilename` is `none` for a `NULL` argument.
The result is `none` where the behaviour is undefined: `copyDocument` did not
store a handle (its return code is not checked and `newHandle` is read
uninitialised), or the `assert` inside `saveExternalFiles` failed.

* `COMPLETE`: the tree of the document is serialised.
* `SPLITTED`: the document is copied, `dirname` and `filename` of the copy are
  replaced by the parts of `xmlFilename`, `saveExternalFiles` runs from the root
  element of the copy, the copy is serialised with the print option of the
  original; after a successful write the copy is unregistered.
* `REMOVED`: the document is copied, `removeExternalNodes` runs from the root
  element of the copy, and the copy is serialised.

A serialiser result of `-1` returns `FAILED` at once; otherwise the recorded
file name and status of the document are updated. -/
def saveDocument (env : Env) (reg : DocumentList) (handle : Int) (xmlFilename : Option CString)
    (saveMode : InternalSaveMode) (xmlCopyDocOk mallocOk : Bool) : Option SaveResult :=
  match xmlFilename with
  | none => some ⟨ReturnCode.FAILED, reg, [], none⟩
  | some xmlFilename =>
    match getDocument reg handle with
    | none => some ⟨ReturnCode.INVALID_HANDLE, reg, [], none⟩
    | some document =>
      match saveMode with
      | .COMPLETE =>
        let ret := env.xmlSaveFormatFileEnc xmlFilename document.docPtr document.usePrettyPrint
        if ret = -1 then
          some ⟨ReturnCode.FAILED, reg, [], some (document.docPtr, document.usePrettyPrint, ret)⟩
        else
          some ⟨ReturnCode.SUCCESS, recordSaved reg handle xmlFilename, [],
            some (document.docPtr, document.usePrettyPrint, ret)⟩
      | .SPLITTED =>
        match copyDocument reg handle xmlCopyDocOk mallocOk with
        | (_, _, none) => none
        | (_, reg1, some newHandle) =>
          match getDocument reg1 newHandle with
          | none => none
          | some cpyDoc =>
            let parts := env.strip_dirname xmlFilename
            match fromRootElement (fun rootNode =>
                (saveExternalFiles env parts.1 rootNode).map (fun r => (r.2.1, r.2.2)))
                cpyDoc.docPtr with
            | none => none
            | some (tree, written) =>
              let reg2 := updateDocument reg1 newHandle
                (fun d => { d with dirname := parts.1, filename := parts.2, docPtr := tree })
              let ret := env.xmlSaveFormatFileEnc xmlFilename tree document.usePrettyPrint
              if ret = -1 then
                some ⟨ReturnCode.FAILED, reg2, written, some (tree, document.usePrettyPrint, ret)⟩
              else
                some ⟨ReturnCode.SUCCESS,
                  recordSaved (removeDocumentFromList reg2 newHandle).2 handle xmlFilename,
                  written, some (tree, document.usePrettyPrint, ret)⟩
      | .REMOVED =>
        match copyDocument reg handle xmlCopyDocOk mallocOk with
        | (_, _, none) => none
        | (_, reg1, some newHandle) =>
          match getDocument reg1 newHandle with
          | none => none
          | some cpyDoc =>
            match fromRootElement (fun rootNode => some (removeExternalNodes rootNode, []))
                cpyDoc.docPtr with
            | none => none
            | some (tree, _) =>
              let reg2 := updateDocument reg1 newHandle (fun d => { d with docPtr := tree })
              let ret := env.xmlSaveFormatFileEnc xmlFilename tree cpyDoc.usePrettyPrint
              if ret = -1 then
                some ⟨ReturnCode.FAILED, reg2, [], some (tree, cpyDoc.usePrettyPrint, ret)⟩
              else
                some ⟨ReturnCode.SUCCESS, recordSaved reg2 handle xmlFilename, [],
                  some (tree, cpyDoc.usePrettyPrint, ret)⟩

/-! ## Concrete collaborators for evaluations -/

/-- Whether `pat` occurs in a string. -/
def containsSub (pat : CString) : CString → Bool
  | [] => pat.isEmpty
  | c :: rest => pat.isPrefixOf (c :: rest) || containsSub pat rest

/-- Modelled from the spec: `isURIPath` (`tixiUtils.c`, not part of this
translation unit) returns 0 for a location with a URI scheme and a non-zero value
for a plain local path. -/
def demoIsURIPath (s : CString) : Int := if containsSub "://".toList s then 0 else 1

/-- Modelled from the spec: `localPathToURI` (`tixiUtils.c`) turns a local path
into its URI form with the `file://` scheme and leaves a URI as it is. -/
def demoLocalPathToURI (s : CString) : CString :=
  if containsSub "://".toList s then s else "file://".toList ++ s

/-- Modelled from the spec: `uriToLocalPath` (`tixiUtils.c`) translates a
`file://` URI to the local path, and yields `NULL` for anything else. -/
def demoUriToLocalPath (s : CString) : Option CString := stripPrefix "file://".toList s

/-- Modelled from the spec: `resolveDirectory` (`tixiUtils.c`) resolves a
directory against the base directory of the document, honouring URI schemes: a
URI is kept, a local directory is appended to the base directory and given in
URI form. -/
def demoResolveDirectory (dirname directory : Option CString) : CString :=
  if containsSub "://".toList (directory.getD []) then directory.getD []
  else "file://".toList ++ dirname.getD [] ++ directory.getD []

/-- The libxml2 call `xmlNodeListGetString` on a chain of children: the
concatenated content of its text and CDATA nodes. -/
def xmlNodeListGetString : XmlNodePtr → CString
  | .NULL => []
  | .node type _ _ content _ next =>
    (if type = XmlElementType.XML_TEXT_NODE ∨ type = XmlElementType.XML_CDATA_SECTION_NODE
      then content else []) ++ xmlNodeListGetString next

/-- Stand-in for the content of a `char*` variable that no call has written: the
source does not determine it, and any text could stand here. -/
def demoIndeterminate : CString := []

/-- Modelled from the spec: `tixiGetTextElement` (`tixiImpl.c`) resolves the path
with `checkElement` on the context of the document and yields the text of the
resolved element. After a failed call the caller's variable holds what it held
before; in the loop of `loadExternalDataNode` that is a variable without an
initial value, for which the evaluations put `demoIndeterminate`. What is stated
about rounds with a failed lookup is proved for every environment. -/
def demoGetTextElement (doc : XmlNodePtr) (elementPath : CString) : ReturnCode × CString :=
  match checkElementOn doc elementPath with
  | some (ReturnCode.SUCCESS, some position) =>
    (ReturnCode.SUCCESS, xmlNodeListGetString (nodeAt doc position).firstChild)
  | some (code, _) => (code, demoIndeterminate)
  | none => (ReturnCode.FAILED, demoIndeterminate)

/-- Modelled from the spec: `tixiGetNamedChildrenCount` (`tixiImpl.c`) resolves
the parent path and counts the child elements with the given name; on an error
the count stays 0. -/
def demoGetNamedChildrenCount (doc : XmlNodePtr) (elementPath childName : CString) : Int :=
  match checkElementOn doc elementPath with
  | some (ReturnCode.SUCCESS, some position) =>
    ((nameMatches childName (nodeAt doc position).firstChild 0).length : Int)
  | _ => 0

/-- The path text of `xmlGetNodePath` along a position: `/name` for each node,
with `[k]` when the parent has several child elements of that name. -/
def demoNodePathAlong : XmlNodePtr → List Nat → CString
  | _, [] => []
  | chain, i :: rest =>
    let same := nameMatches (chain.nth i).nodeName chain 0
    '/' :: (chain.nth i).nodeName ++
      (if same.length > 1 then "[".toList ++ (Nat.repr (same.indexOf i + 1)).toList ++ "]".toList
        else []) ++
      demoNodePathAlong (chain.nth i).firstChild rest

/-- Model of the libxml2 call `xmlGetNodePath` for element nodes; the document
node has the path `/`. -/
def demoGetNodePath (doc : XmlNodePtr) (position : List Nat) : CString :=
  match position with
  | [] => "/".toList
  | _ :: _ => demoNodePathAlong doc position

/-- Positions, in document order, of the elements with a tag name in a chain and
below it; `pre` is the position of the parent and `i` the index of the first
node of the chain. -/
def descendantsNamed (name : CString) : XmlNodePtr → List Nat → Nat → List (List Nat)
  | .NULL, _, _ => []
  | .node type n _ _ children next, pre, i =>
    (if type = XmlElementType.XML_ELEMENT_NODE ∧ n = name then [pre ++ [i]] else []) ++
      descendantsNamed name children (pre ++ [i]) 0 ++ descendantsNamed name next pre (i + 1)

/-- Modelled from the spec: `XPathEvaluateExpression` (`xpathFunctions.c`)
evaluates an expression on the document; `//externaldata` selects every element
with that tag, in document order. -/
def demoEvaluateExpression (doc : XmlNodePtr) (expression : CString) :
    Option (XmlXPathObject (List Nat)) :=
  if expression = "//externaldata".toList then
    some ⟨some (descendantsNamed EXTERNAL_DATA_NODE_NAME doc [] 0)⟩
  else xmlXPathEvalExpression doc expression

/-- The parsed document `<payload>42</payload>`. -/
def payloadTree : XmlNodePtr :=
  .node .XML_ELEMENT_NODE "payload".toList [] [] (xmlNewText "42".toList) .NULL

/-- The parsed document
`<externaldata><path>data/</path><filename>sub.xml</filename></externaldata>`: a
file whose root element is itself a reference node. -/
def referenceTree : XmlNodePtr :=
  .node .XML_ELEMENT_NODE "externaldata".toList [] []
    (.node .XML_ELEMENT_NODE "path".toList [] [] (xmlNewText "data/".toList)
      (.node .XML_ELEMENT_NODE "filename".toList [] [] (xmlNewText "sub.xml".toList) .NULL))
    .NULL

/-- Files on disk for the evaluations: `work/data/sub.xml` holds a well-formed
document, `work/data/bad.xml` holds text that is not XML, and `work/data/ref.xml`
holds a document whose root element is a reference node. -/
def demoLoadFileToString (filename : CString) : Option CString :=
  if filename = "work/data/sub.xml".toList then some "<payload>42</payload>".toList
  else if filename = "work/data/bad.xml".toList then some "no markup".toList
  else if filename = "work/data/ref.xml".toList then
    some "<externaldata><path>data/</path><filename>sub.xml</filename></externaldata>".toList
  else none

/-- The parser on the file contents of the evaluations. -/
def demoReadMemory (buffer : CString) : Option XmlNodePtr :=
  if buffer = "<payload>42</payload>".toList then some payloadTree
  else if buffer =
      "<externaldata><path>data/</path><filename>sub.xml</filename></externaldata>".toList then
    some referenceTree
  else none

/-- Position of the last `/` of a string, if any. -/
def lastSlash (s : CString) : Option Nat :=
  (s.reverse.indexOf? '/').map (fun k => s.length - 1 - k)

/-- Modelled from the spec: `strip_dirname` (`tixiUtils.c`) splits a file name
into its directory (up to and including the last `/`) and the rest. -/
def demoStripDirname (xmlFilename : CString) : Option CString × Option CString :=
  match lastSlash xmlFilename with
  | some k => (some (xmlFilename.take (k + 1)), some (xmlFilename.drop (k + 1)))
  | none => (some [], some xmlFilename)

/-- The collaborators used for concrete evaluations. The serialiser fails on
targets below `/readonly/`. -/
def demoEnv : Env :=
  { resolveDirectory := demoResolveDirectory
    localPathToURI := demoLocalPathToURI
    uriToLocalPath := demoUriToLocalPath
    isURIPath := demoIsURIPath
    loadFileToString := demoLoadFileToString
    curlGetURLInMemory := fun _ => none
    xmlReadMemory := demoReadMemory
    xmlGetNodePath := demoGetNodePath
    tixiGetTextElement := demoGetTextElement
    tixiGetNamedChildrenCount := demoGetNamedChildrenCount
    XPathEvaluateExpression := demoEvaluateExpression
    xmlNewDoc := true
    xmlSaveFormatFileEnc := fun file _ _ => if "/readonly/".toList.isPrefixOf file then -1 else 0
    strip_dirname := demoStripDirname }

/-- An element with a tag name, an attribute list, children and following
siblings. -/
def elementNode (name : String) (properties : List (String × String))
    (children next : XmlNodePtr) : XmlNodePtr :=
  .node .XML_ELEMENT_NODE name.toList (properties.map (fun p => (p.1.toList, p.2.toList))) []
    children next

/-- A reference node with one directory child and the given file name children. -/
def demoReference (directory : String) (fileNames : XmlNodePtr) (next : XmlNodePtr) :
    XmlNodePtr :=
  elementNode "externaldata" []
    (elementNode "path" [] (xmlNewText directory.toList) fileNames) next

/-- A `filename` child with its text. -/
def demoFileName (name : String) (next : XmlNodePtr) : XmlNodePtr :=
  elementNode "filename" [] (xmlNewText name.toList) next

/-- The document
`<root><externaldata><path>data/</path><filename>sub.xml</filename></externaldata></root>`. -/
def demoHost : XmlNodePtr :=
  elementNode "root" [] (demoReference "data/" (demoFileName "sub.xml" .NULL) .NULL) .NULL

/-- The document with a reference node that names two files, both present:
`<root><externaldata><path>data/</path><filename>sub.xml</filename>
<filename>sub.xml</filename></externaldata></root>`. -/
def demoHostTwoFiles : XmlNodePtr :=
  elementNode "root" []
    (demoReference "data/" (demoFileName "sub.xml" (demoFileName "sub.xml" .NULL)) .NULL) .NULL

/-- The document `<root><payload externalFileName="sub.xml"
externalDataDirectory="file://data/" externalDataNodePath="/root">42</payload>
<b/></root>`: a root with one inlined subtree and one ordinary element. -/
def demoInlined : XmlNodePtr :=
  elementNode "root" []
    (elementNode "payload"
      [("externalFileName", "sub.xml"), ("externalDataDirectory", "file://data/"),
        ("externalDataNodePath", "/root")]
      (xmlNewText "42".toList) (elementNode "b" [] .NULL .NULL))
    .NULL

/-- The registry after registering one document with the tree `demoInlined`,
recorded file name `old.xml` and status `OPENED`; its handle is 1. -/
def demoRegistryInlined : DocumentList :=
  runCalls DocumentList.initial
    [RegistryCall.register
      { demoDocument with docPtr := demoInlined, xmlFilename := some "old.xml".toList } true]

/-- The document with a reference node whose only file is missing:
`<root><externaldata><path>data/</path><filename>missing.xml</filename>
</externaldata></root>`. -/
def demoHostMissing : XmlNodePtr :=
  elementNode "root" [] (demoReference "data/" (demoFileName "missing.xml" .NULL) .NULL) .NULL

/-! ## The remove direction and the detection signature -/

/-- The remove postcondition in the words of the specification: walking the tree
from the top, every element that carries all three restoration attributes is
deleted together with its subtree; every other node is kept as it is, in the
same order, and nothing is put in the place of a deleted element. -/
def removeTree : XmlNodePtr → XmlNodePtr
  | .NULL => .NULL
  | .node type name properties content children next =>
    if carriesRestorationAttributes type properties then removeTree next
    else .node type name properties content (removeTree children) (removeTree next)

/-- Number of elements with a tag name in a chain and below it. -/
def countNamed (name : CString) : XmlNodePtr → Nat
  | .NULL => 0
  | .node type n _ _ children next =>
    (if type = XmlElementType.XML_ELEMENT_NODE ∧ n = name then 1 else 0) +
      countNamed name children + countNamed name next

/-- The routine `removeExternalNodeLinks` on the chain starting at `aNodePtr`: the
children of every node are processed first; a node for which `checkExternalNode`
succeeds loses its three restoration attributes. -/
def removeExternalNodeLinks : XmlNodePtr → XmlNodePtr
  | .NULL => .NULL
  | .node type name properties content children next =>
    let cur_node := XmlNodePtr.node type name properties content
      (removeExternalNodeLinks children) (removeExternalNodeLinks next)
    if checkExternalNode cur_node = ReturnCode.SUCCESS then
      xmlUnsetProp
        (xmlUnsetProp (xmlUnsetProp cur_node EXTERNAL_DATA_XML_ATTR_FILENAME)
          EXTERNAL_DATA_XML_ATTR_DIRECTORY)
        EXTERNAL_DATA_XML_ATTR_NODEPATH
    else cur_node

/-- The document `<root><a externalFileName="sub.xml"/><payload
externalFileName="sub.xml" externalDataDirectory="file://data/"
externalDataNodePath="/root"><a externalDataDirectory="x"/></payload><b/></root>`:
an element with a partial attribute set, an inlined subtree that holds another
one, and an ordinary element. -/
def demoPartial : XmlNodePtr :=
  elementNode "root" []
    (elementNode "a" [("externalFileName", "sub.xml")] .NULL
      (elementNode "payload"
        [("externalFileName", "sub.xml"), ("externalDataDirectory", "file://data/"),
          ("externalDataNodePath", "/root")]
        (elementNode "a" [("externalDataDirectory", "x")] .NULL .NULL)
        (elementNode "b" [] .NULL .NULL)))
    .NULL

/-! ## The parent of a uniquely resolved path -/

/-- The field `parent` of the node at a position: the position above it, and
`NULL` (`none`) for the document node. -/
def parentOf : List Nat → Option (List Nat)
  | [] => none
  | i :: rest => some (i :: rest).dropLast

/-- The routine `getParentNodeToXPath`. `eval doc` is `xmlXPathEvalExpression` on
the context of the document with tree `doc`. The expression is evaluated as it
is given; `NULL` (`none`) is returned for an unknown handle, a `NULL` result
object, an empty node set and a node set with more than one node; otherwise the
result is the field `parent` of the single node. -/
def getParentNodeToXPath (eval : XmlNodePtr → CString → Option (XmlXPathObject (List Nat)))
    (reg : DocumentList) (handle : Int) (elementPath : CString) : Option (List Nat) :=
  match getDocument reg handle with
  | none => none
  | some document =>
    match eval document.docPtr elementPath with
    | none => none
    | some xpathObject =>
      if xmlXPathNodeSetIsEmpty xpathObject.nodesetval then none
      else
        match xpathObject.nodesetval with
        | none => none
        | some [] => none
        | some (first :: more) =>
          if (first :: more).length > 1 then none else parentOf first

/-- Indices (counted from `i`) of the comment nodes of a sibling chain. -/
def commentIndices : XmlNodePtr → Nat → List Nat
  | .NULL, _ => []
  | .node type _ _ _ _ next, i =>
    if type = XmlElementType.XML_COMMENT_NODE then i :: commentIndices next (i + 1)
    else commentIndices next (i + 1)

/-- The evaluator model extended by one expression with a node test for
comments: `/root/comment()` selects the comment children of the `root`
elements. -/
def demoCommentEval (doc : XmlNodePtr) (expression : CString) :
    Option (XmlXPathObject (List Nat)) :=
  if expression = "/root/comment()".toList then
    some ⟨some ((selectSteps doc [⟨"root".toList, StepPredicate.all⟩]).flatMap
      (fun p => (commentIndices (nodeAt doc p).firstChild 0).map (fun i => p ++ [i])))⟩
  else xmlXPathEvalExpression doc expression

/-- The tree `<root><!--note--><a/></root>`. -/
def demoCommentTree : XmlNodePtr :=
  elementNode "root" []
    (.node .XML_COMMENT_NODE "comment".toList [] "note".toList .NULL
      (elementNode "a" [] .NULL .NULL))
    .NULL

/-- The registry after registering one document with the tree `demoCommentTree`;
its handle is 1. -/
def demoRegistryComment : DocumentList :=
  runCalls DocumentList.initial
    [RegistryCall.register { demoDocument with docPtr := demoCommentTree } true]

/-! ## The generated path in the words of the specification -/

/-- A path segment as the specification describes it: the tag name for an element
without a `uID` attribute, and `tag[@uID="v"]` for an element whose `uID`
attribute has the value `v`. -/
def specSegment (tag : CString) (uid : Option CString) : CString :=
  match uid with
  | none => tag
  | some v => tag ++ ("[@uID=".toList ++ dquote :: (v ++ [dquote, ']']))

/-- The nodes of element kind on the way from the root element down to the node at
a position (down to its nearest element ancestor when the node is not an
element), outermost first. -/
def elementChain (doc : XmlNodePtr) (position : List Nat) : List XmlNodePtr :=
  (nodesAlong doc position).filter
    (fun n => decide (n.type? = some XmlElementType.XML_ELEMENT_NODE))

/-- The string `/s1/s2/../sk` for a chain of elements `e1 .. ek`. -/
def expectedPath (elements : List XmlNodePtr) : CString :=
  elements.flatMap (fun e => '/' :: specSegment e.nodeName (xmlGetProp e "uID".toList))

/-- The record that `copyDocument` fills in for the copy of `srcDocument`, with
the handle stored by `addDocumentToList`. -/
def copiedDocument (srcDocument : TixiDocument) (handle : Int) : TixiDocument :=
  { handle := handle
    xmlFilename := srcDocument.xmlFilename
    dirname := srcDocument.dirname
    filename := srcDocument.filename
    validationFilename := srcDocument.validationFilename
    docPtr := srcDocument.docPtr
    isValid := srcDocument.isValid
    status := srcDocument.status
    memoryListHead := []
    memoryListTail := []
    uidListHead := []
    hasIncludedExternalFiles := srcDocument.hasIncludedExternalFiles
    usePrettyPrint := srcDocument.usePrettyPrint }

/-- The document with two reference nodes, the first naming a file that is not
XML and the second a well-formed file:
`<root><externaldata><path>data/</path><filename>bad.xml</filename></externaldata>
<externaldata><path>data/</path><filename>sub.xml</filename></externaldata></root>`. -/
def demoHostBadThenGood : XmlNodePtr :=
  elementNode "root" []
    (demoReference "data/" (demoFileName "bad.xml" .NULL)
      (demoReference "data/" (demoFileName "sub.xml" .NULL) .NULL))
    .NULL

/-! ## Point lookup -/

/-- The loop of `clearMemoryList` from the entry `current` on: the payload of the
entry is freed, then the entry, and the walk goes on with its `next` link;
`freed` lists the payloads freed so far, in the order of the `free` calls. -/
def clearMemoryListLoop (freed : List CString) : List CString → List CString
  | [] => freed
  | memory :: next => clearMemoryListLoop (freed ++ [memory]) next

/-- The routine `clearMemoryList`: the chain is walked from `memoryListHead`, then
both pointers are set to `NULL`. The result is the return code (the constant 0),
the document, and the payloads freed in the order of the `free` calls. -/
def clearMemoryList (document : TixiDocument) :
    InternalReturnCode × TixiDocument × List CString :=
  (InternalReturnCode.SUCESS,
    { document with memoryListHead := [], memoryListTail := [] },
    clearMemoryListLoop [] document.memoryListHead)

/-- A sequence of `addToMemoryList` calls on one document, each with its payload
and the outcome of its `malloc`. -/
def addAllToMemoryList (document : TixiDocument) : List (CString × Bool) → TixiDocument
  | [] => document
  | (memory, mallocOk) :: rest =>
    addAllToMemoryList (addToMemoryList document memory mallocOk).2 rest

/-- The payloads of the calls of a sequence whose `malloc` succeeded, in call
order: the entries the pool tracks. -/
def trackedPayloads (calls : List (CString × Bool)) : List CString :=
  (calls.filter (fun call => call.2)).map (fun call => call.1)

/-! ## A path that fills the buffer of `checkElement` -/

/-- The path `/aa..ab` of 1023 characters: it fits the 1024-byte buffer of
`checkElement` with its terminator, and with one more character it does not. -/
def demoLongPath : CString :=
  '/' :: (List.replicate 1021 'a' ++ ['b'])

/-! ## Later rounds of the inlining loop -/

/-- The document with two equal reference nodes, each naming a file that is
present and then a file that is missing:
`<root><externaldata><path>data/</path><filename>sub.xml</filename>
<filename>missing.xml</filename></externaldata><externaldata><path>data/</path>
<filename>sub.xml</filename><filename>missing.xml</filename></externaldata></root>`. -/
def demoHostTwins : XmlNodePtr :=
  elementNode "root" []
    (demoReference "data/" (demoFileName "sub.xml" (demoFileName "missing.xml" .NULL))
      (demoReference "data/" (demoFileName "sub.xml" (demoFileName "missing.xml" .NULL))
        .NULL))
    .NULL

/-- The document in which every file named by a reference node is present, the
first file of the first reference node not being XML:
`<root><externaldata><path>data/</path><filename>bad.xml</filename>
<filename>sub.xml</filename></externaldata><externaldata><path>file://work/</path>
<filename>data/sub.xml</filename><filename>data/sub.xml</filename></externaldata>
</root>`. -/
def demoHostBadFirst : XmlNodePtr :=
  elementNode "root" []
    (demoReference "data/" (demoFileName "bad.xml" (demoFileName "sub.xml" .NULL))
      (demoReference "file://work/"
        (demoFileName "data/sub.xml" (demoFileName "data/sub.xml" .NULL)) .NULL))
    .NULL

theorem wrapInt32_of_range (x : Int) (h1 : -(2 ^ 31) ≤ x) (h2 : x < 2 ^ 31) : wrapInt32 x = x := by
  unfold wrapInt32
  omega

theorem regInv_initial : RegInv DocumentList.initial :=
  ⟨by simp [DocumentList.initial], by simp [DocumentList.initial], by simp [DocumentList.initial]⟩

theorem getDocumentFrom_eq_none (h : Int) (l : List TixiDocument) :
    getDocumentFrom h l = none ↔ ∀ d ∈ l, d.handle ≠ h := by
  induction l with
  | nil => simp [getDocumentFrom]
  | cons d rest ih =>
    by_cases hd : d.handle = h
    · simp [getDocumentFrom, hd]
    · simp [getDocumentFrom, hd, ih]

theorem getDocumentFrom_append (h : Int) (l1 l2 : List TixiDocument) :
    getDocumentFrom h (l1 ++ l2) =
      match getDocumentFrom h l1 with
      | some d => some d
      | none => getDocumentFrom h l2 := by
  induction l1 with
  | nil => simp [getDocumentFrom]
  | cons d rest ih =>
    by_cases hd : d.handle = h
    · simp [getDocumentFrom, hd]
    · simp [getDocumentFrom, hd, ih]

theorem getDocumentFrom_handle (h : Int) (l : List TixiDocument) (d : TixiDocument)
    (hd : getDocumentFrom h l = some d) : d ∈ l ∧ d.handle = h := by
  induction l with
  | nil => simp [getDocumentFrom] at hd
  | cons e rest ih =>
    by_cases he : e.handle = h
    · simp [getDocumentFrom, he] at hd
      subst hd
      exact ⟨List.mem_cons_self _ _, he⟩
    · simp [getDocumentFrom, he] at hd
      exact ⟨List.mem_cons_of_mem _ (ih hd).1, (ih hd).2⟩

theorem mem_removeEntry (h : Int) (l : List TixiDocument) (d : TixiDocument)
    (hd : d ∈ removeEntry h l) : d ∈ l := by
  induction l with
  | nil => simp [removeEntry] at hd
  | cons e rest ih =>
    by_cases he : e.handle = h
    · simp [removeEntry, he] at hd
      exact List.mem_cons_of_mem _ hd
    · simp [removeEntry, he] at hd
      rcases hd with hd | hd
      · exact hd ▸ List.mem_cons_self _ _
      · exact List.mem_cons_of_mem _ (ih hd)

theorem removeEntry_of_absent (h : Int) (l : List TixiDocument)
    (habs : ∀ d ∈ l, d.handle ≠ h) : removeEntry h l = l := by
  induction l with
  | nil => rfl
  | cons e rest ih =>
    have he : e.handle ≠ h := habs e (List.mem_cons_self _ _)
    simp [removeEntry, he, ih (fun d hd => habs d (List.mem_cons_of_mem _ hd))]

theorem nodup_removeEntry (h : Int) (l : List TixiDocument)
    (hn : (l.map (fun d => d.handle)).Nodup) :
    ((removeEntry h l).map (fun d => d.handle)).Nodup := by
  induction l with
  | nil => simp [removeEntry]
  | cons e rest ih =>
    rw [List.map_cons, List.nodup_cons] at hn
    by_cases he : e.handle = h
    · simpa [removeEntry, he] using hn.2
    · simp only [removeEntry, he, ne_eq, not_false_eq_true, if_true, List.map_cons,
        List.nodup_cons]
      refine ⟨?_, ih hn.2⟩
      intro hmem
      apply hn.1
      rw [List.mem_map] at hmem ⊢
      obtain ⟨d, hd, hdh⟩ := hmem
      exact ⟨d, mem_removeEntry h rest d hd, hdh⟩

theorem getDocumentFrom_removeEntry (h k : Int) (l : List TixiDocument)
    (hn : (l.map (fun d => d.handle)).Nodup) :
    getDocumentFrom k (removeEntry h l) = if k = h then none else getDocumentFrom k l := by
  induction l with
  | nil => simp [removeEntry, getDocumentFrom]
  | cons e rest ih =>
    rw [List.map_cons, List.nodup_cons] at hn
    by_cases he : e.handle = h
    · by_cases hk : k = h
      · subst hk
        simp only [removeEntry, he, ne_eq, not_true_eq_false, if_false, if_true]
        rw [getDocumentFrom_eq_none]
        intro d hd hdk
        apply hn.1
        rw [List.mem_map]
        exact ⟨d, hd, by rw [hdk, he]⟩
      · have hhk : ¬ h = k := fun hh => hk hh.symm
        simp [removeEntry, he, hk, getDocumentFrom, hhk]
    · by_cases hk : k = h
      · subst hk
        simp [removeEntry, he, getDocumentFrom] at ih ⊢
        exact ih hn.2
      · by_cases hek : e.handle = k
        · simp [removeEntry, he, hk, getDocumentFrom, hek]
        · simp [removeEntry, he, hk, getDocumentFrom, hek] at ih ⊢
          exact ih hn.2

theorem addDocumentToList_fail (reg : DocumentList) (document : TixiDocument) :
    addDocumentToList reg document false =
      (InternalReturnCode.MEMORY_ALLOCATION_FAILED, reg, none) := by
  simp [addDocumentToList]

theorem addDocumentToList_ok (reg : DocumentList) (document : TixiDocument)
    (h0 : 0 ≤ reg.handleCounter) (hb : reg.handleCounter + 1 < 2 ^ 31) :
    addDocumentToList reg document true =
      (InternalReturnCode.SUCESS,
        ⟨reg.documentListHead ++ [{ document with handle := reg.handleCounter + 1 }],
          reg.handleCounter + 1⟩,
        some (reg.handleCounter + 1)) := by
  have hw : wrapInt32 (reg.handleCounter + 1) = reg.handleCounter + 1 :=
    wrapInt32_of_range _ (by omega) hb
  simp [addDocumentToList, hw]

theorem regInv_add (reg : DocumentList) (document : TixiDocument) (hinv : RegInv reg)
    (hb : reg.handleCounter + 1 < 2 ^ 31) :
    RegInv (addDocumentToList reg document true).2.1 := by
  rw [addDocumentToList_ok reg document hinv.counter_nonneg hb]
  refine ⟨?_, ?_, ?_⟩
  · have := hinv.counter_nonneg
    show 0 ≤ reg.handleCounter + 1
    omega
  · intro d hd
    simp only [List.mem_append, List.mem_singleton] at hd
    rcases hd with hd | hd
    · have := hinv.handle_range d hd
      show 0 < d.handle ∧ d.handle ≤ reg.handleCounter + 1
      omega
    · subst hd
      have := hinv.counter_nonneg
      show 0 < reg.handleCounter + 1 ∧ reg.handleCounter + 1 ≤ reg.handleCounter + 1
      omega
  · show ((reg.documentListHead ++ [{ document with handle := reg.handleCounter + 1 }]).map
      (fun d : TixiDocument => d.handle)).Nodup
    rw [List.map_append, List.nodup_append]
    refine ⟨hinv.nodup, by simp, ?_⟩
    intro a ha hb2
    simp only [List.map_cons, List.map_nil, List.mem_singleton] at hb2
    rw [List.mem_map] at ha
    obtain ⟨d, hd, hda⟩ := ha
    have := hinv.handle_range d hd
    omega

theorem regInv_remove (reg : DocumentList) (handle : Int) (hinv : RegInv reg) :
    RegInv (removeDocumentFromList reg handle).2 := by
  unfold removeDocumentFromList
  cases hl : reg.documentListHead with
  | nil => exact hinv
  | cons d rest =>
    refine ⟨hinv.counter_nonneg, ?_, ?_⟩
    · intro e he
      have hmem : e ∈ reg.documentListHead := by
        rw [hl]
        exact mem_removeEntry handle (d :: rest) e he
      exact hinv.handle_range e hmem
    · have hn := hinv.nodup
      rw [hl] at hn
      exact nodup_removeEntry handle (d :: rest) hn

theorem removeDocumentFromList_counter (reg : DocumentList) (handle : Int) :
    (removeDocumentFromList reg handle).2.handleCounter = reg.handleCounter := by
  unfold removeDocumentFromList
  cases reg.documentListHead <;> rfl

theorem getDocument_remove (reg : DocumentList) (handle k : Int) (hinv : RegInv reg) :
    getDocument (removeDocumentFromList reg handle).2 k =
      if k = handle then none else getDocument reg k := by
  unfold removeDocumentFromList getDocument
  cases hl : reg.documentListHead with
  | nil => simp [hl, getDocumentFrom]
  | cons d rest =>
    have hn := hinv.nodup
    rw [hl] at hn
    exact getDocumentFrom_removeEntry handle k (d :: rest) hn

theorem getDocument_add (reg : DocumentList) (document : TixiDocument) (k : Int)
    (hinv : RegInv reg) (hb : reg.handleCounter + 1 < 2 ^ 31) :
    getDocument (addDocumentToList reg document true).2.1 k =
      if k = reg.handleCounter + 1 then
        some { document with handle := reg.handleCounter + 1 }
      else getDocument reg k := by
  rw [addDocumentToList_ok reg document hinv.counter_nonneg hb]
  unfold getDocument
  show getDocumentFrom k (reg.documentListHead ++ [_]) = _
  rw [getDocumentFrom_append]
  by_cases hk : k = reg.handleCounter + 1
  · have hnone : getDocumentFrom k reg.documentListHead = none := by
      rw [getDocumentFrom_eq_none]
      intro d hd hdk
      have := hinv.handle_range d hd
      omega
    rw [hnone]
    simp [getDocumentFrom, hk]
  · have hk2 : ¬ reg.handleCounter + 1 = k := fun hh => hk hh.symm
    cases hg : getDocumentFrom k reg.documentListHead with
    | none => simp [getDocumentFrom, hk, hk2]
    | some d => simp [hk]

/-- Refinement of the table by the chain, from any state that satisfies the
invariant, as long as the counter stays inside the range of `int`. -/
theorem getDocument_runCalls (calls : List RegistryCall) :
    ∀ (reg : DocumentList) (table : Int → Option TixiDocument), RegInv reg →
      (∀ h, getDocument reg h = table h) →
      reg.handleCounter + successfulRegistrations calls < 2 ^ 31 →
      ∀ h, getDocument (runCalls reg calls) h = tableAfter reg table calls h := by
  induction calls with
  | nil => intro reg table _ htab _ h; exact htab h
  | cons c cs ih =>
    intro reg table hinv htab hb h
    cases c with
    | register document mallocOk =>
      cases mallocOk with
      | false =>
        simp only [runCalls, RegistryCall.apply, tableAfter, addDocumentToList_fail]
        apply ih reg table hinv htab
        simpa [successfulRegistrations] using hb
      | true =>
        have hb1 : reg.handleCounter + 1 < 2 ^ 31 := by
          simp only [successfulRegistrations, if_true, Nat.cast_add, Nat.cast_one] at hb
          omega
        have hinv2 := regInv_add reg document hinv hb1
        have hget := getDocument_add reg document
        simp only [runCalls, RegistryCall.apply, tableAfter]
        rw [addDocumentToList_ok reg document hinv.counter_nonneg hb1] at hinv2 hget ⊢
        apply ih _ _ hinv2
        · intro k
          rw [hget k hinv hb1]
          by_cases hk : k = reg.handleCounter + 1
          · subst hk
            simp
          · simp [hk, Function.update, htab k]
        · simp only [successfulRegistrations, if_true, Nat.cast_add, Nat.cast_one] at hb
          show reg.handleCounter + 1 + _ < _
          omega
    | unregister handle =>
      simp only [runCalls, RegistryCall.apply, tableAfter]
      apply ih _ _ (regInv_remove reg handle hinv)
      · intro k
        rw [getDocument_remove reg handle k hinv]
        by_cases hk : k = handle
        · subst hk
          simp
        · simp [hk, Function.update, htab k]
      · rw [removeDocumentFromList_counter]
        simpa [successfulRegistrations] using hb

/-- The handles returned from a state satisfying the invariant are above the
counter of that state and strictly increasing, and the invariant holds at the
end. -/
theorem returnedHandles_increasing (calls : List RegistryCall) :
    ∀ (reg : DocumentList), RegInv reg →
      reg.handleCounter + successfulRegistrations calls < 2 ^ 31 →
      (∀ h ∈ returnedHandles reg calls, reg.handleCounter < h) ∧
        (returnedHandles reg calls).Pairwise (fun a b => a < b) ∧
        RegInv (runCalls reg calls) := by
  induction calls with
  | nil => intro reg hinv _; exact ⟨by simp [returnedHandles], by simp [returnedHandles], hinv⟩
  | cons c cs ih =>
    intro reg hinv hb
    cases c with
    | register document mallocOk =>
      cases mallocOk with
      | false =>
        simp only [runCalls, RegistryCall.apply, returnedHandles, addDocumentToList_fail]
        apply ih reg hinv
        simpa [successfulRegistrations] using hb
      | true =>
        have hb1 : reg.handleCounter + 1 < 2 ^ 31 := by
          simp only [successfulRegistrations, if_true, Nat.cast_add, Nat.cast_one] at hb
          omega
        have hinv2 := regInv_add reg document hinv hb1
        simp only [runCalls, RegistryCall.apply, returnedHandles]
        rw [addDocumentToList_ok reg document hinv.counter_nonneg hb1] at hinv2 ⊢
        have hb2 : reg.handleCounter + 1 + successfulRegistrations cs < 2 ^ 31 := by
          simp only [successfulRegistrations, if_true, Nat.cast_add, Nat.cast_one] at hb
          omega
        obtain ⟨h1, h2, h3⟩ := ih _ hinv2 hb2
        refine ⟨?_, ?_, h3⟩
        · intro h hh
          simp only [List.mem_cons] at hh
          rcases hh with hh | hh
          · omega
          · have := h1 h hh
            simp only at this
            omega
        · rw [List.pairwise_cons]
          exact ⟨fun h hh => h1 h hh, h2⟩
    | unregister handle =>
      simp only [runCalls, RegistryCall.apply, returnedHandles]
      have hc := removeDocumentFromList_counter reg handle
      have := ih _ (regInv_remove reg handle hinv) (by rw [hc]; simpa [successfulRegistrations] using hb)
      rw [hc] at this
      exact this


/-- C1: after any finite sequence of register and unregister calls from the empty
registry (the counter staying inside the range of `int`), `getDocument h` is the
document bound to `h` in the handle table, that is, the document registered
under `h` when `h` was registered and not unregistered since, and `NULL`
(`none`) otherwise. -/
theorem getDocument_after_calls (calls : List RegistryCall) (h : Int)
    (hb : successfulRegistrations calls < 2 ^ 31) :
    getDocument (runCalls DocumentList.initial calls) h =
      tableAfter DocumentList.initial (fun _ => none) calls h := by
  apply getDocument_runCalls calls DocumentList.initial (fun _ => none) regInv_initial
  · intro k
    rfl
  · show (0 : Int) + _ < _
    have : ((successfulRegistrations calls : Nat) : Int) < 2 ^ 31 := by exact_mod_cast hb
    omega

theorem getDocument_after_calls_witness :
    getDocument (runCalls DocumentList.initial demoCalls) 2 = some { demoDocument with handle := 2 } ∧
      getDocument (runCalls DocumentList.initial demoCalls) 1 = none := by
  have h2 := getDocument_after_calls demoCalls 2 (by decide)
  have h1 := getDocument_after_calls demoCalls 1 (by decide)
  refine ⟨h2.trans ?_, h1.trans ?_⟩
  · decide
  · decide

/-- C2: in every sequence of register and unregister calls from the empty
registry (the counter staying inside the range of `int`), every handle returned
by a successful `addDocumentToList` is positive and strictly greater than every
handle returned earlier, whatever was unregistered in between, and the documents
in the registry carry pairwise distinct handles. -/
theorem handles_never_reused (calls : List RegistryCall)
    (hb : successfulRegistrations calls < 2 ^ 31) :
    (∀ h ∈ returnedHandles DocumentList.initial calls, 0 < h) ∧
      (returnedHandles DocumentList.initial calls).Pairwise (fun a b => a < b) ∧
      ((runCalls DocumentList.initial calls).documentListHead.map (fun d => d.handle)).Nodup := by
  have hb2 : DocumentList.initial.handleCounter + successfulRegistrations calls < 2 ^ 31 := by
    show (0 : Int) + _ < _
    have : ((successfulRegistrations calls : Nat) : Int) < 2 ^ 31 := by exact_mod_cast hb
    omega
  obtain ⟨h1, h2, h3⟩ := returnedHandles_increasing calls DocumentList.initial regInv_initial hb2
  exact ⟨fun h hh => h1 h hh, h2, h3.nodup⟩

theorem handles_never_reused_witness :
    returnedHandles DocumentList.initial demoCalls = [1, 2, 3] ∧
      (returnedHandles DocumentList.initial demoCalls).Pairwise (fun a b => a < b) :=
  ⟨by decide, (handles_never_reused demoCalls (by decide)).2.1⟩

/-- C8 (what the code does): for a handle that is not registered,
`removeDocumentFromList` leaves the registry unchanged, but it returns `FAILED`
only when the chain is empty; on a non-empty chain it returns `SUCCESS`. -/
theorem removeDocumentFromList_unregistered (reg : DocumentList) (handle : Int)
    (hnot : getDocument reg handle = none) :
    (removeDocumentFromList reg handle).2 = reg ∧
      (removeDocumentFromList reg handle).1 =
        if reg.documentListHead.isEmpty then ReturnCode.FAILED else ReturnCode.SUCCESS := by
  unfold getDocument at hnot
  rw [getDocumentFrom_eq_none] at hnot
  unfold removeDocumentFromList
  cases hl : reg.documentListHead with
  | nil => simp
  | cons d rest =>
    rw [hl] at hnot
    have hrem := removeEntry_of_absent handle (d :: rest) hnot
    simp only [hrem, List.isEmpty_cons, Bool.false_eq_true, if_false, and_true]
    cases reg
    simp_all

theorem removeDocumentFromList_unregistered_witness :
    getDocument (runCalls DocumentList.initial [RegistryCall.register demoDocument true]) 2 = none ∧
      removeDocumentFromList
          (runCalls DocumentList.initial [RegistryCall.register demoDocument true]) 2 =
        (ReturnCode.SUCCESS,
          runCalls DocumentList.initial [RegistryCall.register demoDocument true]) := by
  have h := removeDocumentFromList_unregistered
    (runCalls DocumentList.initial [RegistryCall.register demoDocument true]) 2 (by decide)
  refine ⟨by decide, ?_⟩
  exact Prod.ext (h.2.trans (by decide)) h.1

/-! ## Theorems: path resolution -/

theorem checkElement_subsingleton {ν : Type} (nodeType : ν → XmlElementType)
    (eval : CString → Option (XmlXPathObject ν)) (path : CString)
    (hlen : path.length < elementPathSize) (obj : XmlXPathObject ν) (n : ν)
    (he : eval (removeTrailingSlash path) = some obj) (hm : matchedNodes obj = [n])
    (ht : nodeType n = XmlElementType.XML_ELEMENT_NODE ∨
      nodeType n = XmlElementType.XML_DOCUMENT_NODE ∨
      nodeType n = XmlElementType.XML_TEXT_NODE) :
    checkElement nodeType eval path = some (ReturnCode.SUCCESS, some n) := by
  rcases obj with ⟨_ | _ | ⟨a, _ | ⟨b, l⟩⟩⟩ <;>
    simp_all [checkElement, matchedNodes, xmlXPathNodeSetIsEmpty]

/-- C3: for a path that fits the 1024-byte buffer, with `r` the evaluator result
on the canonicalised path, `checkElement` returns `INVALID_XPATH` when there is
no result object, `ELEMENT_NOT_FOUND` when zero nodes match,
`ELEMENT_PATH_NOT_UNIQUE` when two or more match, `SUCCESS` with the matched node
when exactly one node of kind element, document or text matches, and
`NOT_AN_ELEMENT` when exactly one node of another kind matches; a node is stored
only together with `SUCCESS`. -/
theorem checkElement_classification {ν : Type} (nodeType : ν → XmlElementType)
    (eval : CString → Option (XmlXPathObject ν)) (path : CString)
    (hlen : path.length < elementPathSize) :
    (eval (removeTrailingSlash path) = none →
        checkElement nodeType eval path = some (ReturnCode.INVALID_XPATH, none)) ∧
      (∀ obj, eval (removeTrailingSlash path) = some obj → matchedNodes obj = [] →
        checkElement nodeType eval path = some (ReturnCode.ELEMENT_NOT_FOUND, none)) ∧
      (∀ obj, eval (removeTrailingSlash path) = some obj → 2 ≤ (matchedNodes obj).length →
        checkElement nodeType eval path = some (ReturnCode.ELEMENT_PATH_NOT_UNIQUE, none)) ∧
      (∀ obj n, eval (removeTrailingSlash path) = some obj → matchedNodes obj = [n] →
        (nodeType n = XmlElementType.XML_ELEMENT_NODE ∨
          nodeType n = XmlElementType.XML_DOCUMENT_NODE ∨
          nodeType n = XmlElementType.XML_TEXT_NODE) →
        checkElement nodeType eval path = some (ReturnCode.SUCCESS, some n)) ∧
      (∀ obj n, eval (removeTrailingSlash path) = some obj → matchedNodes obj = [n] →
        ¬ (nodeType n = XmlElementType.XML_ELEMENT_NODE ∨
          nodeType n = XmlElementType.XML_DOCUMENT_NODE ∨
          nodeType n = XmlElementType.XML_TEXT_NODE) →
        checkElement nodeType eval path = some (ReturnCode.NOT_AN_ELEMENT, none)) ∧
      (∀ code n, checkElement nodeType eval path = some (code, some n) →
        code = ReturnCode.SUCCESS) := by
  refine ⟨?_, ?_, ?_, ?_, ?_, ?_⟩
  · intro h
    simp [checkElement, hlen, h]
  · intro obj h hm
    rcases obj with ⟨_ | _ | ⟨a, l⟩⟩ <;>
      simp_all [checkElement, matchedNodes, xmlXPathNodeSetIsEmpty]
  · intro obj h hm
    rcases obj with ⟨_ | _ | ⟨a, _ | ⟨b, l⟩⟩⟩ <;>
      simp_all [checkElement, matchedNodes, xmlXPathNodeSetIsEmpty]
  · intro obj n h hm ht
    rcases obj with ⟨_ | _ | ⟨a, _ | ⟨b, l⟩⟩⟩ <;>
      simp_all [checkElement, matchedNodes, xmlXPathNodeSetIsEmpty]
  · intro obj n h hm ht
    rcases obj with ⟨_ | _ | ⟨a, _ | ⟨b, l⟩⟩⟩ <;>
      simp_all [checkElement, matchedNodes, xmlXPathNodeSetIsEmpty]
  · intro code n h
    simp only [checkElement, hlen, if_true] at h
    cases he : eval (removeTrailingSlash path) with
    | none => simp [he] at h
    | some obj =>
      rcases obj with ⟨_ | _ | ⟨a, l⟩⟩
      · simp [he, xmlXPathNodeSetIsEmpty] at h
      · simp [he, xmlXPathNodeSetIsEmpty] at h
      · simp only [he, xmlXPathNodeSetIsEmpty, List.isEmpty_cons, Bool.false_eq_true,
          if_false] at h
        split_ifs at h <;> simp_all

theorem checkElement_classification_witness :
    checkElement demoNodeType demoEval "/a/".toList = some (ReturnCode.SUCCESS, some 0) ∧
      checkElement demoNodeType demoEval "/".toList = some (ReturnCode.ELEMENT_NOT_FOUND, none) ∧
      checkElement demoNodeType demoEval "/a/b".toList =
        some (ReturnCode.ELEMENT_PATH_NOT_UNIQUE, none) :=
  ⟨(checkElement_classification demoNodeType demoEval "/a/".toList (by decide)).2.2.2.1
      ⟨some [0]⟩ 0 (by decide) (by decide) (by decide),
    (checkElement_classification demoNodeType demoEval "/".toList (by decide)).2.1
      ⟨some []⟩ (by decide) (by decide),
    (checkElement_classification demoNodeType demoEval "/a/b".toList (by decide)).2.2.1
      ⟨some [0, 1, 2]⟩ (by decide) (by decide)⟩

/-! ## Theorems: the split direction -/

theorem checkExternalNode_eq_success (type : XmlElementType) (name : CString)
    (properties : List (CString × CString)) (content : CString) (children next : XmlNodePtr) :
    checkExternalNode (.node type name properties content children next) = ReturnCode.SUCCESS ↔
      carriesRestorationAttributes type properties = true := by
  unfold checkExternalNode carriesRestorationAttributes xmlGetProp
  by_cases ht : type = XmlElementType.XML_ELEMENT_NODE
  · simp only [ht, if_true, decide_True, Bool.true_and, Bool.and_eq_true]
    cases lookupProp EXTERNAL_DATA_XML_ATTR_NODEPATH properties <;>
      cases lookupProp EXTERNAL_DATA_XML_ATTR_FILENAME properties <;>
      cases lookupProp EXTERNAL_DATA_XML_ATTR_DIRECTORY properties <;> simp
  · simp [ht]

theorem containsInlined_splitTree (t : XmlNodePtr) : containsInlined (splitTree t) = false := by
  induction t with
  | NULL => rfl
  | node type name properties content children next ihc ihn =>
    unfold splitTree
    by_cases hc : carriesRestorationAttributes type properties = true
    · rw [if_pos hc]
      simp [referenceNode, containsInlined, carriesRestorationAttributes, lookupProp, ihn]
    · rw [if_neg hc]
      simp only [containsInlined, ihc, ihn, Bool.or_false]
      simpa using hc

theorem saveExternalFiles_eq_splitTree (env : Env) (dirname : Option CString)
    (hdoc : env.xmlNewDoc = true)
    (huri : ∀ s, string_startsWith s "file://".toList = 0 → (env.uriToLocalPath s).isSome)
    (t : XmlNodePtr) :
    ∃ log, saveExternalFiles env dirname t = some (ReturnCode.SUCCESS, splitTree t, log) := by
  induction t with
  | NULL => exact ⟨[], rfl⟩
  | node type name properties content children next ihc ihn =>
    obtain ⟨log1, h1⟩ := ihc
    obtain ⟨log2, h2⟩ := ihn
    unfold saveExternalFiles splitTree
    simp only [h1, h2]
    by_cases hc : carriesRestorationAttributes type properties = true
    · have hc2 := hc
      simp only [carriesRestorationAttributes, Bool.and_eq_true, decide_eq_true_eq,
        Option.isSome_iff_exists] at hc2
      obtain ⟨⟨⟨ht, _⟩, ⟨f, hf⟩⟩, ⟨d, hd⟩⟩ := hc2
      subst ht
      have hs := (checkExternalNode_eq_success XmlElementType.XML_ELEMENT_NODE name properties
        content (splitTree children) next).2 hc
      rw [if_neg (by simpa using hs), if_pos rfl, if_neg (by simp [hdoc]), if_pos hc]
      simp only [xmlGetProp, if_true, hf, hd, Option.getD_some]
      by_cases hp : string_startsWith (env.resolveDirectory dirname (some d)) "file://".toList = 0
      · obtain ⟨p, hp2⟩ := Option.isSome_iff_exists.1 (huri _ hp)
        simp only [hp, if_true, hp2]
        exact ⟨_, rfl⟩
      · simp only [hp, if_false]
        exact ⟨_, rfl⟩
    · have hs : checkExternalNode (.node type name properties content (splitTree children) next) ≠
          ReturnCode.SUCCESS := fun h =>
        hc ((checkExternalNode_eq_success type name properties content _ next).1 h)
      rw [if_pos hs, if_neg hc]
      exact ⟨_, rfl⟩

/-! ## Theorems: path generation and the evaluator model -/

theorem nodeAt_cons_cons (chain : XmlNodePtr) (i j : Nat) (rest : List Nat) :
    nodeAt chain (i :: j :: rest) = nodeAt (chain.nth i).firstChild (j :: rest) := rfl

theorem nodesAlong_snoc (pos : List Nat) :
    ∀ (chain : XmlNodePtr) (i : Nat),
      nodesAlong chain (pos ++ [i]) = nodesAlong chain pos ++ [nodeAt chain (pos ++ [i])] := by
  induction pos with
  | nil => intro chain i; rfl
  | cons a rest ih =>
    intro chain i
    have hne : rest ++ [i] ≠ [] := by simp
    obtain ⟨b, more, hb⟩ := List.exists_cons_of_ne_nil hne
    show chain.nth a :: nodesAlong (chain.nth a).firstChild (rest ++ [i]) =
      chain.nth a :: nodesAlong (chain.nth a).firstChild rest ++ [nodeAt chain (a :: (rest ++ [i]))]
    rw [ih, hb, nodeAt_cons_cons]
    rfl

theorem renderNodes_append (a b : List XmlNodePtr) :
    renderNodes (a ++ b) = renderNodes a ++ renderNodes b := by
  simp [renderNodes, List.flatMap_append]

theorem generateXPathLoop_eq (doc : XmlNodePtr) (pos : List Nat) :
    ∀ acc, generateXPathLoop doc pos.length pos acc = renderNodes (nodesAlong doc pos) ++ acc := by
  induction pos using List.reverseRecOn with
  | nil => intro acc; rfl
  | append_singleton init i ih =>
    intro acc
    have hne : init ++ [i] ≠ [] := by simp
    obtain ⟨b, more, hb⟩ := List.exists_cons_of_ne_nil hne
    have hlen : (init ++ [i]).length = init.length + 1 := by simp
    rw [hlen, nodesAlong_snoc, renderNodes_append]
    unfold generateXPathLoop
    rw [hb]
    simp only
    rw [← hb, List.dropLast_concat]
    by_cases ht : (nodeAt doc (init ++ [i])).type? = some XmlElementType.XML_ELEMENT_NODE
    · rw [if_pos ht, ih]
      simp [renderNodes, ht]
    · rw [if_neg ht, ih]
      simp [renderNodes, ht]

/-- The generated path is the concatenation of `/segment` over the elements on
the way from the root down to the node. -/
theorem generatedPath_eq (doc : XmlNodePtr) (pos : List Nat) :
    generatedPath doc pos = renderNodes (nodesAlong doc pos) := by
  unfold generatedPath
  rw [generateXPathLoop_eq]
  simp

theorem splitSteps_plain (s : CString) :
    ∀ (q : Bool) (cur rest : CString),
      (∀ c ∈ s, c ≠ dquote ∧ (q = false → c ≠ '/')) →
      splitSteps q cur (s ++ rest) = splitSteps q (cur ++ s) rest := by
  induction s with
  | nil => intro q cur rest _; simp
  | cons c s ih =>
    intro q cur rest h
    have hc := h c (List.mem_cons_self _ _)
    have hs : ∀ d ∈ s, d ≠ dquote ∧ (q = false → d ≠ '/') :=
      fun d hd => h d (List.mem_cons_of_mem _ hd)
    have hslash : ¬ (c = '/' ∧ q = false) := fun hh => hc.2 hh.2 hh.1
    simp only [List.cons_append, splitSteps, hc.1, if_false, hslash]
    show splitSteps q (cur ++ [c]) (s ++ rest) = _
    rw [ih q (cur ++ [c]) rest hs]
    simp

theorem splitSteps_dquote (q : Bool) (cur rest : CString) :
    splitSteps q cur (dquote :: rest) = splitSteps (!q) (cur ++ [dquote]) rest := by
  simp [splitSteps]

theorem isDelimiter_dquote : isDelimiter dquote = true := by decide

theorem isDelimiter_slash : isDelimiter '/' = true := by decide

theorem isDelimiter_bracket : isDelimiter '[' = true := by decide

theorem readableNode_name (node : XmlNodePtr) (h : readableNode node = true) :
    node.nodeName ≠ [] ∧ ∀ c ∈ node.nodeName, isDelimiter c = false := by
  simp only [readableNode, Bool.and_eq_true, Bool.not_eq_true', decide_eq_true_eq] at h
  obtain ⟨⟨⟨_, h1⟩, h2⟩, _⟩ := h
  refine ⟨?_, ?_⟩
  · intro hn
    simp [hn] at h1
  · intro c hc
    rw [List.any_eq_false] at h2
    simpa using h2 c hc

theorem readableNode_type (node : XmlNodePtr) (h : readableNode node = true) :
    node.type? = some XmlElementType.XML_ELEMENT_NODE := by
  simp only [readableNode, Bool.and_eq_true, decide_eq_true_eq] at h
  exact h.1.1.1

theorem readableNode_uid (node : XmlNodePtr) (h : readableNode node = true) (value : CString)
    (hv : xmlGetProp node "uID".toList = some value) : ∀ c ∈ value, c ≠ dquote := by
  simp only [readableNode, Bool.and_eq_true, hv, Bool.not_eq_true'] at h
  have h2 : ¬ dquote ∈ value := by simpa using h.2
  intro c hc hcd
  subst hcd
  exact h2 hc

theorem splitSteps_segment (node : XmlNodePtr) (h : readableNode node = true)
    (cur rest : CString) :
    splitSteps false cur (nodeSegment node ++ rest) =
      splitSteps false (cur ++ nodeSegment node) rest := by
  obtain ⟨_, hname⟩ := readableNode_name node h
  have hplain : ∀ c ∈ node.nodeName, c ≠ dquote ∧ (false = false → c ≠ '/') := by
    intro c hc
    have hd := hname c hc
    refine ⟨?_, fun _ => ?_⟩
    · intro hh
      rw [hh, isDelimiter_dquote] at hd
      exact Bool.noConfusion hd
    · intro hh
      rw [hh, isDelimiter_slash] at hd
      exact Bool.noConfusion hd
  unfold nodeSegment
  cases hv : xmlGetProp node "uID".toList with
  | none =>
    simp only
    exact splitSteps_plain _ false cur rest hplain
  | some value =>
    have hval := readableNode_uid node h value hv
    simp only [List.append_assoc]
    rw [splitSteps_plain _ false cur _ hplain]
    have hopen : uidOpen = "[@uID=".toList ++ [dquote] := rfl
    have hclose : uidClose = dquote :: "]".toList := rfl
    rw [hopen, hclose]
    simp only [List.append_assoc, List.singleton_append, List.cons_append]
    rw [splitSteps_plain "[@uID=".toList false _ _ (by decide), splitSteps_dquote]
    simp only [Bool.not_false, List.nil_append]
    rw [splitSteps_plain value true _ _
      (fun c hc => ⟨hval c hc, fun hh => Bool.noConfusion hh⟩), splitSteps_dquote]
    simp only [Bool.not_true]
    rw [splitSteps_plain "]".toList false _ _ (by decide)]
    simp

theorem renderNodes_cons (node : XmlNodePtr) (nodes : List XmlNodePtr)
    (h : readableNode node = true) :
    renderNodes (node :: nodes) = '/' :: (nodeSegment node ++ renderNodes nodes) := by
  simp [renderNodes, readableNode_type node h]

theorem splitSteps_render (nodes : List XmlNodePtr) :
    ∀ (node : XmlNodePtr) (cur : CString), readableNode node = true →
      (∀ n ∈ nodes, readableNode n = true) →
      splitSteps false cur (nodeSegment node ++ renderNodes nodes) =
        (cur ++ nodeSegment node) :: nodes.map nodeSegment := by
  induction nodes with
  | nil =>
    intro node cur h _
    rw [splitSteps_segment node h]
    simp [renderNodes, splitSteps]
  | cons n ns ih =>
    intro node cur h hall
    have hn : readableNode n = true := hall n (List.mem_cons_self _ _)
    rw [splitSteps_segment node h, renderNodes_cons n ns hn]
    have hne : ('/' : Char) ≠ dquote := by decide
    simp only [splitSteps, hne, if_false, and_self, if_true, List.map_cons]
    rw [ih n [] hn (fun m hm => hall m (List.mem_cons_of_mem _ hm))]
    simp

theorem stripPrefix_append (p s : CString) : stripPrefix p (p ++ s) = some s := by
  induction p with
  | nil => cases s <;> rfl
  | cons c p ih => simp [stripPrefix, ih]

theorem takeWhile_until (p : Char → Bool) (l : CString) (a : Char) (r : CString)
    (hl : ∀ c ∈ l, p c = true) (ha : p a = false) :
    (l ++ a :: r).takeWhile p = l ∧ (l ++ a :: r).dropWhile p = a :: r := by
  induction l with
  | nil => simp [List.takeWhile, List.dropWhile, ha]
  | cons c l ih =>
    have hc := hl c (List.mem_cons_self _ _)
    have := ih (fun d hd => hl d (List.mem_cons_of_mem _ hd))
    simp [List.takeWhile, List.dropWhile, hc, this]

theorem takeWhile_all (p : Char → Bool) (l : CString) (hl : ∀ c ∈ l, p c = true) :
    l.takeWhile p = l ∧ l.dropWhile p = [] := by
  induction l with
  | nil => simp
  | cons c l ih =>
    have hc := hl c (List.mem_cons_self _ _)
    have := ih (fun d hd => hl d (List.mem_cons_of_mem _ hd))
    simp [List.takeWhile, List.dropWhile, hc, this]

theorem parseStep_segment (node : XmlNodePtr) (h : readableNode node = true) :
    parseStep (nodeSegment node) = some (stepOf node) := by
  obtain ⟨hne, hname⟩ := readableNode_name node h
  have hbr : ∀ c ∈ node.nodeName, (decide (c ≠ '[')) = true := by
    intro c hc
    have hd := hname c hc
    simp only [ne_eq, decide_not, Bool.not_eq_true', decide_eq_false_iff_not]
    intro hh
    rw [hh, isDelimiter_bracket] at hd
    exact Bool.noConfusion hd
  have hany : node.nodeName.any isDelimiter = false := by
    rw [List.any_eq_false]
    intro c hc
    simp [hname c hc]
  unfold parseStep nodeSegment stepOf
  cases hv : xmlGetProp node "uID".toList with
  | none =>
    obtain ⟨h1, h2⟩ := takeWhile_all (fun c => decide (c ≠ '[')) node.nodeName hbr
    simp only [h1, h2, hne, hany, false_or, Bool.false_eq_true, if_false]
  | some value =>
    have hval := readableNode_uid node h value hv
    have hopen : uidOpen = '[' :: ("@uID=".toList ++ [dquote]) := rfl
    have hseg : node.nodeName ++ uidOpen ++ value ++ uidClose =
        node.nodeName ++ '[' :: ("@uID=".toList ++ [dquote] ++ value ++ uidClose) := by
      rw [hopen]
      simp
    obtain ⟨h1, h2⟩ := takeWhile_until (fun c => decide (c ≠ '[')) node.nodeName '['
      ("@uID=".toList ++ [dquote] ++ value ++ uidClose) hbr (by decide)
    simp only [hseg, h1, h2, hne, hany, false_or, Bool.false_eq_true, if_false]
    have hrest : '[' :: ("@uID=".toList ++ [dquote] ++ value ++ uidClose) =
        uidOpen ++ (value ++ uidClose) := by
      rw [hopen]
      simp
    rw [hrest, stripPrefix_append]
    have hq : ∀ c ∈ value, (decide (c ≠ dquote)) = true := by
      intro c hc
      simpa using hval c hc
    obtain ⟨h3, h4⟩ := takeWhile_until (fun c => decide (c ≠ dquote)) value dquote [']'] hq
      (by decide)
    have hclose : uidClose = dquote :: [']'] := rfl
    simp only [hclose, h3, h4, if_true]

theorem parseSteps_segments (nodes : List XmlNodePtr)
    (hall : ∀ n ∈ nodes, readableNode n = true) :
    parseSteps (nodes.map nodeSegment) = some (nodes.map stepOf) := by
  induction nodes with
  | nil => rfl
  | cons n ns ih =>
    have hn := parseStep_segment n (hall n (List.mem_cons_self _ _))
    have hns := ih (fun m hm => hall m (List.mem_cons_of_mem _ hm))
    simp [parseSteps, hn, hns]

theorem nodeSegment_ne_nil (node : XmlNodePtr) (h : readableNode node = true) :
    nodeSegment node ≠ [] := by
  obtain ⟨hne, _⟩ := readableNode_name node h
  unfold nodeSegment
  cases xmlGetProp node "uID".toList <;> simp [hne]

theorem parsePath_render (node : XmlNodePtr) (nodes : List XmlNodePtr)
    (h : readableNode node = true) (hall : ∀ n ∈ nodes, readableNode n = true) :
    parsePath (renderNodes (node :: nodes)) = some ((node :: nodes).map stepOf) := by
  rw [renderNodes_cons node nodes h]
  have hne : nodeSegment node ++ renderNodes nodes ≠ [] := by
    simp [nodeSegment_ne_nil node h]
  obtain ⟨c, more, hc⟩ := List.exists_cons_of_ne_nil hne
  unfold parsePath
  simp only [if_true]
  rw [hc]
  simp only
  rw [← hc, splitSteps_render nodes node [] h hall, List.nil_append, ← List.map_cons]
  exact parseSteps_segments (node :: nodes) (by
    intro n hn
    rcases List.mem_cons.1 hn with hn | hn
    · exact hn ▸ h
    · exact hall n hn)

theorem uniquelyAddressed_readable (pos : List Nat) :
    ∀ (chain : XmlNodePtr), uniquelyAddressed chain pos = true →
      ∀ n ∈ nodesAlong chain pos, readableNode n = true := by
  induction pos with
  | nil => intro chain _ n hn; simp [nodesAlong] at hn
  | cons i rest ih =>
    intro chain h n hn
    simp only [uniquelyAddressed, Bool.and_eq_true, decide_eq_true_eq] at h
    simp only [nodesAlong, List.mem_cons] at hn
    rcases hn with hn | hn
    · exact hn ▸ h.1.1
    · exact ih _ h.2 n hn

theorem selectSteps_unique (pos : List Nat) :
    ∀ (chain : XmlNodePtr), uniquelyAddressed chain pos = true →
      selectSteps chain ((nodesAlong chain pos).map stepOf) = [pos] := by
  induction pos with
  | nil => intro chain _; rfl
  | cons i rest ih =>
    intro chain h
    simp only [uniquelyAddressed, Bool.and_eq_true, decide_eq_true_eq] at h
    simp only [nodesAlong, List.map_cons, selectSteps, h.1.2, List.flatMap_cons,
      List.flatMap_nil, List.append_nil, ih _ h.2, List.map_nil]

theorem nodeSegment_last (node : XmlNodePtr) (h : readableNode node = true) :
    ∃ init c, nodeSegment node = init ++ [c] ∧ c ≠ '/' := by
  obtain ⟨hne, hname⟩ := readableNode_name node h
  unfold nodeSegment
  cases xmlGetProp node "uID".toList with
  | none =>
    refine ⟨node.nodeName.dropLast, node.nodeName.getLast hne, ?_, ?_⟩
    · simp [List.dropLast_append_getLast]
    · intro hh
      have hd := hname _ (List.getLast_mem hne)
      rw [hh, isDelimiter_slash] at hd
      exact Bool.noConfusion hd
  | some value =>
    refine ⟨node.nodeName ++ uidOpen ++ value ++ [dquote], ']', ?_, by decide⟩
    simp [uidClose]

theorem removeTrailingSlash_of_last (init : CString) (c : Char) (hc : c ≠ '/') :
    removeTrailingSlash (init ++ [c]) = init ++ [c] := by
  unfold removeTrailingSlash
  rw [if_neg]
  intro hh
  have := hh.2
  rw [List.getLast?_append, List.getLast?_singleton] at this
  exact hc (Option.some.inj this)

theorem nodeAt_mem_nodesAlong (init : List Nat) (i : Nat) (chain : XmlNodePtr) :
    nodeAt chain (init ++ [i]) ∈ nodesAlong chain (init ++ [i]) := by
  rw [nodesAlong_snoc]
  simp

/-- On a tree where every node on the way down to `pos` is readable and uniquely
selected by its own segment, the path generated for the node resolves to the
node. -/
theorem checkElementOn_generatedPath (doc : XmlNodePtr) (pos : List Nat) (hpos : pos ≠ [])
    (hu : uniquelyAddressed doc pos = true)
    (hlen : (generatedPath doc pos).length < elementPathSize) :
    checkElementOn doc (generatedPath doc pos) = some (ReturnCode.SUCCESS, some pos) := by
  have hread := uniquelyAddressed_readable pos doc hu
  have hsel := selectSteps_unique pos doc hu
  rw [generatedPath_eq] at hlen ⊢
  -- the node itself
  obtain ⟨init, i, hinit⟩ : ∃ init i, pos = init ++ [i] :=
    ⟨pos.dropLast, pos.getLast hpos, (List.dropLast_append_getLast hpos).symm⟩
  have hnode : readableNode (nodeAt doc pos) = true := by
    apply hread
    rw [hinit]
    exact nodeAt_mem_nodesAlong init i doc
  have htype : nodeTypeAt doc pos = XmlElementType.XML_ELEMENT_NODE := by
    obtain ⟨a, more, ha⟩ := List.exists_cons_of_ne_nil hpos
    unfold nodeTypeAt typeAt
    rw [ha]
    simp only
    rw [← ha, readableNode_type _ hnode]
    rfl
  -- the last character of the path
  obtain ⟨sinit, c, hseg, hc⟩ := nodeSegment_last _ hnode
  have hpath : renderNodes (nodesAlong doc pos) =
      (renderNodes (nodesAlong doc init) ++ '/' :: sinit) ++ [c] := by
    rw [hinit, nodesAlong_snoc, renderNodes_append, ← hinit]
    simp [renderNodes, readableNode_type _ hnode, hseg]
  have hstrip : removeTrailingSlash (renderNodes (nodesAlong doc pos)) =
      renderNodes (nodesAlong doc pos) := by
    rw [hpath]
    exact removeTrailingSlash_of_last _ c hc
  -- the evaluator
  have hparse : parsePath (renderNodes (nodesAlong doc pos)) =
      some ((nodesAlong doc pos).map stepOf) := by
    obtain ⟨a, more, ha⟩ := List.exists_cons_of_ne_nil hpos
    have hnodes : nodesAlong doc pos =
        doc.nth a :: nodesAlong (doc.nth a).firstChild more := by rw [ha]; rfl
    rw [hnodes] at hread ⊢
    exact parsePath_render _ _ (hread _ (List.mem_cons_self _ _))
      (fun n hn => hread n (List.mem_cons_of_mem _ hn))
  have heval : xmlXPathEvalExpression doc (renderNodes (nodesAlong doc pos)) =
      some ⟨some [pos]⟩ := by
    unfold xmlXPathEvalExpression
    rw [hparse]
    simp only [hsel]
  unfold checkElementOn
  exact (checkElement_subsingleton (nodeTypeAt doc) (xmlXPathEvalExpression doc) _ hlen
    ⟨some [pos]⟩ pos (by rw [hstrip]; exact heval) rfl (Or.inl htype))

theorem getDocumentFrom_updateDocumentIn (handle : Int) (f : TixiDocument → TixiDocument)
    (hf : ∀ d, (f d).handle = d.handle) (l : List TixiDocument) :
    getDocumentFrom handle (updateDocumentIn handle f l) = (getDocumentFrom handle l).map f := by
  induction l with
  | nil => rfl
  | cons d rest ih =>
    by_cases hd : d.handle = handle
    · simp [getDocumentFrom, updateDocumentIn, hd, hf]
    · simp [getDocumentFrom, updateDocumentIn, hd, ih]

theorem addToMemoryList_frame (d : TixiDocument) (memory : CString) (mallocOk : Bool) :
    (addToMemoryList d memory mallocOk).2.handle = d.handle ∧
      (addToMemoryList d memory mallocOk).2.docPtr = d.docPtr := by
  unfold addToMemoryList
  cases d.memoryListTail <;> cases mallocOk <;> simp

/-- C4 (amended): for a registered document and a node below its document root
such that every node on the way down from the root to the node is an element
with a non-empty tag name free of XPath delimiters and a `uID` value (if any)
free of `"`, and is the only child of its parent that its own segment selects,
and such that the generated path fits the 1024-byte buffer:
`generateXPathFromNodePtr` returns a path, the document keeps its tree, and
`checkElement` on that path returns `SUCCESS` with that same node. -/
theorem generate_then_resolve (reg : DocumentList) (handle : Int) (document : TixiDocument)
    (pos : List Nat) (mallocOk : Bool) (hdoc : getDocument reg handle = some document)
    (hpos : pos ≠ []) (hu : uniquelyAddressed document.docPtr pos = true)
    (hlen : (generatedPath document.docPtr pos).length < elementPathSize) :
    ∃ path after,
      (generateXPathFromNodePtr reg handle pos mallocOk).1 = some path ∧
        getDocument (generateXPathFromNodePtr reg handle pos mallocOk).2 handle = some after ∧
        after.docPtr = document.docPtr ∧
        checkElementOn after.docPtr path = some (ReturnCode.SUCCESS, some pos) := by
  refine ⟨generatedPath document.docPtr pos,
    (addToMemoryList document (generatedPath document.docPtr pos) mallocOk).2, ?_, ?_, ?_, ?_⟩
  · simp [generateXPathFromNodePtr, hdoc]
  · simp only [generateXPathFromNodePtr, hdoc]
    unfold getDocument at hdoc ⊢
    simp only [updateDocument]
    rw [getDocumentFrom_updateDocumentIn handle _
      (fun d => (addToMemoryList_frame d _ mallocOk).1), hdoc]
    rfl
  · exact (addToMemoryList_frame document _ mallocOk).2
  · rw [(addToMemoryList_frame document _ mallocOk).2]
    exact checkElementOn_generatedPath document.docPtr pos hpos hu hlen

theorem generate_then_resolve_witness :
    ∃ path after,
      (generateXPathFromNodePtr demoRegistry 1 [0, 0] true).1 = some path ∧
        getDocument (generateXPathFromNodePtr demoRegistry 1 [0, 0] true).2 1 = some after ∧
        after.docPtr = demoTree ∧
        checkElementOn after.docPtr path = some (ReturnCode.SUCCESS, some [0, 0]) :=
  generate_then_resolve demoRegistry 1 { demoDocument with docPtr := demoTree, handle := 1 }
    [0, 0] true (by decide) (by decide) (by decide) (by decide)

/-- C4 (counterexample): in the registered document
`<root><a uID="x/y">hi</a><a/><b/><c uID="x&quot;y"/></root>` the path generated
for the second `a` is `/root/a`, which matches two nodes; the path generated for
the text node `hi` resolves to its parent element; the path generated for `c`
is not a valid expression. -/
theorem generate_then_resolve_counterexample :
    ((generateXPathFromNodePtr demoRegistry 1 [0, 1] true).1 = some "/root/a".toList ∧
        checkElementOn demoTree "/root/a".toList =
          some (ReturnCode.ELEMENT_PATH_NOT_UNIQUE, none)) ∧
      (nodeAt demoTree [0, 0, 0] = xmlNewText "hi".toList ∧
        checkElementOn demoTree
            ((generateXPathFromNodePtr demoRegistry 1 [0, 0, 0] true).1.getD []) =
          some (ReturnCode.SUCCESS, some [0, 0])) ∧
      checkElementOn demoTree ((generateXPathFromNodePtr demoRegistry 1 [0, 3] true).1.getD []) =
        some (ReturnCode.INVALID_XPATH, none) := by
  decide

/-! ## Theorems: saving a document -/

theorem saveExternalFiles_defined (env : Env) (dirname : Option CString)
    (huri : ∀ s, string_startsWith s "file://".toList = 0 → (env.uriToLocalPath s).isSome)
    (t : XmlNodePtr) : ∃ r, saveExternalFiles env dirname t = some r := by
  induction t with
  | NULL => exact ⟨_, rfl⟩
  | node type name properties content children next ihc ihn =>
    obtain ⟨⟨rc1, c1, log1⟩, h1⟩ := ihc
    obtain ⟨⟨rc2, n2, log2⟩, h2⟩ := ihn
    unfold saveExternalFiles
    simp only [h1, h2]
    split_ifs with hc ht hd hp
    · exact ⟨_, rfl⟩
    · exact ⟨_, rfl⟩
    · obtain ⟨p, hp2⟩ := Option.isSome_iff_exists.1 (huri _ hp)
      simp only [hp2]
      exact ⟨_, rfl⟩
    · exact ⟨_, rfl⟩
    · exact ⟨_, rfl⟩

theorem fromRootElement_defined (f : XmlNodePtr → Option (XmlNodePtr × List WrittenFile))
    (hf : ∀ t, ∃ r, f t = some r) (t : XmlNodePtr) : ∃ r, fromRootElement f t = some r := by
  induction t with
  | NULL => exact ⟨_, rfl⟩
  | node type name properties content children next _ ihn =>
    unfold fromRootElement
    split_ifs
    · exact hf _
    · obtain ⟨⟨n1, log⟩, h⟩ := ihn
      simp only [h]
      exact ⟨_, rfl⟩

theorem getDocumentFrom_update_other (h k : Int) (f : TixiDocument → TixiDocument)
    (hf : ∀ d, (f d).handle = d.handle) (l : List TixiDocument) :
    getDocumentFrom h (updateDocumentIn k f l) =
      (getDocumentFrom h l).map (fun d => if h = k then f d else d) := by
  induction l with
  | nil => rfl
  | cons d rest ih =>
    by_cases hd : d.handle = k
    · by_cases hh : d.handle = h
      · have hkh : h = k := hh.symm.trans hd
        simp [getDocumentFrom, updateDocumentIn, hd, hh, hf, hkh]
      · have hkh : ¬ k = h := fun e => hh (hd.trans e)
        have hkh2 : ¬ h = k := fun e => hkh e.symm
        simp [getDocumentFrom, updateDocumentIn, hd, hh, hf, hkh, hkh2]
    · by_cases hh : d.handle = h
      · have hkh : ¬ h = k := fun e => hd (hh.trans e)
        simp [getDocumentFrom, updateDocumentIn, hd, hh, hkh]
      · simp [getDocumentFrom, updateDocumentIn, hd, hh, ih]

theorem getDocumentFrom_append_of_some (h : Int) (l1 l2 : List TixiDocument) (d : TixiDocument)
    (hd : getDocumentFrom h l1 = some d) : getDocumentFrom h (l1 ++ l2) = some d := by
  rw [getDocumentFrom_append, hd]

theorem getDocumentFrom_append_last (h : Int) (l : List TixiDocument) (c : TixiDocument)
    (hc : c.handle = h) : ∃ d, getDocumentFrom h (l ++ [c]) = some d := by
  rw [getDocumentFrom_append]
  cases getDocumentFrom h l with
  | some d => exact ⟨d, rfl⟩
  | none => exact ⟨c, by simp [getDocumentFrom, hc]⟩

/-- What a successful `copyDocument` does to the registry: one entry is appended
and the handle of that entry is stored. -/
theorem copyDocument_ok (reg : DocumentList) (handle : Int) (document : TixiDocument)
    (hdoc : getDocument reg handle = some document)
    (hroot : xmlDocGetRootElement document.docPtr ≠ XmlNodePtr.NULL) :
    ∃ cpy newHandle, cpy.handle = newHandle ∧
      copyDocument reg handle true true =
        (ReturnCode.SUCCESS, ⟨reg.documentListHead ++ [cpy], newHandle⟩, some newHandle) := by
  unfold copyDocument
  rw [hdoc]
  simp only [Bool.true_eq_false, if_false]
  cases hr : xmlDocGetRootElement document.docPtr with
  | NULL => exact absurd hr hroot
  | node t n p c ch nx =>
    simp only [addDocumentToList, if_true]
    exact ⟨_, _, rfl, rfl⟩

theorem getDocument_after_copy_update (reg : DocumentList) (handle newHandle : Int)
    (document cpy : TixiDocument) (f : TixiDocument → TixiDocument)
    (hf : ∀ d, (f d).handle = d.handle ∧ (f d).xmlFilename = d.xmlFilename ∧
      (f d).status = d.status)
    (hdoc : getDocument reg handle = some document) :
    ∃ after,
      getDocument (updateDocument ⟨reg.documentListHead ++ [cpy], newHandle⟩ newHandle f) handle =
          some after ∧
        after.xmlFilename = document.xmlFilename ∧ after.status = document.status := by
  unfold getDocument at hdoc ⊢
  simp only [updateDocument]
  rw [getDocumentFrom_update_other handle newHandle f (fun d => (hf d).1),
    getDocumentFrom_append_of_some handle _ _ document hdoc]
  by_cases hk : handle = newHandle
  · exact ⟨f document, by simp [hk], (hf document).2.1, (hf document).2.2⟩
  · exact ⟨document, by simp [hk], rfl, rfl⟩

/-- C9: for a registered document and a non-null file name, with allocations
succeeding, a root element present when a copy is made, and `uriToLocalPath`
defined on `file://` locations: in each of the modes `COMPLETE`, `SPLITTED` and
`REMOVED`, `saveDocument` reaches the final serialisation, and if that call
returns `-1` then `saveDocument` returns `FAILED` and the recorded `xmlFilename`
and `status` of the document are what they were before the call. -/
theorem saveDocument_serialization_failure (env : Env) (reg : DocumentList) (handle : Int)
    (xmlFilename : CString) (saveMode : InternalSaveMode) (document : TixiDocument)
    (hdoc : getDocument reg handle = some document)
    (hroot : saveMode ≠ InternalSaveMode.COMPLETE →
      xmlDocGetRootElement document.docPtr ≠ XmlNodePtr.NULL)
    (huri : ∀ s, string_startsWith s "file://".toList = 0 → (env.uriToLocalPath s).isSome) :
    ∃ r tree format,
      saveDocument env reg handle (some xmlFilename) saveMode true true = some r ∧
        r.serialized = some (tree, format, env.xmlSaveFormatFileEnc xmlFilename tree format) ∧
        (env.xmlSaveFormatFileEnc xmlFilename tree format = -1 →
          r.code = ReturnCode.FAILED ∧
            ∃ after, getDocument r.reg handle = some after ∧
              after.xmlFilename = document.xmlFilename ∧ after.status = document.status) := by
  cases saveMode with
  | COMPLETE =>
    unfold saveDocument
    simp only [hdoc]
    by_cases hret :
        env.xmlSaveFormatFileEnc xmlFilename document.docPtr document.usePrettyPrint = -1
    · rw [if_pos hret]
      exact ⟨_, _, _, rfl, rfl, fun _ => ⟨rfl, document, hdoc, rfl, rfl⟩⟩
    · rw [if_neg hret]
      exact ⟨_, _, _, rfl, rfl, fun h => absurd h hret⟩
  | SPLITTED =>
    obtain ⟨cpy, newHandle, hcpy, hcopy⟩ :=
      copyDocument_ok reg handle document hdoc (hroot (by decide))
    obtain ⟨cpyDoc, hget⟩ := getDocumentFrom_append_last newHandle reg.documentListHead cpy hcpy
    obtain ⟨⟨tree, written⟩, htree⟩ := fromRootElement_defined
      (fun rootNode => (saveExternalFiles env (env.strip_dirname xmlFilename).1 rootNode).map
        (fun r => (r.2.1, r.2.2)))
      (fun t => by
        obtain ⟨r, hr⟩ := saveExternalFiles_defined env (env.strip_dirname xmlFilename).1 huri t
        exact ⟨(r.2.1, r.2.2), by simp only [hr, Option.map_some']⟩)
      cpyDoc.docPtr
    unfold saveDocument
    simp only [hdoc, hcopy]
    unfold getDocument
    simp only [hget, htree]
    by_cases hret : env.xmlSaveFormatFileEnc xmlFilename tree document.usePrettyPrint = -1
    · rw [if_pos hret]
      refine ⟨_, _, _, rfl, rfl, fun _ => ⟨rfl, ?_⟩⟩
      exact getDocument_after_copy_update reg handle newHandle document cpy _
        (fun d => ⟨rfl, rfl, rfl⟩) hdoc
    · rw [if_neg hret]
      exact ⟨_, _, _, rfl, rfl, fun h => absurd h hret⟩
  | REMOVED =>
    obtain ⟨cpy, newHandle, hcpy, hcopy⟩ :=
      copyDocument_ok reg handle document hdoc (hroot (by decide))
    obtain ⟨cpyDoc, hget⟩ := getDocumentFrom_append_last newHandle reg.documentListHead cpy hcpy
    obtain ⟨⟨tree, written⟩, htree⟩ := fromRootElement_defined
      (fun rootNode => some (removeExternalNodes rootNode, []))
      (fun t => ⟨_, rfl⟩) cpyDoc.docPtr
    unfold saveDocument
    simp only [hdoc, hcopy]
    unfold getDocument
    simp only [hget, htree]
    by_cases hret : env.xmlSaveFormatFileEnc xmlFilename tree cpyDoc.usePrettyPrint = -1
    · rw [if_pos hret]
      refine ⟨_, _, _, rfl, rfl, fun _ => ⟨rfl, ?_⟩⟩
      exact getDocument_after_copy_update reg handle newHandle document cpy _
        (fun d => ⟨rfl, rfl, rfl⟩) hdoc
    · rw [if_neg hret]
      exact ⟨_, _, _, rfl, rfl, fun h => absurd h hret⟩

theorem stripPrefix_isSome (p : CString) :
    ∀ s : CString, p.isPrefixOf s = true → (stripPrefix p s).isSome = true := by
  induction p with
  | nil => intro s _; cases s <;> rfl
  | cons c p ih =>
    intro s h
    cases s with
    | nil => simp [List.isPrefixOf] at h
    | cons d s =>
      simp only [List.isPrefixOf, Bool.and_eq_true, beq_iff_eq] at h
      simp [stripPrefix, h.1, ih s h.2]

theorem demoEnv_uriToLocalPath (s : CString) (h : string_startsWith s "file://".toList = 0) :
    (demoEnv.uriToLocalPath s).isSome = true := by
  apply stripPrefix_isSome
  unfold string_startsWith at h
  by_cases hp : "file://".toList.isPrefixOf s = true
  · exact hp
  · rw [if_neg hp] at h
    exact absurd h (by decide)

theorem saveDocument_serialization_failure_witness :
    (∃ r tree format,
      saveDocument demoEnv demoRegistryInlined 1 (some "/readonly/out.xml".toList)
          InternalSaveMode.SPLITTED true true = some r ∧
        r.serialized =
          some (tree, format,
            demoEnv.xmlSaveFormatFileEnc "/readonly/out.xml".toList tree format) ∧
        (demoEnv.xmlSaveFormatFileEnc "/readonly/out.xml".toList tree format = -1 →
          r.code = ReturnCode.FAILED ∧
            ∃ after, getDocument r.reg 1 = some after ∧
              after.xmlFilename = some "old.xml".toList ∧
              after.status = DocumentStatus.OPENED)) ∧
      (saveDocument demoEnv demoRegistryInlined 1 (some "/readonly/out.xml".toList)
          InternalSaveMode.SPLITTED true true).map (fun r => r.code) =
        some ReturnCode.FAILED :=
  ⟨saveDocument_serialization_failure demoEnv demoRegistryInlined 1 "/readonly/out.xml".toList
      InternalSaveMode.SPLITTED
      { demoDocument with
        docPtr := demoInlined, xmlFilename := some "old.xml".toList, handle := 1 }
      (by decide) (by decide) demoEnv_uriToLocalPath,
    by decide⟩

/-- C10: with the allocation of the standalone documents succeeding and
`uriToLocalPath` defined on `file://` locations, `saveExternalFiles` on any tree
returns `SUCCESS` and leaves the tree in which every outermost element carrying
all three restoration attributes is replaced in place by a reference node
(`externaldata` with exactly a `path` child holding the former directory
attribute value and a `filename` child holding the former file name attribute
value) and every other node is unchanged and in its place (`splitTree`); in
that tree no element carries all three restoration attributes. -/
theorem saveExternalFiles_postcondition (env : Env) (dirname : Option CString)
    (hdoc : env.xmlNewDoc = true)
    (huri : ∀ s, string_startsWith s "file://".toList = 0 → (env.uriToLocalPath s).isSome)
    (t : XmlNodePtr) :
    ∃ result log,
      saveExternalFiles env dirname t = some (ReturnCode.SUCCESS, result, log) ∧
        result = splitTree t ∧ containsInlined result = false := by
  obtain ⟨log, h⟩ := saveExternalFiles_eq_splitTree env dirname hdoc huri t
  exact ⟨splitTree t, log, h, rfl, containsInlined_splitTree t⟩

theorem saveExternalFiles_postcondition_witness :
    (∃ result log,
      saveExternalFiles demoEnv (some "out/".toList) demoInlined =
          some (ReturnCode.SUCCESS, result, log) ∧
        result = splitTree demoInlined ∧ containsInlined result = false) ∧
      splitTree demoInlined =
        elementNode "root" []
          (referenceNode "file://data/".toList "sub.xml".toList (elementNode "b" [] .NULL .NULL))
          .NULL :=
  ⟨saveExternalFiles_postcondition demoEnv (some "out/".toList) rfl demoEnv_uriToLocalPath
      demoInlined,
    by decide⟩

/-! ## Theorems: the inline direction -/

/-- Once the reference node has no parent, the rest of the loop changes neither
the tree nor the counter. -/
theorem loadExternalFiles_detached (env : Env) (xpath resolved directory : CString)
    (position : List Nat) (remaining : Nat) :
    ∀ (iNode : Nat) (doc : XmlNodePtr) (fileCounter : Int),
      (loadExternalFiles env xpath resolved directory position remaining iNode doc false
          fileCounter).doc = doc ∧
        (loadExternalFiles env xpath resolved directory position remaining iNode doc false
          fileCounter).fileCounter = fileCounter := by
  induction remaining with
  | zero => intro iNode doc fileCounter; exact ⟨rfl, rfl⟩
  | succ n ih =>
    intro iNode doc fileCounter
    unfold loadExternalFiles
    simp only
    split
    · exact ⟨rfl, rfl⟩
    · split
      · simp only [Bool.false_eq_true, if_false]
        exact ih _ _ _
      · simp only [Bool.false_eq_true, if_false]
        exact ih _ _ _

/-- First round on an attached reference node, fetch failure: `OPEN_FAILED`, tree
and counter untouched. -/
theorem loadExternalFiles_fetch_failed (env : Env) (xpath resolved directory : CString)
    (position : List Nat) (remaining iNode : Nat) (doc : XmlNodePtr) (fileCounter : Int)
    (hfetch : loadExternalFileToString env
      (resolved ++ (env.tixiGetTextElement doc
        (xpath ++ "/filename[".toList ++ (Nat.repr iNode).toList ++ "]".toList)).2) = none) :
    loadExternalFiles env xpath resolved directory position (remaining + 1) iNode doc true
        fileCounter = ⟨ReturnCode.OPEN_FAILED, doc, fileCounter⟩ := by
  unfold loadExternalFiles
  simp only [hfetch]

/-- First round on an attached reference node, file fetched and parsed: the node
is replaced by the stamped copy and the counter grows by one; later rounds
change neither. -/
theorem loadExternalFiles_parsed (env : Env) (xpath resolved directory : CString)
    (position : List Nat) (remaining iNode : Nat) (doc : XmlNodePtr) (fileCounter : Int)
    (content : CString) (xmlDocument : XmlNodePtr)
    (hfetch : loadExternalFileToString env
      (resolved ++ (env.tixiGetTextElement doc
        (xpath ++ "/filename[".toList ++ (Nat.repr iNode).toList ++ "]".toList)).2) =
      some content)
    (hparse : env.xmlReadMemory content = some xmlDocument) :
    (loadExternalFiles env xpath resolved directory position (remaining + 1) iNode doc true
        fileCounter).doc =
        modifyAt (replaceLink (stampedCopy env doc position directory
          (env.tixiGetTextElement doc
            (xpath ++ "/filename[".toList ++ (Nat.repr iNode).toList ++ "]".toList)).2
          xmlDocument)) doc position ∧
      (loadExternalFiles env xpath resolved directory position (remaining + 1) iNode doc true
        fileCounter).fileCounter = wrapInt32 (fileCounter + 1) := by
  unfold loadExternalFiles
  simp only [hfetch, hparse, if_true]
  exact loadExternalFiles_detached env xpath resolved directory position remaining _ _ _

/-- First round on an attached reference node, file fetched but not parsable: the
node is unlinked and the counter stays; later rounds change neither. -/
theorem loadExternalFiles_unparsed (env : Env) (xpath resolved directory : CString)
    (position : List Nat) (remaining iNode : Nat) (doc : XmlNodePtr) (fileCounter : Int)
    (content : CString)
    (hfetch : loadExternalFileToString env
      (resolved ++ (env.tixiGetTextElement doc
        (xpath ++ "/filename[".toList ++ (Nat.repr iNode).toList ++ "]".toList)).2) =
      some content)
    (hparse : env.xmlReadMemory content = none) :
    (loadExternalFiles env xpath resolved directory position (remaining + 1) iNode doc true
        fileCounter).doc = modifyAt (replaceLink .NULL) doc position ∧
      (loadExternalFiles env xpath resolved directory position (remaining + 1) iNode doc true
        fileCounter).fileCounter = fileCounter := by
  unfold loadExternalFiles
  simp only [hfetch, hparse, if_true]
  exact loadExternalFiles_detached env xpath resolved directory position remaining _ _ _

/-- One call of `loadExternalDataNode` adds at most one to the counter. -/
theorem loadExternalDataNode_counter (env : Env) (dirname : Option CString) (doc : XmlNodePtr)
    (position : List Nat) (fileCounter : Int) :
    (loadExternalDataNode env dirname doc position fileCounter).fileCounter = fileCounter ∨
      (loadExternalDataNode env dirname doc position fileCounter).fileCounter =
        wrapInt32 (fileCounter + 1) := by
  unfold loadExternalDataNode
  simp only
  split_ifs with herr hcount
  · exact Or.inl rfl
  · exact Or.inl rfl
  · cases hn : (env.tixiGetNamedChildrenCount doc (env.xmlGetNodePath doc position)
        EXTERNAL_DATA_NODE_NAME_FILENAME).toNat with
    | zero => exact Or.inl rfl
    | succ n =>
      cases hfetch : loadExternalFileToString env
          (env.resolveDirectory dirname (some (env.tixiGetTextElement doc
              (env.xmlGetNodePath doc position ++ "/".toList ++
                EXTERNAL_DATA_NODE_NAME_PATH)).2) ++
            (env.tixiGetTextElement doc (env.xmlGetNodePath doc position ++
              "/filename[".toList ++ (Nat.repr 1).toList ++ "]".toList)).2) with
      | none =>
        rw [loadExternalFiles_fetch_failed _ _ _ _ _ _ _ _ _ hfetch]
        exact Or.inl rfl
      | some content =>
        cases hparse : env.xmlReadMemory content with
        | none =>
          exact Or.inl (loadExternalFiles_unparsed _ _ _ _ _ _ _ _ _ content hfetch hparse).2
        | some xmlDocument =>
          exact Or.inr
            (loadExternalFiles_parsed _ _ _ _ _ _ _ _ _ content xmlDocument hfetch hparse).2

theorem fileNameXPath_first (xpath : CString) :
    xpath ++ "/filename[".toList ++ (Nat.repr 1).toList ++ "]".toList =
      xpath ++ "/filename[1]".toList := by
  have h : (Nat.repr 1).toList = ['1'] := by decide
  rw [h]
  simp

/-- C7 (what the code does): one call of `loadExternalDataNode` adds at most one
to the counter, whatever the number of `filename` children, because the
reference node has no parent after its first file has been handled; on
`<root><externaldata><path>data/</path><filename>sub.xml</filename>
<filename>sub.xml</filename></externaldata></root>`, where both file names
fetch and parse, the counter ends at 1 and the tree holds one inlined subtree. -/
theorem openExternalFiles_counts_first_file_only :
    (∀ (env : Env) (dirname : Option CString) (doc : XmlNodePtr) (position : List Nat)
        (fileCounter : Int),
        (loadExternalDataNode env dirname doc position fileCounter).fileCounter = fileCounter ∨
          (loadExternalDataNode env dirname doc position fileCounter).fileCounter =
            wrapInt32 (fileCounter + 1)) ∧
      demoGetNamedChildrenCount demoHostTwoFiles "/root/externaldata".toList
          "filename".toList = 2 ∧
      (loadExternalFileToString demoEnv "file://work/data/sub.xml".toList).bind demoReadMemory =
        some payloadTree ∧
      (openExternalFiles demoEnv (some "work/".toList) 5 demoHostTwoFiles).map
          (fun r => (r.fileCounter, (nodeAt r.doc [0, 0]).nodeName,
            (nodeAt r.doc [0, 1]).nodeName)) =
        some (1, "payload".toList, []) :=
  ⟨loadExternalDataNode_counter, by decide, by decide, by decide⟩

/-! ## Theorems: positions under replacement and splitting -/

theorem nth_null (i : Nat) : XmlNodePtr.NULL.nth i = XmlNodePtr.NULL := by
  cases i <;> rfl

theorem nth_zero (x : XmlNodePtr) : x.nth 0 = x := by
  cases x <;> rfl

theorem nodeAt_null (pos : List Nat) : nodeAt XmlNodePtr.NULL pos = XmlNodePtr.NULL := by
  induction pos with
  | nil => rfl
  | cons i rest ih =>
    cases rest with
    | nil => exact nth_null i
    | cons j more =>
      rw [nodeAt_cons_cons, nth_null]
      exact ih

theorem modifyNth_nth (f : XmlNodePtr → XmlNodePtr) (chain : XmlNodePtr) :
    ∀ i, chain.nth i ≠ XmlNodePtr.NULL → (modifyNth f chain i).nth i = f (chain.nth i) := by
  induction chain with
  | NULL => intro i h; exact absurd (nth_null i) h
  | node type name properties content children next _ ihn =>
    intro i h
    cases i with
    | zero =>
      show (f (XmlNodePtr.node type name properties content children next)).nth 0 = f _
      rw [nth_zero, nth_zero]
    | succ i => exact ihn i h

theorem nodeAt_modifyAt (f : XmlNodePtr → XmlNodePtr) (pos : List Nat) :
    ∀ chain, nodeAt chain pos ≠ XmlNodePtr.NULL →
      nodeAt (modifyAt f chain pos) pos = f (nodeAt chain pos) := by
  induction pos with
  | nil => intro chain h; exact absurd rfl h
  | cons i rest ih =>
    intro chain h
    cases rest with
    | nil => exact modifyNth_nth f chain i h
    | cons j more =>
      rw [nodeAt_cons_cons] at h
      have hi : chain.nth i ≠ XmlNodePtr.NULL := by
        intro hn
        rw [hn] at h
        exact h (nodeAt_null _)
      show nodeAt ((modifyNth _ chain i).nth i).firstChild (j :: more) =
        f (nodeAt (chain.nth i).firstChild (j :: more))
      rw [modifyNth_nth _ chain i hi]
      cases hc : chain.nth i with
      | NULL => exact absurd hc hi
      | node t n p c ch nx =>
        rw [hc] at h
        exact ih ch h

theorem lookupProp_setProp_self (name value : CString) (l : List (CString × CString)) :
    lookupProp name (setProp name value l) = some value := by
  induction l with
  | nil => simp [setProp, lookupProp]
  | cons a rest ih =>
    obtain ⟨n, v⟩ := a
    by_cases h : n = name
    · simp [setProp, lookupProp, h]
    · simp [setProp, lookupProp, h, ih]

theorem lookupProp_setProp_ne (name other value : CString) (hne : other ≠ name)
    (l : List (CString × CString)) :
    lookupProp other (setProp name value l) = lookupProp other l := by
  induction l with
  | nil =>
    have : ¬ name = other := fun e => hne e.symm
    simp [setProp, lookupProp, this]
  | cons a rest ih =>
    obtain ⟨n, v⟩ := a
    by_cases h : n = name
    · subst h
      have : ¬ n = other := fun e => hne e.symm
      simp [setProp, lookupProp, this]
    · by_cases h2 : n = other
      · subst h2
        simp [setProp, lookupProp, h]
      · simp [setProp, lookupProp, h, h2, ih]

theorem xmlDocGetRootElement_element (t : XmlNodePtr) :
    xmlDocGetRootElement t = XmlNodePtr.NULL ∨
      ∃ n p c ch nx,
        xmlDocGetRootElement t = XmlNodePtr.node XmlElementType.XML_ELEMENT_NODE n p c ch nx := by
  induction t with
  | NULL => exact Or.inl rfl
  | node type name properties content children next _ ihn =>
    unfold xmlDocGetRootElement
    by_cases ht : type = XmlElementType.XML_ELEMENT_NODE
    · rw [if_pos ht]
      subst ht
      exact Or.inr ⟨_, _, _, _, _, rfl⟩
    · rw [if_neg ht]
      exact ihn

/-- The stamped copy of a parsed root element is an element, without siblings,
that carries the file name, the URI form of the directory text and a node path
as its three restoration attributes. -/
theorem stampedCopy_shape (env : Env) (doc : XmlNodePtr) (pos : List Nat) (d f : CString)
    (xmlDocument : XmlNodePtr) (hroot : xmlDocGetRootElement xmlDocument ≠ XmlNodePtr.NULL) :
    ∃ n p c ch,
      stampedCopy env doc pos d f xmlDocument =
          XmlNodePtr.node XmlElementType.XML_ELEMENT_NODE n p c ch XmlNodePtr.NULL ∧
        lookupProp EXTERNAL_DATA_XML_ATTR_FILENAME p = some f ∧
        lookupProp EXTERNAL_DATA_XML_ATTR_DIRECTORY p = some (env.localPathToURI d) ∧
        lookupProp EXTERNAL_DATA_XML_ATTR_NODEPATH p =
          some (env.xmlGetNodePath doc pos.dropLast) := by
  rcases xmlDocGetRootElement_element xmlDocument with h | ⟨n, p, c, ch, nx, h⟩
  · exact absurd h hroot
  · refine ⟨n,
      setProp EXTERNAL_DATA_XML_ATTR_NODEPATH (env.xmlGetNodePath doc pos.dropLast)
        (setProp EXTERNAL_DATA_XML_ATTR_DIRECTORY (env.localPathToURI d)
          (setProp EXTERNAL_DATA_XML_ATTR_FILENAME f p)), c, ch, ?_, ?_, ?_, ?_⟩
    · unfold stampedCopy
      simp only [h, xmlDocCopyNode, XmlNodePtr.withNext, xmlSetProp, if_true]
    · rw [lookupProp_setProp_ne _ _ _ (by decide), lookupProp_setProp_ne _ _ _ (by decide),
        lookupProp_setProp_self]
    · rw [lookupProp_setProp_ne _ _ _ (by decide), lookupProp_setProp_self]
    · rw [lookupProp_setProp_self]

theorem firstElementNode_type (doc : XmlNodePtr) (tab : List (List Nat)) (pos : List Nat)
    (h : firstElementNode doc tab = some pos) :
    typeAt doc pos = some XmlElementType.XML_ELEMENT_NODE := by
  induction tab with
  | nil => simp [firstElementNode] at h
  | cons cur rest ih =>
    unfold firstElementNode at h
    by_cases hc : typeAt doc cur = some XmlElementType.XML_ELEMENT_NODE
    · rw [if_pos hc] at h
      exact Option.some.inj h ▸ hc
    · rw [if_neg hc] at h
      exact ih h

theorem pickReference_node (env : Env) (doc : XmlNodePtr) (pos : List Nat)
    (h : pickReference env doc = some pos) :
    pos ≠ [] ∧ nodeAt doc pos ≠ XmlNodePtr.NULL := by
  have htype : typeAt doc pos = some XmlElementType.XML_ELEMENT_NODE := by
    unfold pickReference at h
    cases hq : env.XPathEvaluateExpression doc "//externaldata".toList with
    | none =>
      rw [hq] at h
      exact absurd h (by simp)
    | some obj =>
      rw [hq] at h
      cases hs : obj.nodesetval with
      | none =>
        simp only [hs] at h
        exact absurd h (by simp)
      | some tab =>
        simp only [hs] at h
        split_ifs at h
        exact firstElementNode_type doc tab pos h
  cases pos with
  | nil => exact absurd htype (by simp [typeAt])
  | cons i rest =>
    refine ⟨by simp, ?_⟩
    intro hn
    unfold typeAt at htype
    simp only [hn, XmlNodePtr.type?] at htype
    exact absurd htype (by simp)

/-- A reference node with one `filename` child whose file is fetched and parsed:
`loadExternalDataNode` returns `SUCCESS`, the node is replaced by the stamped
copy and the counter grows by one. -/
theorem loadExternalDataNode_single (env : Env) (dirname : Option CString) (doc : XmlNodePtr)
    (pos : List Nat) (fileCounter : Int) (d f content : CString) (xmlDocument : XmlNodePtr)
    (hdir : env.tixiGetTextElement doc
      (env.xmlGetNodePath doc pos ++ "/".toList ++ EXTERNAL_DATA_NODE_NAME_PATH) =
      (ReturnCode.SUCCESS, d))
    (hcount : env.tixiGetNamedChildrenCount doc (env.xmlGetNodePath doc pos)
      EXTERNAL_DATA_NODE_NAME_FILENAME = 1)
    (hname : (env.tixiGetTextElement doc
      (env.xmlGetNodePath doc pos ++ "/filename[1]".toList)).2 = f)
    (hfetch : loadExternalFileToString env (env.resolveDirectory dirname (some d) ++ f) =
      some content)
    (hparse : env.xmlReadMemory content = some xmlDocument) :
    loadExternalDataNode env dirname doc pos fileCounter =
      ⟨ReturnCode.SUCCESS,
        modifyAt (replaceLink (stampedCopy env doc pos d f xmlDocument)) doc pos,
        wrapInt32 (fileCounter + 1)⟩ := by
  unfold loadExternalDataNode
  simp only [hdir, hcount, ne_eq, not_true_eq_false, if_false]
  rw [if_neg (by decide)]
  show loadExternalFiles _ _ _ _ _ 1 1 doc true fileCounter = _
  unfold loadExternalFiles
  simp only [fileNameXPath_first, hname, hfetch, hparse, if_true]
  rfl

theorem removeExternalNodes_eq_removeTree (t : XmlNodePtr) :
    removeExternalNodes t = removeTree t := by
  induction t with
  | NULL => rfl
  | node type name properties content children next ihc ihn =>
    simp only [removeExternalNodes, removeTree, ihc, ihn]
    by_cases hc : carriesRestorationAttributes type properties = true
    · have hs := (checkExternalNode_eq_success type name properties content
        (removeTree children) next).2 hc
      have ht : type = XmlElementType.XML_ELEMENT_NODE := by
        simp only [carriesRestorationAttributes, Bool.and_eq_true, decide_eq_true_eq] at hc
        exact hc.1.1.1
      rw [if_pos ⟨hs, ht⟩, if_pos hc]
    · have hs : ¬ checkExternalNode (.node type name properties content
          (removeTree children) next) = ReturnCode.SUCCESS := fun h =>
        hc ((checkExternalNode_eq_success type name properties content _ next).1 h)
      rw [if_neg (fun h => hs h.1), if_neg hc]

theorem containsInlined_removeTree (t : XmlNodePtr) : containsInlined (removeTree t) = false := by
  induction t with
  | NULL => rfl
  | node type name properties content children next ihc ihn =>
    simp only [removeTree]
    by_cases hc : carriesRestorationAttributes type properties = true
    · rw [if_pos hc]
      exact ihn
    · rw [if_neg hc]
      simp only [containsInlined, ihc, ihn, Bool.or_false]
      simpa using hc

theorem countNamed_removeTree (name : CString) (t : XmlNodePtr) :
    countNamed name (removeTree t) ≤ countNamed name t := by
  induction t with
  | NULL => exact Nat.le_refl _
  | node type n properties content children next ihc ihn =>
    simp only [removeTree]
    by_cases hc : carriesRestorationAttributes type properties = true
    · rw [if_pos hc]
      simp only [countNamed]
      omega
    · rw [if_neg hc]
      simp only [countNamed]
      omega

/-- C11: for every tree, `removeExternalNodes` leaves exactly the input tree with
every element that carries all three restoration attributes deleted together
with its subtree, all remaining nodes keeping their content and order
(`removeTree`); no such element remains, and the result holds no more
`externaldata` elements than the input, so no reference node is created. -/
theorem removeExternalNodes_postcondition (t : XmlNodePtr) :
    removeExternalNodes t = removeTree t ∧
      containsInlined (removeExternalNodes t) = false ∧
      countNamed EXTERNAL_DATA_NODE_NAME (removeExternalNodes t) ≤
        countNamed EXTERNAL_DATA_NODE_NAME t := by
  rw [removeExternalNodes_eq_removeTree]
  exact ⟨rfl, containsInlined_removeTree t, countNamed_removeTree _ t⟩

theorem checkExternalNode_codes (element : XmlNodePtr) :
    checkExternalNode element = ReturnCode.SUCCESS ∨
      checkExternalNode element = ReturnCode.FAILED := by
  unfold checkExternalNode
  cases xmlGetProp element EXTERNAL_DATA_XML_ATTR_NODEPATH <;>
    cases xmlGetProp element EXTERNAL_DATA_XML_ATTR_FILENAME <;>
    cases xmlGetProp element EXTERNAL_DATA_XML_ATTR_DIRECTORY <;> simp

theorem removeExternalNodeLinks_of_clean (t : XmlNodePtr) (h : containsInlined t = false) :
    removeExternalNodeLinks t = t := by
  induction t with
  | NULL => rfl
  | node type name properties content children next ihc ihn =>
    simp only [containsInlined, Bool.or_eq_false_iff] at h
    obtain ⟨⟨hc, hch⟩, hnx⟩ := h
    simp only [removeExternalNodeLinks, ihc hch, ihn hnx]
    rw [if_neg]
    intro hs
    have := (checkExternalNode_eq_success type name properties content children next).1 hs
    rw [hc] at this
    exact Bool.noConfusion this

theorem removeTree_of_clean (t : XmlNodePtr) (h : containsInlined t = false) :
    removeTree t = t := by
  induction t with
  | NULL => rfl
  | node type name properties content children next ihc ihn =>
    simp only [containsInlined, Bool.or_eq_false_iff] at h
    obtain ⟨⟨hc, hch⟩, hnx⟩ := h
    simp only [removeTree, ihc hch, ihn hnx]
    rw [if_neg (by simp [hc])]

theorem saveExternalFiles_of_clean (env : Env) (dirname : Option CString) (t : XmlNodePtr)
    (h : containsInlined t = false) :
    saveExternalFiles env dirname t = some (ReturnCode.SUCCESS, t, []) := by
  induction t with
  | NULL => rfl
  | node type name properties content children next ihc ihn =>
    simp only [containsInlined, Bool.or_eq_false_iff] at h
    obtain ⟨⟨hc, hch⟩, hnx⟩ := h
    have hs : checkExternalNode (.node type name properties content children next) ≠
        ReturnCode.SUCCESS := by
      intro hs
      have := (checkExternalNode_eq_success type name properties content children next).1 hs
      rw [hc] at this
      exact Bool.noConfusion this
    unfold saveExternalFiles
    simp only [ihc hch, ihn hnx]
    rw [if_pos hs]
    rfl

/-- C12: for every element, `checkExternalNode` returns `SUCCESS` exactly when the
node path, file name and directory attributes are all present, and `FAILED` for
every other subset of the three. An element for which it does not return
`SUCCESS` is kept with all its attributes by `saveExternalFiles`,
`removeExternalNodes` and `removeExternalNodeLinks` (which go on with its
children and following siblings), and a tree without an element carrying the
full set is left unchanged by all three. -/
theorem checkExternalNode_detection (name : CString) (properties : List (CString × CString))
    (content : CString) (children next : XmlNodePtr) (env : Env) (dirname : Option CString) :
    (checkExternalNode
          (.node XmlElementType.XML_ELEMENT_NODE name properties content children next) =
          ReturnCode.SUCCESS ↔
        (lookupProp EXTERNAL_DATA_XML_ATTR_NODEPATH properties).isSome = true ∧
          (lookupProp EXTERNAL_DATA_XML_ATTR_FILENAME properties).isSome = true ∧
          (lookupProp EXTERNAL_DATA_XML_ATTR_DIRECTORY properties).isSome = true) ∧
      (checkExternalNode
          (.node XmlElementType.XML_ELEMENT_NODE name properties content children next) ≠
          ReturnCode.SUCCESS →
        checkExternalNode
            (.node XmlElementType.XML_ELEMENT_NODE name properties content children next) =
            ReturnCode.FAILED ∧
          removeExternalNodes
              (.node XmlElementType.XML_ELEMENT_NODE name properties content children next) =
            .node XmlElementType.XML_ELEMENT_NODE name properties content
              (removeExternalNodes children) (removeExternalNodes next) ∧
          removeExternalNodeLinks
              (.node XmlElementType.XML_ELEMENT_NODE name properties content children next) =
            .node XmlElementType.XML_ELEMENT_NODE name properties content
              (removeExternalNodeLinks children) (removeExternalNodeLinks next) ∧
          saveExternalFiles env dirname
              (.node XmlElementType.XML_ELEMENT_NODE name properties content children next) =
            (saveExternalFiles env dirname children).bind (fun c =>
              (saveExternalFiles env dirname next).bind (fun n =>
                some (n.1,
                  .node XmlElementType.XML_ELEMENT_NODE name properties content c.2.1 n.2.1,
                  c.2.2 ++ n.2.2)))) ∧
      (∀ t, containsInlined t = false →
        saveExternalFiles env dirname t = some (ReturnCode.SUCCESS, t, []) ∧
          removeExternalNodes t = t ∧ removeExternalNodeLinks t = t) := by
  have hiff := checkExternalNode_eq_success XmlElementType.XML_ELEMENT_NODE name properties
    content
  refine ⟨?_, ?_, ?_⟩
  · rw [hiff children next]
    simp [carriesRestorationAttributes, and_assoc]
  · intro hne
    have hcar : ¬ carriesRestorationAttributes XmlElementType.XML_ELEMENT_NODE properties = true :=
      fun h => hne ((hiff children next).2 h)
    refine ⟨?_, ?_, ?_, ?_⟩
    · rcases checkExternalNode_codes
        (.node XmlElementType.XML_ELEMENT_NODE name properties content children next) with h | h
      · exact absurd h hne
      · exact h
    · simp only [removeExternalNodes]
      rw [if_neg (fun h => hcar ((hiff _ next).1 h.1))]
    · simp only [removeExternalNodeLinks]
      rw [if_neg (fun h => hcar ((hiff _ _).1 h))]
    · rw [saveExternalFiles]
      cases hch : saveExternalFiles env dirname children with
      | none => rfl
      | some c =>
        obtain ⟨rc1, c1, log1⟩ := c
        simp only [Option.bind]
        rw [if_pos (fun h => hcar ((hiff c1 next).1 h))]
        cases hnx : saveExternalFiles env dirname next with
        | none => rfl
        | some n => rfl
  · intro t ht
    refine ⟨saveExternalFiles_of_clean env dirname t ht, ?_, removeExternalNodeLinks_of_clean t ht⟩
    rw [removeExternalNodes_eq_removeTree]
    exact removeTree_of_clean t ht

/-! ## Theorems: the attributes of an inlined subtree -/

/-- Tree after `loadExternalDataNode` on a reference node whose directory text is
read, which has at least one `filename` child, and whose first file is fetched
and parsed: the node is replaced by the stamped copy. -/
theorem loadExternalDataNode_parsed_doc (env : Env) (dirname : Option CString)
    (doc : XmlNodePtr) (pos : List Nat) (fileCounter : Int) (d f content : CString)
    (xmlDocument : XmlNodePtr)
    (hdir : env.tixiGetTextElement doc
      (env.xmlGetNodePath doc pos ++ "/".toList ++ EXTERNAL_DATA_NODE_NAME_PATH) =
      (ReturnCode.SUCCESS, d))
    (hcount : 0 < env.tixiGetNamedChildrenCount doc (env.xmlGetNodePath doc pos)
      EXTERNAL_DATA_NODE_NAME_FILENAME)
    (hname : (env.tixiGetTextElement doc
      (env.xmlGetNodePath doc pos ++ "/filename[1]".toList)).2 = f)
    (hfetch : loadExternalFileToString env (env.resolveDirectory dirname (some d) ++ f) =
      some content)
    (hparse : env.xmlReadMemory content = some xmlDocument) :
    (loadExternalDataNode env dirname doc pos fileCounter).doc =
        modifyAt (replaceLink (stampedCopy env doc pos d f xmlDocument)) doc pos ∧
      (loadExternalDataNode env dirname doc pos fileCounter).fileCounter =
        wrapInt32 (fileCounter + 1) := by
  unfold loadExternalDataNode
  simp only [hdir, ne_eq, not_true_eq_false, if_false]
  rw [if_neg (by omega)]
  obtain ⟨n, hn⟩ : ∃ n, (env.tixiGetNamedChildrenCount doc (env.xmlGetNodePath doc pos)
      EXTERNAL_DATA_NODE_NAME_FILENAME).toNat = n + 1 :=
    ⟨_, (Nat.succ_pred_eq_of_pos (by omega)).symm⟩
  rw [hn]
  have h := loadExternalFiles_parsed env (env.xmlGetNodePath doc pos)
    (env.resolveDirectory dirname (some d)) d pos n 1 doc fileCounter content xmlDocument
    (by rw [fileNameXPath_first, hname]; exact hfetch) hparse
  rw [fileNameXPath_first, hname] at h
  exact h

/-- C13 (amended): for a document with base directory `b` and a reference node
with directory text `d`, first file name text `f` and at least one `filename`
child, whose file is fetched and parsed to a document with a root element, the
element that replaces the reference node carries all three restoration
attributes: the file name attribute is `f`, the node path attribute is the path
of the parent computed on the tree before the replacement, and the directory
attribute is `localPathToURI(d)`, the URI form of the directory text as
written. -/
theorem inlined_restoration_attributes (env : Env) (b : Option CString) (doc : XmlNodePtr)
    (pos : List Nat) (fileCounter : Int) (d f content : CString) (xmlDocument : XmlNodePtr)
    (hnode : nodeAt doc pos ≠ XmlNodePtr.NULL)
    (hdir : env.tixiGetTextElement doc
      (env.xmlGetNodePath doc pos ++ "/".toList ++ EXTERNAL_DATA_NODE_NAME_PATH) =
      (ReturnCode.SUCCESS, d))
    (hcount : 0 < env.tixiGetNamedChildrenCount doc (env.xmlGetNodePath doc pos)
      EXTERNAL_DATA_NODE_NAME_FILENAME)
    (hname : (env.tixiGetTextElement doc
      (env.xmlGetNodePath doc pos ++ "/filename[1]".toList)).2 = f)
    (hfetch : loadExternalFileToString env (env.resolveDirectory b (some d) ++ f) =
      some content)
    (hparse : env.xmlReadMemory content = some xmlDocument)
    (hroot : xmlDocGetRootElement xmlDocument ≠ XmlNodePtr.NULL) :
    checkExternalNode (nodeAt (loadExternalDataNode env b doc pos fileCounter).doc pos) =
        ReturnCode.SUCCESS ∧
      xmlGetProp (nodeAt (loadExternalDataNode env b doc pos fileCounter).doc pos)
          EXTERNAL_DATA_XML_ATTR_FILENAME = some f ∧
      xmlGetProp (nodeAt (loadExternalDataNode env b doc pos fileCounter).doc pos)
          EXTERNAL_DATA_XML_ATTR_NODEPATH = some (env.xmlGetNodePath doc pos.dropLast) ∧
      xmlGetProp (nodeAt (loadExternalDataNode env b doc pos fileCounter).doc pos)
          EXTERNAL_DATA_XML_ATTR_DIRECTORY = some (env.localPathToURI d) := by
  obtain ⟨hdocEq, _⟩ := loadExternalDataNode_parsed_doc env b doc pos fileCounter d f content
    xmlDocument hdir hcount hname hfetch hparse
  obtain ⟨n, p, c, ch, hshape, hf, hd, hp⟩ := stampedCopy_shape env doc pos d f xmlDocument hroot
  rw [hdocEq, nodeAt_modifyAt _ pos doc hnode, hshape]
  simp only [replaceLink]
  refine ⟨?_, ?_, ?_, ?_⟩
  · rw [checkExternalNode_eq_success]
    simp [carriesRestorationAttributes, hf, hd, hp]
  · simp [xmlGetProp, hf]
  · simp [xmlGetProp, hp]
  · simp [xmlGetProp, hd]

theorem inlined_restoration_attributes_witness :
    checkExternalNode
        (nodeAt (loadExternalDataNode demoEnv (some "work/".toList) demoHost [0, 0] 0).doc [0, 0]) =
        ReturnCode.SUCCESS ∧
      xmlGetProp
          (nodeAt (loadExternalDataNode demoEnv (some "work/".toList) demoHost [0, 0] 0).doc [0, 0])
          EXTERNAL_DATA_XML_ATTR_FILENAME = some "sub.xml".toList ∧
      xmlGetProp
          (nodeAt (loadExternalDataNode demoEnv (some "work/".toList) demoHost [0, 0] 0).doc [0, 0])
          EXTERNAL_DATA_XML_ATTR_NODEPATH = some "/root".toList ∧
      xmlGetProp
          (nodeAt (loadExternalDataNode demoEnv (some "work/".toList) demoHost [0, 0] 0).doc [0, 0])
          EXTERNAL_DATA_XML_ATTR_DIRECTORY = some "file://data/".toList :=
  inlined_restoration_attributes demoEnv (some "work/".toList) demoHost [0, 0] 0 "data/".toList
    "sub.xml".toList "<payload>42</payload>".toList payloadTree (by decide) (by decide)
    (by decide) (by decide) (by decide) (by decide) (by decide)

/-- C13 (counterexample): the document `<root><externaldata><path>data/</path>
<filename>sub.xml</filename></externaldata></root>` has the base directory
`work/`; the resolved directory is `file://work/data/`, but the element that
replaces the reference node carries the directory attribute `file://data/`. -/
theorem inlined_restoration_attributes_counterexample :
    demoEnv.localPathToURI
        (demoEnv.resolveDirectory (some "work/".toList) (some "data/".toList)) =
        "file://work/data/".toList ∧
      xmlGetProp
          (nodeAt (loadExternalDataNode demoEnv (some "work/".toList) demoHost [0, 0] 0).doc [0, 0])
          EXTERNAL_DATA_XML_ATTR_DIRECTORY = some "file://data/".toList ∧
      (openExternalFiles demoEnv (some "work/".toList) 5 demoHost).map
          (fun r => (r.code, xmlGetProp (nodeAt r.doc [0, 0]) EXTERNAL_DATA_XML_ATTR_DIRECTORY)) =
        some (ReturnCode.SUCCESS, some "file://data/".toList) := by
  decide

/-! ## Theorems: the parent of a uniquely resolved path -/

/-- C14 (amended): `getParentNodeToXPath` evaluates the expression as it is given,
without the canonicalisation and without the node kind requirement of
`checkElement`. For a registered document it returns a node exactly when the
expression matches a single node that has a parent, and then it returns that
parent. For an expression that fits the buffer of `checkElement` and has no
trailing separator to strip, whenever `checkElement` succeeds,
`getParentNodeToXPath` returns the parent of the node that `checkElement`
resolves (no node when that is the document node). -/
theorem getParentNodeToXPath_spec
    (eval : XmlNodePtr → CString → Option (XmlXPathObject (List Nat)))
    (reg : DocumentList) (handle : Int) (document : TixiDocument) (path : CString)
    (hdoc : getDocument reg handle = some document) :
    (∀ p, getParentNodeToXPath eval reg handle path = some p ↔
        ∃ obj n, eval document.docPtr path = some obj ∧ matchedNodes obj = [n] ∧
          parentOf n = some p) ∧
      (path.length < elementPathSize → removeTrailingSlash path = path →
        ∀ n, checkElement (nodeTypeAt document.docPtr) (eval document.docPtr) path =
            some (ReturnCode.SUCCESS, some n) →
          getParentNodeToXPath eval reg handle path = parentOf n) := by
  refine ⟨?_, ?_⟩
  · intro p
    unfold getParentNodeToXPath
    simp only [hdoc]
    cases he : eval document.docPtr path with
    | none => simp
    | some obj =>
      rcases obj with ⟨_ | _ | ⟨a, _ | ⟨b, l⟩⟩⟩ <;>
        simp [matchedNodes, xmlXPathNodeSetIsEmpty]
  · intro hlen hstrip n hcheck
    unfold getParentNodeToXPath
    simp only [hdoc]
    unfold checkElement at hcheck
    rw [if_pos hlen, hstrip] at hcheck
    simp only at hcheck
    cases he : eval document.docPtr path with
    | none => simp [he] at hcheck
    | some obj =>
      rw [he] at hcheck
      rcases obj with ⟨_ | _ | ⟨a, _ | ⟨b, l⟩⟩⟩
      · simp [xmlXPathNodeSetIsEmpty] at hcheck
      · simp [xmlXPathNodeSetIsEmpty] at hcheck
      · simp only [xmlXPathNodeSetIsEmpty, List.isEmpty_cons, Bool.false_eq_true, if_false,
          List.length_singleton, gt_iff_lt, lt_self_iff_false] at hcheck ⊢
        split_ifs at hcheck with ht
        · simp only [Option.some.injEq, Prod.mk.injEq, true_and] at hcheck
          rw [hcheck]
        · simp at hcheck
      · simp [xmlXPathNodeSetIsEmpty] at hcheck

theorem getParentNodeToXPath_spec_witness :
    checkElementOn demoTree "/root/b".toList = some (ReturnCode.SUCCESS, some [0, 2]) ∧
      getParentNodeToXPath xmlXPathEvalExpression demoRegistry 1 "/root/b".toList = some [0] :=
  ⟨by decide,
    (getParentNodeToXPath_spec xmlXPathEvalExpression demoRegistry 1
      { demoDocument with docPtr := demoTree, handle := 1 } "/root/b".toList (by decide)).2
      (by decide) (by decide) [0, 2] (by decide)⟩

/-- C14 (counterexample): on `/root/` and on `/`, `checkElement` succeeds but
`getParentNodeToXPath` returns no node (the expression with the trailing
separator is not valid as given; the document node has no parent); on
`/root/comment()` in `<root><!--note--><a/></root>`, `checkElement` fails with
`NOT_AN_ELEMENT` but `getParentNodeToXPath` returns the `root` element. -/
theorem getParentNodeToXPath_counterexample :
    (checkElementOn demoTree "/root/".toList = some (ReturnCode.SUCCESS, some [0]) ∧
        getParentNodeToXPath xmlXPathEvalExpression demoRegistry 1 "/root/".toList = none) ∧
      (checkElementOn demoTree "/".toList = some (ReturnCode.SUCCESS, some []) ∧
        getParentNodeToXPath xmlXPathEvalExpression demoRegistry 1 "/".toList = none) ∧
      (checkElement (nodeTypeAt demoCommentTree) (demoCommentEval demoCommentTree)
            "/root/comment()".toList = some (ReturnCode.NOT_AN_ELEMENT, none) ∧
        getParentNodeToXPath demoCommentEval demoRegistryComment 1 "/root/comment()".toList =
          some [0]) := by
  decide

/-! ## Theorems: the generated path -/

theorem nodeSegment_eq_specSegment (node : XmlNodePtr) :
    nodeSegment node = specSegment node.nodeName (xmlGetProp node "uID".toList) := by
  unfold nodeSegment specSegment
  cases xmlGetProp node "uID".toList with
  | none => rfl
  | some v => simp [uidOpen, uidClose]

theorem renderNodes_eq_expectedPath (nodes : List XmlNodePtr) :
    renderNodes nodes =
      expectedPath (nodes.filter
        (fun n => decide (n.type? = some XmlElementType.XML_ELEMENT_NODE))) := by
  induction nodes with
  | nil => rfl
  | cons n rest ih =>
    by_cases hn : n.type? = some XmlElementType.XML_ELEMENT_NODE
    · have hf : (n :: rest).filter
          (fun n => decide (n.type? = some XmlElementType.XML_ELEMENT_NODE)) =
          n :: rest.filter
            (fun n => decide (n.type? = some XmlElementType.XML_ELEMENT_NODE)) := by
        simp [List.filter, hn]
      rw [hf]
      simp only [expectedPath, List.flatMap_cons] at ih ⊢
      rw [← ih]
      simp [renderNodes, hn, nodeSegment_eq_specSegment]
    · have hf : (n :: rest).filter
          (fun n => decide (n.type? = some XmlElementType.XML_ELEMENT_NODE)) =
          rest.filter (fun n => decide (n.type? = some XmlElementType.XML_ELEMENT_NODE)) := by
        simp [List.filter, hn]
      rw [hf, ← ih]
      simp [renderNodes, hn]

/-- C15: for a registered document and a node at any position of its tree, with
`e1 .. ek` the nodes of element kind on the way from the root element down to
the node, `generateXPathFromNodePtr` returns exactly `/s1/s2/../sk`, where `si`
is the tag name of `ei` when `ei` has no `uID` attribute and `tag[@uID="v"]`
when it has the `uID` value `v`; nodes of other kinds contribute no segment,
and the document node yields the empty string. -/
theorem generateXPathFromNodePtr_exact (reg : DocumentList) (handle : Int)
    (document : TixiDocument) (pos : List Nat) (mallocOk : Bool)
    (hdoc : getDocument reg handle = some document) :
    (generateXPathFromNodePtr reg handle pos mallocOk).1 =
        some (expectedPath (elementChain document.docPtr pos)) ∧
      (generateXPathFromNodePtr reg handle [] mallocOk).1 = some [] := by
  refine ⟨?_, ?_⟩
  · simp only [generateXPathFromNodePtr, hdoc, generatedPath_eq, elementChain]
    rw [renderNodes_eq_expectedPath]
  · simp only [generateXPathFromNodePtr, hdoc]
    rfl

theorem generateXPathFromNodePtr_exact_witness :
    (generateXPathFromNodePtr demoRegistry 1 [0, 0, 0] true).1 =
        some ("/root/a[@uID=".toList ++ dquote :: ("x/y".toList ++ [dquote, ']'])) ∧
      (generateXPathFromNodePtr demoRegistry 1 [] true).1 = some [] := by
  have h := generateXPathFromNodePtr_exact demoRegistry 1
    { demoDocument with docPtr := demoTree, handle := 1 } [0, 0, 0] true (by decide)
  exact ⟨h.1.trans (by decide), h.2⟩

/-! ## Theorems: copying a document -/

/-- C16: on a registry that satisfies the registry invariant, with the counter
inside the range of `int` and allocations succeeding, `copyDocument` returns
`FAILED` for a handle that is not registered and `EROROR_CREATE_ROOT_NODE` for a
tree without a root element, with the registry unchanged in both cases;
otherwise it returns `SUCCESS` and a new handle different from the source
handle, under which `getDocument` finds a document with the tree, the four file
name strings, the validity flag, the status, the print option and the
included-files flag of the source and with an empty memory list and uid list,
while `getDocument` of the source handle still finds the unchanged source. -/
theorem copyDocument_spec (reg : DocumentList) (oldHandle : Int) (hinv : RegInv reg)
    (hb : reg.handleCounter + 1 < 2 ^ 31) :
    (getDocument reg oldHandle = none →
        copyDocument reg oldHandle true true = (ReturnCode.FAILED, reg, none)) ∧
      (∀ src, getDocument reg oldHandle = some src →
        xmlDocGetRootElement src.docPtr = XmlNodePtr.NULL →
        copyDocument reg oldHandle true true =
          (ReturnCode.EROROR_CREATE_ROOT_NODE, reg, none)) ∧
      (∀ src, getDocument reg oldHandle = some src →
        xmlDocGetRootElement src.docPtr ≠ XmlNodePtr.NULL →
        ∃ reg1 newHandle cpy,
          copyDocument reg oldHandle true true = (ReturnCode.SUCCESS, reg1, some newHandle) ∧
            newHandle ≠ oldHandle ∧
            getDocument reg1 newHandle = some cpy ∧
            cpy.docPtr = src.docPtr ∧
            cpy.xmlFilename = src.xmlFilename ∧ cpy.dirname = src.dirname ∧
            cpy.filename = src.filename ∧ cpy.validationFilename = src.validationFilename ∧
            cpy.isValid = src.isValid ∧ cpy.status = src.status ∧
            cpy.usePrettyPrint = src.usePrettyPrint ∧
            cpy.hasIncludedExternalFiles = src.hasIncludedExternalFiles ∧
            cpy.memoryListHead = [] ∧ cpy.memoryListTail = [] ∧ cpy.uidListHead = [] ∧
            getDocument reg1 oldHandle = some src) := by
  refine ⟨?_, ?_, ?_⟩
  · intro h
    simp [copyDocument, h]
  · intro src h hroot
    simp [copyDocument, h, hroot]
  · intro src h hroot
    have hmem := getDocumentFrom_handle oldHandle reg.documentListHead src h
    have hrange := hinv.handle_range src hmem.1
    have hne : reg.handleCounter + 1 ≠ oldHandle := by
      rw [← hmem.2]
      omega
    cases hr : xmlDocGetRootElement src.docPtr with
    | NULL => exact absurd hr hroot
    | node t n p c ch nx =>
      have hadd := fun d => addDocumentToList_ok reg d hinv.counter_nonneg hb
      have hget := fun d k => getDocument_add reg d k hinv hb
      have hadd1 := hadd
        { handle := 0, xmlFilename := src.xmlFilename, dirname := src.dirname,
          filename := src.filename, validationFilename := src.validationFilename,
          docPtr := src.docPtr, isValid := src.isValid, status := src.status,
          memoryListHead := [], memoryListTail := [], uidListHead := [],
          hasIncludedExternalFiles := src.hasIncludedExternalFiles,
          usePrettyPrint := src.usePrettyPrint }
      have hget1 := hget
        { handle := 0, xmlFilename := src.xmlFilename, dirname := src.dirname,
          filename := src.filename, validationFilename := src.validationFilename,
          docPtr := src.docPtr, isValid := src.isValid, status := src.status,
          memoryListHead := [], memoryListTail := [], uidListHead := [],
          hasIncludedExternalFiles := src.hasIncludedExternalFiles,
          usePrettyPrint := src.usePrettyPrint }
      rw [hadd1] at hget1
      refine ⟨⟨reg.documentListHead ++ [copiedDocument src (reg.handleCounter + 1)],
          reg.handleCounter + 1⟩, reg.handleCounter + 1,
        copiedDocument src (reg.handleCounter + 1), ?_, hne, ?_,
        rfl, rfl, rfl, rfl, rfl, rfl, rfl, rfl, rfl, rfl, rfl, rfl, ?_⟩
      · simp only [copyDocument, h, hr, Bool.true_eq_false, if_false, hadd1]
        rfl
      · have := hget1 (reg.handleCounter + 1)
        rw [if_pos rfl] at this
        exact this
      · have := hget1 oldHandle
        rw [if_neg (fun e => hne e.symm)] at this
        exact this.trans h

theorem regInv_demoRegistryInlined : RegInv demoRegistryInlined :=
  (returnedHandles_increasing
    [RegistryCall.register
      { demoDocument with docPtr := demoInlined, xmlFilename := some "old.xml".toList } true]
    DocumentList.initial regInv_initial (by decide)).2.2

theorem copyDocument_spec_witness :
    copyDocument demoRegistryInlined 7 true true =
        (ReturnCode.FAILED, demoRegistryInlined, none) ∧
      ∃ reg1 newHandle cpy,
        copyDocument demoRegistryInlined 1 true true =
            (ReturnCode.SUCCESS, reg1, some newHandle) ∧
          newHandle ≠ 1 ∧ getDocument reg1 newHandle = some cpy ∧
          cpy.docPtr = demoInlined ∧ cpy.xmlFilename = some "old.xml".toList ∧
          cpy.memoryListHead = [] ∧
          getDocument reg1 1 =
            some { demoDocument with
              docPtr := demoInlined, xmlFilename := some "old.xml".toList, handle := 1 } := by
  have h := copyDocument_spec demoRegistryInlined 7 regInv_demoRegistryInlined (by decide)
  have h1 := copyDocument_spec demoRegistryInlined 1 regInv_demoRegistryInlined (by decide)
  refine ⟨h.1 (by decide), ?_⟩
  obtain ⟨reg1, newHandle, cpy, hc, hne, hg, ht, hx, _, _, _, _, _, _, _, hm, _, _, hs⟩ :=
    h1.2.2 { demoDocument with
      docPtr := demoInlined, xmlFilename := some "old.xml".toList, handle := 1 }
      (by decide) (by decide)
  exact ⟨reg1, newHandle, cpy, hc, hne, hg, ht, hx, hm, hs⟩

/-! ## Theorems: the rounds after the first file of a reference node -/

theorem fileNameXPath_second (xpath : CString) :
    xpath ++ "/filename[".toList ++ (Nat.repr (1 + 1)).toList ++ "]".toList =
      xpath ++ "/filename[2]".toList := by
  have h : (Nat.repr (1 + 1)).toList = ['2'] := by decide
  rw [h]
  simp

/-- A round whose file cannot be fetched returns `OPEN_FAILED` at once, whether
the reference node still has a parent or not. -/
theorem loadExternalFiles_fetch_failed_any (env : Env) (xpath resolved directory : CString)
    (position : List Nat) (remaining iNode : Nat) (doc : XmlNodePtr) (attached : Bool)
    (fileCounter : Int)
    (hfetch : loadExternalFileToString env
      (resolved ++ (env.tixiGetTextElement doc
        (xpath ++ "/filename[".toList ++ (Nat.repr iNode).toList ++ "]".toList)).2) = none) :
    loadExternalFiles env xpath resolved directory position (remaining + 1) iNode doc attached
        fileCounter = ⟨ReturnCode.OPEN_FAILED, doc, fileCounter⟩ := by
  unfold loadExternalFiles
  simp only [hfetch]

/-- The loop of `loadExternalDataNode` as called for a reference node whose
directory text is read and which has `n + 1` file names. -/
theorem loadExternalDataNode_loop (env : Env) (dirname : Option CString) (doc : XmlNodePtr)
    (pos : List Nat) (fileCounter : Int) (d : CString) (n : Nat)
    (hdir : env.tixiGetTextElement doc
      (env.xmlGetNodePath doc pos ++ "/".toList ++ EXTERNAL_DATA_NODE_NAME_PATH) =
      (ReturnCode.SUCCESS, d))
    (hn : (env.tixiGetNamedChildrenCount doc (env.xmlGetNodePath doc pos)
      EXTERNAL_DATA_NODE_NAME_FILENAME).toNat = n + 1) :
    loadExternalDataNode env dirname doc pos fileCounter =
      loadExternalFiles env (env.xmlGetNodePath doc pos)
        (env.resolveDirectory dirname (some d)) d pos (n + 1) 1 doc true fileCounter := by
  unfold loadExternalDataNode
  simp only [hdir, ne_eq, not_true_eq_false, if_false]
  rw [if_neg (by omega), hn]

/-- Two rounds of the loop: the first file is fetched and parsed, the file name
read in the second round cannot be fetched. -/
theorem loadExternalFiles_parsed_then_failed (env : Env) (xpath resolved directory : CString)
    (position : List Nat) (n : Nat) (doc : XmlNodePtr) (fileCounter : Int)
    (content : CString) (xmlDocument : XmlNodePtr)
    (hfetch : loadExternalFileToString env
      (resolved ++ (env.tixiGetTextElement doc (xpath ++ "/filename[1]".toList)).2) =
      some content)
    (hparse : env.xmlReadMemory content = some xmlDocument)
    (hsecond : loadExternalFileToString env
      (resolved ++ (env.tixiGetTextElement
        (modifyAt (replaceLink (stampedCopy env doc position directory
          (env.tixiGetTextElement doc (xpath ++ "/filename[1]".toList)).2 xmlDocument))
          doc position)
        (xpath ++ "/filename[2]".toList)).2) = none) :
    loadExternalFiles env xpath resolved directory position (n + 2) 1 doc true fileCounter =
      ⟨ReturnCode.OPEN_FAILED,
        modifyAt (replaceLink (stampedCopy env doc position directory
          (env.tixiGetTextElement doc (xpath ++ "/filename[1]".toList)).2 xmlDocument))
          doc position,
        wrapInt32 (fileCounter + 1)⟩ := by
  rw [loadExternalFiles]
  simp only [fileNameXPath_first, hfetch, hparse, if_true]
  exact loadExternalFiles_fetch_failed_any env xpath resolved directory position n (1 + 1) _
    false _ (by rw [fileNameXPath_second]; exact hsecond)

/-- Two rounds of the loop: the first file is fetched but does not parse, the
file name read in the second round cannot be fetched. -/
theorem loadExternalFiles_unparsed_then_failed (env : Env) (xpath resolved directory : CString)
    (position : List Nat) (n : Nat) (doc : XmlNodePtr) (fileCounter : Int)
    (content : CString)
    (hfetch : loadExternalFileToString env
      (resolved ++ (env.tixiGetTextElement doc (xpath ++ "/filename[1]".toList)).2) =
      some content)
    (hparse : env.xmlReadMemory content = none)
    (hsecond : loadExternalFileToString env
      (resolved ++ (env.tixiGetTextElement (modifyAt (replaceLink .NULL) doc position)
        (xpath ++ "/filename[2]".toList)).2) = none) :
    loadExternalFiles env xpath resolved directory position (n + 2) 1 doc true fileCounter =
      ⟨ReturnCode.OPEN_FAILED, modifyAt (replaceLink .NULL) doc position, fileCounter⟩ := by
  rw [loadExternalFiles]
  simp only [fileNameXPath_first, hfetch, hparse, if_true]
  exact loadExternalFiles_fetch_failed_any env xpath resolved directory position n (1 + 1) _
    false _ (by rw [fileNameXPath_second]; exact hsecond)

/-! ## Theorems: a file that cannot be fetched -/

/-- C6 (what the code does): when a round of `openExternalFiles` picks a reference
node whose directory text is read and which has at least one `filename` child,
the first with text `f`: if fetching the first file fails, the call returns
`OPEN_FAILED` with the tree and the counter as they were, the reference node
still in place; but if the first file is fetched and parsed, the first round of
the `for` loop replaces the reference node by the stamped copy and increments the
counter, whatever the number of `filename` children, and when the file name read
in the second round cannot be fetched the call returns `OPEN_FAILED` with the
inlined copy at the position of the reference node. -/
theorem openExternalFiles_fetch_failure (env : Env) (dirname : Option CString) (fuel : Nat)
    (doc : XmlNodePtr) (number : Int) (pos : List Nat) (d f : CString)
    (hpick : pickReference env doc = some pos)
    (hdir : env.tixiGetTextElement doc
      (env.xmlGetNodePath doc pos ++ "/".toList ++ EXTERNAL_DATA_NODE_NAME_PATH) =
      (ReturnCode.SUCCESS, d))
    (hcount : 0 < env.tixiGetNamedChildrenCount doc (env.xmlGetNodePath doc pos)
      EXTERNAL_DATA_NODE_NAME_FILENAME)
    (hname : (env.tixiGetTextElement doc
      (env.xmlGetNodePath doc pos ++ "/filename[1]".toList)).2 = f) :
    (loadExternalFileToString env (env.resolveDirectory dirname (some d) ++ f) = none →
        openExternalFilesLoop env dirname (fuel + 1) doc number =
          some ⟨ReturnCode.OPEN_FAILED, doc, number⟩) ∧
      (∀ content xmlDocument,
        loadExternalFileToString env (env.resolveDirectory dirname (some d) ++ f) =
          some content →
        env.xmlReadMemory content = some xmlDocument →
        (loadExternalDataNode env dirname doc pos number).doc =
            modifyAt (replaceLink (stampedCopy env doc pos d f xmlDocument)) doc pos ∧
          nodeAt (modifyAt (replaceLink (stampedCopy env doc pos d f xmlDocument)) doc pos) pos =
            replaceLink (stampedCopy env doc pos d f xmlDocument) (nodeAt doc pos) ∧
          (loadExternalDataNode env dirname doc pos number).fileCounter =
            wrapInt32 (number + 1) ∧
          (2 ≤ env.tixiGetNamedChildrenCount doc (env.xmlGetNodePath doc pos)
              EXTERNAL_DATA_NODE_NAME_FILENAME →
            loadExternalFileToString env
              (env.resolveDirectory dirname (some d) ++
                (env.tixiGetTextElement
                  (modifyAt (replaceLink (stampedCopy env doc pos d f xmlDocument)) doc pos)
                  (env.xmlGetNodePath doc pos ++ "/filename[2]".toList)).2) = none →
            openExternalFilesLoop env dirname (fuel + 1) doc number =
              some ⟨ReturnCode.OPEN_FAILED,
                modifyAt (replaceLink (stampedCopy env doc pos d f xmlDocument)) doc pos,
                wrapInt32 (number + 1)⟩)) := by
  obtain ⟨_, hnode⟩ := pickReference_node env doc pos hpick
  refine ⟨?_, ?_⟩
  · intro hfetch
    obtain ⟨n, hn⟩ : ∃ n, (env.tixiGetNamedChildrenCount doc (env.xmlGetNodePath doc pos)
        EXTERNAL_DATA_NODE_NAME_FILENAME).toNat = n + 1 :=
      ⟨_, (Nat.succ_pred_eq_of_pos (by omega)).symm⟩
    have hload : loadExternalDataNode env dirname doc pos number =
        ⟨ReturnCode.OPEN_FAILED, doc, number⟩ := by
      rw [loadExternalDataNode_loop env dirname doc pos number d n hdir hn]
      apply loadExternalFiles_fetch_failed
      rw [fileNameXPath_first, hname]
      exact hfetch
    unfold openExternalFilesLoop
    simp only [hpick, hload, ne_eq]
    rw [if_pos (by decide)]
  · intro content xmlDocument hfetch hparse
    obtain ⟨hdoc1, hcounter1⟩ := loadExternalDataNode_parsed_doc env dirname doc pos number d f
      content xmlDocument hdir hcount hname hfetch hparse
    refine ⟨hdoc1, nodeAt_modifyAt _ pos doc hnode, hcounter1, ?_⟩
    intro htwo hsecond
    obtain ⟨n, hn⟩ : ∃ n, (env.tixiGetNamedChildrenCount doc (env.xmlGetNodePath doc pos)
        EXTERNAL_DATA_NODE_NAME_FILENAME).toNat = n + 2 :=
      ⟨(env.tixiGetNamedChildrenCount doc (env.xmlGetNodePath doc pos)
        EXTERNAL_DATA_NODE_NAME_FILENAME).toNat - 2, by omega⟩
    have hload : loadExternalDataNode env dirname doc pos number =
        ⟨ReturnCode.OPEN_FAILED,
          modifyAt (replaceLink (stampedCopy env doc pos d f xmlDocument)) doc pos,
          wrapInt32 (number + 1)⟩ := by
      rw [loadExternalDataNode_loop env dirname doc pos number d (n + 1) hdir hn]
      have h := loadExternalFiles_parsed_then_failed env (env.xmlGetNodePath doc pos)
        (env.resolveDirectory dirname (some d)) d pos n doc number content xmlDocument
        (by rw [hname]; exact hfetch) hparse (by rw [hname]; exact hsecond)
      rw [hname] at h
      exact h
    unfold openExternalFilesLoop
    simp only [hpick, hload, ne_eq]
    rw [if_pos (by decide)]

theorem openExternalFiles_fetch_failure_witness :
    openExternalFiles demoEnv (some "work/".toList) 5 demoHostMissing =
        some ⟨ReturnCode.OPEN_FAILED, demoHostMissing, 0⟩ ∧
      openExternalFiles demoEnv (some "work/".toList) 5 demoHostTwins =
        some ⟨ReturnCode.OPEN_FAILED,
          modifyAt (replaceLink (stampedCopy demoEnv demoHostTwins [0, 0] "data/".toList
            "sub.xml".toList payloadTree)) demoHostTwins [0, 0],
          wrapInt32 (0 + 1)⟩ ∧
      (nodeAt demoHostTwins [0, 0]).nodeName = "externaldata".toList ∧
      demoGetTextElement demoHostTwins "/root/externaldata[1]/filename[2]".toList =
        (ReturnCode.SUCCESS, "missing.xml".toList) ∧
      loadExternalFileToString demoEnv "file://work/data/missing.xml".toList = none ∧
      (openExternalFiles demoEnv (some "work/".toList) 5 demoHostTwins).map
          (fun r => (r.code, r.fileCounter, (nodeAt r.doc [0, 0]).nodeName,
            (nodeAt r.doc [0, 1]).nodeName)) =
        some (ReturnCode.OPEN_FAILED, 1, "payload".toList, "externaldata".toList) :=
  ⟨(openExternalFiles_fetch_failure demoEnv (some "work/".toList) 4 demoHostMissing 0 [0, 0]
      "data/".toList "missing.xml".toList (by decide) (by decide) (by decide) (by decide)).1
      (by decide),
    ((openExternalFiles_fetch_failure demoEnv (some "work/".toList) 4 demoHostTwins 0 [0, 0]
      "data/".toList "sub.xml".toList (by decide) (by decide) (by decide) (by decide)).2
      "<payload>42</payload>".toList payloadTree (by decide) (by decide)).2.2.2 (by decide)
      (by decide),
    by decide, by decide, by decide, by decide⟩

/-! ## Theorems: a file that does not parse -/

/-- C17 (what the code does): when a round of `openExternalFiles` picks a
reference node whose directory text is read and which has a `filename` child, and
the content of its first file is fetched but does not parse, then
`loadExternalDataNode` unlinks the reference node (the sibling that followed it
takes its place, nothing is inserted) and leaves the counter as it was; for a
reference node with one `filename` child it returns `SUCCESS`, and
`openExternalFiles` goes on with the remaining reference nodes on the tree
without the node; but for a reference node with two or more `filename` children
the `for` loop goes on after the unlinking, and when the file name read in the
second round cannot be fetched the call returns `OPEN_FAILED` and no further
reference node is processed. -/
theorem openExternalFiles_parse_failure (env : Env) (dirname : Option CString) (fuel : Nat)
    (doc : XmlNodePtr) (number : Int) (pos : List Nat) (d content : CString)
    (hpick : pickReference env doc = some pos)
    (hdir : env.tixiGetTextElement doc
      (env.xmlGetNodePath doc pos ++ "/".toList ++ EXTERNAL_DATA_NODE_NAME_PATH) =
      (ReturnCode.SUCCESS, d))
    (hcount : 0 < env.tixiGetNamedChildrenCount doc (env.xmlGetNodePath doc pos)
      EXTERNAL_DATA_NODE_NAME_FILENAME)
    (hfetch : loadExternalFileToString env
      (env.resolveDirectory dirname (some d) ++
        (env.tixiGetTextElement doc (env.xmlGetNodePath doc pos ++ "/filename[1]".toList)).2) =
      some content)
    (hparse : env.xmlReadMemory content = none) :
    (loadExternalDataNode env dirname doc pos number).doc =
        modifyAt (replaceLink .NULL) doc pos ∧
      nodeAt (modifyAt (replaceLink .NULL) doc pos) pos = (nodeAt doc pos).nextSibling ∧
      (loadExternalDataNode env dirname doc pos number).fileCounter = number ∧
      (env.tixiGetNamedChildrenCount doc (env.xmlGetNodePath doc pos)
          EXTERNAL_DATA_NODE_NAME_FILENAME = 1 →
        (loadExternalDataNode env dirname doc pos number).code = ReturnCode.SUCCESS ∧
          openExternalFilesLoop env dirname (fuel + 1) doc number =
            openExternalFilesLoop env dirname fuel (modifyAt (replaceLink .NULL) doc pos)
              number) ∧
      (2 ≤ env.tixiGetNamedChildrenCount doc (env.xmlGetNodePath doc pos)
          EXTERNAL_DATA_NODE_NAME_FILENAME →
        loadExternalFileToString env
          (env.resolveDirectory dirname (some d) ++
            (env.tixiGetTextElement (modifyAt (replaceLink .NULL) doc pos)
              (env.xmlGetNodePath doc pos ++ "/filename[2]".toList)).2) = none →
        openExternalFilesLoop env dirname (fuel + 1) doc number =
          some ⟨ReturnCode.OPEN_FAILED, modifyAt (replaceLink .NULL) doc pos, number⟩) := by
  obtain ⟨_, hnode⟩ := pickReference_node env doc pos hpick
  have hload : ∀ n, (env.tixiGetNamedChildrenCount doc (env.xmlGetNodePath doc pos)
        EXTERNAL_DATA_NODE_NAME_FILENAME).toNat = n + 1 →
      loadExternalDataNode env dirname doc pos number =
        loadExternalFiles env (env.xmlGetNodePath doc pos)
          (env.resolveDirectory dirname (some d)) d pos (n + 1) 1 doc true number := by
    intro n hn
    unfold loadExternalDataNode
    simp only [hdir, ne_eq, not_true_eq_false, if_false]
    rw [if_neg (by omega), hn]
  obtain ⟨n, hn⟩ : ∃ n, (env.tixiGetNamedChildrenCount doc (env.xmlGetNodePath doc pos)
      EXTERNAL_DATA_NODE_NAME_FILENAME).toNat = n + 1 :=
    ⟨_, (Nat.succ_pred_eq_of_pos (by omega)).symm⟩
  have hun := loadExternalFiles_unparsed env (env.xmlGetNodePath doc pos)
    (env.resolveDirectory dirname (some d)) d pos n 1 doc number content
    (by rw [fileNameXPath_first]; exact hfetch) hparse
  refine ⟨?_, ?_, ?_, ?_, ?_⟩
  · rw [hload n hn]
    exact hun.1
  · rw [nodeAt_modifyAt _ pos doc hnode]
    rfl
  · rw [hload n hn]
    exact hun.2
  rotate_left
  · intro htwo hsecond
    obtain ⟨m, hm⟩ : ∃ m, n = m + 1 := ⟨n - 1, by omega⟩
    subst hm
    have hres : loadExternalDataNode env dirname doc pos number =
        ⟨ReturnCode.OPEN_FAILED, modifyAt (replaceLink .NULL) doc pos, number⟩ := by
      rw [hload (m + 1) hn]
      exact loadExternalFiles_unparsed_then_failed env (env.xmlGetNodePath doc pos)
        (env.resolveDirectory dirname (some d)) d pos m doc number content hfetch hparse hsecond
    unfold openExternalFilesLoop
    simp only [hpick, hres, ne_eq]
    rw [if_pos (by decide)]
  · intro hone
    have hn0 : n = 0 := by
      rw [hone] at hn
      simpa using hn.symm
    subst hn0
    have hres : loadExternalDataNode env dirname doc pos number =
        ⟨ReturnCode.SUCCESS, modifyAt (replaceLink .NULL) doc pos, number⟩ := by
      rw [hload 0 hn]
      unfold loadExternalFiles
      simp only [fileNameXPath_first, hfetch, hparse, if_true]
      rfl
    refine ⟨by rw [hres], ?_⟩
    conv_lhs => unfold openExternalFilesLoop
    simp only [hpick, hres, ne_eq, not_true_eq_false, if_false]

theorem openExternalFiles_parse_failure_witness :
    (loadExternalDataNode demoEnv (some "work/".toList) demoHostBadThenGood [0, 0] 0).fileCounter =
        0 ∧
      (nodeAt (modifyAt (replaceLink .NULL) demoHostBadThenGood [0, 0]) [0, 0]).nodeName =
        "externaldata".toList ∧
      (nodeAt (modifyAt (replaceLink .NULL) demoHostBadThenGood [0, 0]) [0, 1]).nodeName = [] ∧
      (openExternalFiles demoEnv (some "work/".toList) 5 demoHostBadThenGood).map
          (fun r => (r.code, r.fileCounter, (nodeAt r.doc [0, 0]).nodeName,
            (nodeAt r.doc [0, 1]).nodeName)) =
        some (ReturnCode.SUCCESS, 1, "payload".toList, []) ∧
      openExternalFiles demoEnv (some "work/".toList) 5 demoHostBadFirst =
        some ⟨ReturnCode.OPEN_FAILED, modifyAt (replaceLink .NULL) demoHostBadFirst [0, 0], 0⟩ ∧
      loadExternalFileToString demoEnv "file://work/data/bad.xml".toList =
        some "no markup".toList ∧
      (loadExternalFileToString demoEnv "file://work/data/sub.xml".toList).isSome = true ∧
      demoResolveDirectory (some "work/".toList) (some "file://work/".toList) ++
          "data/sub.xml".toList = "file://work/data/sub.xml".toList ∧
      demoGetTextElement (modifyAt (replaceLink .NULL) demoHostBadFirst [0, 0])
          "/root/externaldata[1]/filename[2]".toList =
        (ReturnCode.SUCCESS, "data/sub.xml".toList) ∧
      (nodeAt (modifyAt (replaceLink .NULL) demoHostBadFirst [0, 0]) [0, 0]).nodeName =
        "externaldata".toList :=
  ⟨(openExternalFiles_parse_failure demoEnv (some "work/".toList) 4 demoHostBadThenGood 0 [0, 0]
      "data/".toList "no markup".toList (by decide) (by decide) (by decide) (by decide)
      (by decide)).2.2.1,
    by decide, by decide, by decide,
    (openExternalFiles_parse_failure demoEnv (some "work/".toList) 4 demoHostBadFirst 0 [0, 0]
      "data/".toList "no markup".toList (by decide) (by decide) (by decide) (by decide)
      (by decide)).2.2.2.2 (by decide) (by decide),
    by decide, by decide, by decide, by decide, by decide⟩

/-! ## Theorems: the point index -/

theorem clearMemoryListLoop_eq (freed chain : List CString) :
    clearMemoryListLoop freed chain = freed ++ chain := by
  induction chain generalizing freed with
  | nil => simp [clearMemoryListLoop]
  | cons memory next ih => simp [clearMemoryListLoop, ih]

theorem addAllToMemoryList_pool (calls : List (CString × Bool)) (d : TixiDocument) :
    ((d.memoryListHead = [] ∧ d.memoryListTail = []) ∨
        ∃ init last, d.memoryListHead = init ++ [last] ∧ d.memoryListTail = [last]) →
      (addAllToMemoryList d calls).memoryListHead = d.memoryListHead ++ trackedPayloads calls ∧
        (addAllToMemoryList d calls).memoryListTail =
          ((d.memoryListHead ++ trackedPayloads calls).getLast?).toList := by
  induction calls generalizing d with
  | nil =>
    intro h
    rcases h with ⟨hh, ht⟩ | ⟨init, last, hh, ht⟩
    · simp [addAllToMemoryList, trackedPayloads, hh, ht]
    · simp [addAllToMemoryList, trackedPayloads, hh, ht]
  | cons call rest ih =>
    intro h
    obtain ⟨memory, mallocOk⟩ := call
    cases mallocOk with
    | false =>
      have hsame : (addToMemoryList d memory false).2 = d := by
        unfold addToMemoryList
        cases d.memoryListTail <;> simp
      have := ih d h
      simpa [addAllToMemoryList, hsame, trackedPayloads] using this
    | true =>
      have hstep : (addToMemoryList d memory true).2.memoryListHead =
            d.memoryListHead ++ [memory] ∧
          (addToMemoryList d memory true).2.memoryListTail = [memory] := by
        rcases h with ⟨hh, ht⟩ | ⟨init, last, hh, ht⟩
        · simp [addToMemoryList, hh, ht]
        · simp [addToMemoryList, hh, ht]
      have := ih (addToMemoryList d memory true).2
        (Or.inr ⟨d.memoryListHead, memory, hstep.1, hstep.2⟩)
      rw [hstep.1] at this
      simpa [addAllToMemoryList, trackedPayloads] using this

/-- C19: for a document whose scratch pool starts empty and any sequence of
`addToMemoryList` calls on it (succeeding or failing in their allocation),
`clearMemoryList` returns the success code, frees exactly the payloads of the
tracked entries, each once and in insertion order, and leaves `memoryListHead` and
`memoryListTail` null; a second `clearMemoryList` frees nothing and leaves the
document as the first call left it; and a later successful `addToMemoryList`
makes its entry both head and tail of a one-entry chain. -/
theorem clearMemoryList_idempotent (document : TixiDocument) (calls : List (CString × Bool))
    (memory : CString)
    (hhead : document.memoryListHead = []) (htail : document.memoryListTail = []) :
    (clearMemoryList (addAllToMemoryList document calls)).1 = InternalReturnCode.SUCESS ∧
      (clearMemoryList (addAllToMemoryList document calls)).2.2 = trackedPayloads calls ∧
      (clearMemoryList (addAllToMemoryList document calls)).2.1.memoryListHead = [] ∧
      (clearMemoryList (addAllToMemoryList document calls)).2.1.memoryListTail = [] ∧
      (clearMemoryList (clearMemoryList (addAllToMemoryList document calls)).2.1).2.2 = [] ∧
      (clearMemoryList (clearMemoryList (addAllToMemoryList document calls)).2.1).2.1 =
        (clearMemoryList (addAllToMemoryList document calls)).2.1 ∧
      (clearMemoryList (clearMemoryList (addAllToMemoryList document calls)).2.1).1 =
        InternalReturnCode.SUCESS ∧
      addToMemoryList (clearMemoryList (addAllToMemoryList document calls)).2.1 memory true =
        (InternalReturnCode.SUCESS,
          { (clearMemoryList (addAllToMemoryList document calls)).2.1 with
            memoryListHead := [memory], memoryListTail := [memory] }) := by
  have hpool := (addAllToMemoryList_pool calls document (Or.inl ⟨hhead, htail⟩)).1
  rw [hhead, List.nil_append] at hpool
  refine ⟨rfl, ?_, rfl, rfl, rfl, rfl, rfl, rfl⟩
  unfold clearMemoryList
  simp only [clearMemoryListLoop_eq, List.nil_append]
  exact hpool

theorem clearMemoryList_idempotent_witness :
    (clearMemoryList (addAllToMemoryList demoDocument
        [("a".toList, true), ("b".toList, false), ("a".toList, true), ("c".toList, true)])).2.2 =
        ["a".toList, "a".toList, "c".toList] ∧
      (addAllToMemoryList demoDocument
        [("a".toList, true), ("b".toList, false), ("a".toList, true),
          ("c".toList, true)]).memoryListTail = ["c".toList] ∧
      (clearMemoryList (clearMemoryList (addAllToMemoryList demoDocument
        [("a".toList, true), ("b".toList, false), ("a".toList, true),
          ("c".toList, true)])).2.1).2.2 = [] :=
  ⟨(clearMemoryList_idempotent demoDocument
      [("a".toList, true), ("b".toList, false), ("a".toList, true), ("c".toList, true)]
      "d".toList rfl rfl).2.1,
    by decide, by decide⟩

/-! ## Theorems: the trailing separator -/

theorem removeTrailingSlash_concat (p : CString) (hne : p ≠ []) :
    removeTrailingSlash (p ++ ['/']) = p := by
  have hlen : (p ++ ['/']).length > 1 := by
    have := List.length_pos.mpr hne
    simp only [List.length_append, List.length_singleton]
    omega
  unfold removeTrailingSlash
  rw [if_pos ⟨hlen, List.getLast?_concat _⟩, List.dropLast_concat]

theorem removeTrailingSlash_of_getLast (p : CString) (hlast : p.getLast? ≠ some '/') :
    removeTrailingSlash p = p := by
  unfold removeTrailingSlash
  rw [if_neg (fun h => hlast h.2)]

theorem checkElement_isSome {ν : Type} (nodeType : ν → XmlElementType)
    (eval : CString → Option (XmlXPathObject ν)) (path : CString)
    (hlen : path.length < elementPathSize) :
    (checkElement nodeType eval path).isSome = true := by
  unfold checkElement
  rw [if_pos hlen]
  simp only
  cases eval (removeTrailingSlash path) with
  | none => rfl
  | some obj =>
    rcases obj with ⟨_ | _ | ⟨a, l⟩⟩
    · rfl
    · rfl
    · simp only [xmlXPathNodeSetIsEmpty, List.isEmpty_cons, Bool.false_eq_true, if_false]
      split_ifs <;> rfl

/-- C20: for a non-empty path `p` that does not end in `/`: when `p` followed by
`/` fits the 1024-byte buffer of `checkElement` with its terminator (at most 1023
characters), `checkElement` on it returns the same code and the same node as on
`p`; the path `/` alone is evaluated unchanged, and of two trailing separators
only one is removed; but when `p` has exactly 1023 characters, `checkElement` on
`p` is defined while on `p` followed by `/` the buffer is left unterminated and
the behaviour is undefined. -/
theorem checkElement_trailing_slash {ν : Type} (nodeType : ν → XmlElementType)
    (eval : CString → Option (XmlXPathObject ν)) (p : CString)
    (hne : p ≠ []) (hlast : p.getLast? ≠ some '/') :
    ((p ++ ['/']).length < elementPathSize →
        checkElement nodeType eval (p ++ ['/']) = checkElement nodeType eval p) ∧
      removeTrailingSlash ['/'] = ['/'] ∧
      removeTrailingSlash (p ++ ['/', '/']) = p ++ ['/'] ∧
      (p.length + 1 = elementPathSize →
        checkElement nodeType eval (p ++ ['/']) = none ∧
          checkElement nodeType eval p ≠ none) := by
  refine ⟨?_, by decide, ?_, ?_⟩
  · intro hfit
    have hp : p.length < elementPathSize := by
      simp only [List.length_append, List.length_singleton] at hfit
      omega
    unfold checkElement
    rw [if_pos hfit, if_pos hp, removeTrailingSlash_concat p hne,
      removeTrailingSlash_of_getLast p hlast]
  · have h : p ++ ['/', '/'] = (p ++ ['/']) ++ ['/'] := by simp
    rw [h, removeTrailingSlash_concat (p ++ ['/']) (by simp)]
  · intro hfull
    have hp : p.length < elementPathSize := by omega
    have hnot : ¬ (p ++ ['/']).length < elementPathSize := by
      simp only [List.length_append, List.length_singleton]
      omega
    refine ⟨?_, ?_⟩
    · unfold checkElement
      rw [if_neg hnot]
    · have hsome := checkElement_isSome nodeType eval p hp
      intro hnone
      rw [hnone] at hsome
      simp at hsome

theorem checkElement_trailing_slash_witness :
    checkElement demoNodeType demoEval "/a/".toList = checkElement demoNodeType demoEval "/a".toList ∧
      checkElement demoNodeType demoEval (demoLongPath ++ ['/']) = none ∧
      checkElement demoNodeType demoEval demoLongPath ≠ none :=
  ⟨(checkElement_trailing_slash demoNodeType demoEval "/a".toList (by decide) (by decide)).1
      (by decide),
    (checkElement_trailing_slash demoNodeType demoEval demoLongPath (List.cons_ne_nil _ _)
      (by
        unfold demoLongPath
        rw [← List.cons_append, List.getLast?_concat]
        decide)).2.2.2
      (by
        unfold demoLongPath elementPathSize
        simp only [List.length_cons, List.length_append, List.length_replicate,
          List.length_nil])⟩

/-! ## Theorems: the registered handles across a save -/

theorem getDocument_updateDocument_isSome (reg : DocumentList) (k h : Int)
    (f : TixiDocument → TixiDocument) (hf : ∀ d, (f d).handle = d.handle) :
    (getDocument (updateDocument reg k f) h).isSome = (getDocument reg h).isSome := by
  unfold getDocument updateDocument
  simp only
  rw [getDocumentFrom_update_other h k f hf]
  cases getDocumentFrom h reg.documentListHead <;> rfl

theorem map_handle_updateDocumentIn (k : Int) (f : TixiDocument → TixiDocument)
    (hf : ∀ d, (f d).handle = d.handle) (l : List TixiDocument) :
    (updateDocumentIn k f l).map (fun d => d.handle) = l.map (fun d => d.handle) := by
  induction l with
  | nil => rfl
  | cons d rest ih =>
    by_cases hd : d.handle = k
    · simp [updateDocumentIn, hd, hf]
    · simp [updateDocumentIn, hd, ih]

theorem regInv_updateDocument (reg : DocumentList) (k : Int) (f : TixiDocument → TixiDocument)
    (hf : ∀ d, (f d).handle = d.handle) (hinv : RegInv reg) :
    RegInv (updateDocument reg k f) := by
  have hmap := map_handle_updateDocumentIn k f hf reg.documentListHead
  refine ⟨hinv.counter_nonneg, ?_, ?_⟩
  · intro d hd
    have hmem : d.handle ∈ (updateDocumentIn k f reg.documentListHead).map (fun d => d.handle) :=
      List.mem_map.mpr ⟨d, hd, rfl⟩
    rw [hmap, List.mem_map] at hmem
    obtain ⟨e, he, heq⟩ := hmem
    have := hinv.handle_range e he
    rw [heq] at this
    exact this
  · show ((updateDocumentIn k f reg.documentListHead).map (fun d => d.handle)).Nodup
    rw [hmap]
    exact hinv.nodup

theorem getDocument_counter_succ (reg : DocumentList) (hinv : RegInv reg) :
    getDocument reg (reg.handleCounter + 1) = none := by
  unfold getDocument
  rw [getDocumentFrom_eq_none]
  intro d hd hdk
  have := hinv.handle_range d hd
  omega

theorem copyDocument_registry (reg : DocumentList) (handle : Int) (document : TixiDocument)
    (hinv : RegInv reg) (hb : reg.handleCounter + 1 < 2 ^ 31)
    (hdoc : getDocument reg handle = some document)
    (hroot : xmlDocGetRootElement document.docPtr ≠ XmlNodePtr.NULL) :
    copyDocument reg handle true true =
        (ReturnCode.SUCCESS,
          (addDocumentToList reg (copiedDocument document 0) true).2.1,
          some (reg.handleCounter + 1)) ∧
      (addDocumentToList reg (copiedDocument document 0) true).2.1 =
        ⟨reg.documentListHead ++ [copiedDocument document (reg.handleCounter + 1)],
          reg.handleCounter + 1⟩ := by
  have hadd := addDocumentToList_ok reg (copiedDocument document 0) hinv.counter_nonneg hb
  cases hr : xmlDocGetRootElement document.docPtr with
  | NULL => exact absurd hr hroot
  | node t n p c ch nx =>
    refine ⟨?_, ?_⟩
    · rw [hadd]
      have hadd0 : addDocumentToList reg
          { handle := 0, xmlFilename := document.xmlFilename, dirname := document.dirname,
            filename := document.filename, validationFilename := document.validationFilename,
            docPtr := document.docPtr, isValid := document.isValid, status := document.status,
            memoryListHead := [], memoryListTail := [], uidListHead := [],
            hasIncludedExternalFiles := document.hasIncludedExternalFiles,
            usePrettyPrint := document.usePrettyPrint } true =
          addDocumentToList reg (copiedDocument document 0) true := rfl
      simp only [copyDocument, hdoc, hr, Bool.true_eq_false, if_false, hadd0, hadd]
    · rw [hadd]
      rfl

/-- C21: on a registry that satisfies the registry invariant with the counter
inside the range of `int`, for a registered document, a non-null file name,
allocations succeeding, a root element present when a copy is made, and
`uriToLocalPath` defined on `file://` locations: `saveDocument` reaches the final
serialisation, and when that call does not return `-1` it returns `SUCCESS`; in
the modes `COMPLETE` and `SPLITTED` `getDocument` then finds a document for
exactly the handles it found one for before the call, while in the mode
`REMOVED` the handle `handleCounter + 1` of the temporary copy, not registered
before the call, is still registered afterwards, every other handle being as
before. -/
theorem saveDocument_registered_handles (env : Env) (reg : DocumentList) (handle : Int)
    (xmlFilename : CString) (saveMode : InternalSaveMode) (document : TixiDocument)
    (hinv : RegInv reg) (hb : reg.handleCounter + 1 < 2 ^ 31)
    (hdoc : getDocument reg handle = some document)
    (hroot : saveMode ≠ InternalSaveMode.COMPLETE →
      xmlDocGetRootElement document.docPtr ≠ XmlNodePtr.NULL)
    (huri : ∀ s, string_startsWith s "file://".toList = 0 → (env.uriToLocalPath s).isSome) :
    ∃ r tree format,
      saveDocument env reg handle (some xmlFilename) saveMode true true = some r ∧
        r.serialized = some (tree, format, env.xmlSaveFormatFileEnc xmlFilename tree format) ∧
        (env.xmlSaveFormatFileEnc xmlFilename tree format ≠ -1 →
          r.code = ReturnCode.SUCCESS ∧
            (saveMode ≠ InternalSaveMode.REMOVED →
              ∀ k, (getDocument r.reg k).isSome = (getDocument reg k).isSome) ∧
            (saveMode = InternalSaveMode.REMOVED →
              getDocument reg (reg.handleCounter + 1) = none ∧
                (getDocument r.reg (reg.handleCounter + 1)).isSome = true ∧
                ∀ k, k ≠ reg.handleCounter + 1 →
                  (getDocument r.reg k).isSome = (getDocument reg k).isSome)) := by
  have hfresh := getDocument_counter_succ reg hinv
  have hinv1 := regInv_add reg (copiedDocument document 0) hinv hb
  have hget1 := fun k => getDocument_add reg (copiedDocument document 0) k hinv hb
  have hsaved : ∀ (d : TixiDocument),
      ({ d with xmlFilename := some xmlFilename, status := DocumentStatus.SAVED } :
        TixiDocument).handle = d.handle := fun _ => rfl
  cases saveMode with
  | COMPLETE =>
    unfold saveDocument
    simp only [hdoc]
    by_cases hret :
        env.xmlSaveFormatFileEnc xmlFilename document.docPtr document.usePrettyPrint = -1
    · rw [if_pos hret]
      exact ⟨_, _, _, rfl, rfl, fun h => absurd hret h⟩
    · rw [if_neg hret]
      refine ⟨_, _, _, rfl, rfl, fun _ => ⟨rfl, fun _ k => ?_, fun h => absurd h (by decide)⟩⟩
      exact getDocument_updateDocument_isSome reg handle k _ hsaved
  | SPLITTED =>
    obtain ⟨hcopy, _⟩ := copyDocument_registry reg handle document hinv hb hdoc
      (hroot (by decide))
    have hget := hget1 (reg.handleCounter + 1)
    rw [if_pos rfl] at hget
    obtain ⟨⟨tree, written⟩, htree⟩ := fromRootElement_defined
      (fun rootNode => (saveExternalFiles env (env.strip_dirname xmlFilename).1 rootNode).map
        (fun r => (r.2.1, r.2.2)))
      (fun t => by
        obtain ⟨r, hr⟩ := saveExternalFiles_defined env (env.strip_dirname xmlFilename).1 huri t
        exact ⟨(r.2.1, r.2.2), by simp only [hr, Option.map_some']⟩)
      document.docPtr
    have htree1 : fromRootElement
        (fun rootNode => (saveExternalFiles env (env.strip_dirname xmlFilename).1 rootNode).map
          (fun r => (r.2.1, r.2.2)))
        ({ copiedDocument document 0 with handle := reg.handleCounter + 1 } :
          TixiDocument).docPtr = some (tree, written) := htree
    unfold saveDocument
    simp only [hdoc, hcopy, hget, htree1]
    by_cases hret : env.xmlSaveFormatFileEnc xmlFilename tree document.usePrettyPrint = -1
    · rw [if_pos hret]
      exact ⟨_, _, _, rfl, rfl, fun h => absurd hret h⟩
    · rw [if_neg hret]
      have hinv2 : RegInv (updateDocument
          (addDocumentToList reg (copiedDocument document 0) true).2.1 (reg.handleCounter + 1)
          (fun d => { d with
            dirname := (env.strip_dirname xmlFilename).1,
            filename := (env.strip_dirname xmlFilename).2, docPtr := tree })) :=
        regInv_updateDocument _ _ _ (fun _ => rfl) hinv1
      have hreg : ∀ k, (getDocument (recordSaved (removeDocumentFromList (updateDocument
            (addDocumentToList reg (copiedDocument document 0) true).2.1 (reg.handleCounter + 1)
            (fun d => { d with
              dirname := (env.strip_dirname xmlFilename).1,
              filename := (env.strip_dirname xmlFilename).2, docPtr := tree }))
            (reg.handleCounter + 1)).2 handle xmlFilename) k).isSome =
          (getDocument reg k).isSome := by
        intro k
        unfold recordSaved
        rw [getDocument_updateDocument_isSome _ handle k _ hsaved,
          getDocument_remove _ (reg.handleCounter + 1) k hinv2]
        by_cases hk : k = reg.handleCounter + 1
        · rw [if_pos hk, hk, hfresh]
        · rw [if_neg hk,
            getDocument_updateDocument_isSome
              (addDocumentToList reg (copiedDocument document 0) true).2.1
              (reg.handleCounter + 1) k
              (fun d => { d with
                dirname := (env.strip_dirname xmlFilename).1,
                filename := (env.strip_dirname xmlFilename).2, docPtr := tree })
              (fun _ => rfl),
            hget1 k, if_neg hk]
      exact ⟨_, _, _, rfl, rfl, fun _ => ⟨rfl, fun _ k => hreg k, fun h => absurd h (by decide)⟩⟩
  | REMOVED =>
    obtain ⟨hcopy, _⟩ := copyDocument_registry reg handle document hinv hb hdoc
      (hroot (by decide))
    have hget := hget1 (reg.handleCounter + 1)
    rw [if_pos rfl] at hget
    obtain ⟨⟨tree, written⟩, htree⟩ := fromRootElement_defined
      (fun rootNode => some (removeExternalNodes rootNode, []))
      (fun t => ⟨_, rfl⟩) document.docPtr
    have htree1 : fromRootElement (fun rootNode => some (removeExternalNodes rootNode, []))
        ({ copiedDocument document 0 with handle := reg.handleCounter + 1 } :
          TixiDocument).docPtr = some (tree, written) := htree
    unfold saveDocument
    simp only [hdoc, hcopy, hget, htree1]
    by_cases hret : env.xmlSaveFormatFileEnc xmlFilename tree
        ({ copiedDocument document 0 with handle := reg.handleCounter + 1 } :
          TixiDocument).usePrettyPrint = -1
    · rw [if_pos hret]
      exact ⟨_, _, _, rfl, rfl, fun h => absurd hret h⟩
    · rw [if_neg hret]
      have hreg : ∀ k, (getDocument (recordSaved (updateDocument
            (addDocumentToList reg (copiedDocument document 0) true).2.1
            (reg.handleCounter + 1) (fun d => { d with docPtr := tree })) handle xmlFilename)
            k).isSome =
          (if k = reg.handleCounter + 1 then true else (getDocument reg k).isSome) := by
        intro k
        unfold recordSaved
        rw [getDocument_updateDocument_isSome _ handle k _ hsaved,
          getDocument_updateDocument_isSome
            (addDocumentToList reg (copiedDocument document 0) true).2.1
            (reg.handleCounter + 1) k (fun d => { d with docPtr := tree }) (fun _ => rfl),
          hget1 k]
        by_cases hk : k = reg.handleCounter + 1
        · rw [if_pos hk, if_pos hk]
          rfl
        · rw [if_neg hk, if_neg hk]
      refine ⟨_, _, _, rfl, rfl, fun _ => ⟨rfl, fun h => absurd rfl h, fun _ => ⟨hfresh, ?_, ?_⟩⟩⟩
      · have := hreg (reg.handleCounter + 1)
        rw [if_pos rfl] at this
        exact this
      · intro k hk
        have := hreg k
        rw [if_neg hk] at this
        exact this

theorem saveDocument_registered_handles_witness :
    (∃ r tree format,
      saveDocument demoEnv demoRegistryInlined 1 (some "out.xml".toList)
          InternalSaveMode.REMOVED true true = some r ∧
        r.serialized =
          some (tree, format, demoEnv.xmlSaveFormatFileEnc "out.xml".toList tree format) ∧
        (demoEnv.xmlSaveFormatFileEnc "out.xml".toList tree format ≠ -1 →
          r.code = ReturnCode.SUCCESS ∧
            (InternalSaveMode.REMOVED ≠ InternalSaveMode.REMOVED →
              ∀ k, (getDocument r.reg k).isSome = (getDocument demoRegistryInlined k).isSome) ∧
            (InternalSaveMode.REMOVED = InternalSaveMode.REMOVED →
              getDocument demoRegistryInlined (demoRegistryInlined.handleCounter + 1) = none ∧
                (getDocument r.reg (demoRegistryInlined.handleCounter + 1)).isSome = true ∧
                ∀ k, k ≠ demoRegistryInlined.handleCounter + 1 →
                  (getDocument r.reg k).isSome = (getDocument demoRegistryInlined k).isSome))) ∧
      (saveDocument demoEnv demoRegistryInlined 1 (some "out.xml".toList)
          InternalSaveMode.REMOVED true true).map
          (fun r => (r.code, r.reg.documentListHead.map (fun d => d.handle),
            (getDocument r.reg 2).isSome)) =
        some (ReturnCode.SUCCESS, [1, 2], true) ∧
      demoRegistryInlined.documentListHead.map (fun d => d.handle) = [1] ∧
      (getDocument demoRegistryInlined 2).isSome = false ∧
      (saveDocument demoEnv demoRegistryInlined 1 (some "out.xml".toList)
          InternalSaveMode.SPLITTED true true).map
          (fun r => (r.code, r.reg.documentListHead.map (fun d => d.handle))) =
        some (ReturnCode.SUCCESS, [1]) ∧
      (saveDocument demoEnv demoRegistryInlined 1 (some "out.xml".toList)
          InternalSaveMode.COMPLETE true true).map
          (fun r => (r.code, r.reg.documentListHead.map (fun d => d.handle))) =
        some (ReturnCode.SUCCESS, [1]) :=
  ⟨saveDocument_registered_handles demoEnv demoRegistryInlined 1 "out.xml".toList
      InternalSaveMode.REMOVED
      { demoDocument with
        docPtr := demoInlined, xmlFilename := some "old.xml".toList, handle := 1 }
      regInv_demoRegistryInlined (by decide) (by decide) (by decide) demoEnv_uriToLocalPath,
    by decide, by decide, by decide, by decide, by decide⟩

/-! ## Theorems: the round trip through later rounds -/

end Tixi
